import Mathlib

/-!
# BOUT++ metric tensor algebra and distributed index translation

A shallow embedding of

* `src/mesh/metricTensor.cxx` (`MetricTensor::check`, `MetricTensor::inverse`,
  `MetricTensor::applyToComponents`),
* `include/bout/ContravariantMetricTensor.cpp` (`ContravariantMetricTensor::calcCovariant`),
* `src/mesh/interpolation/hermite_spline_xz.cxx` (`IndConverter`,
  `XZHermiteSpline::calcWeights` with its row assembly, `XZHermiteSpline::interpolate`,
  `XZHermiteSpline::getWeightsForYApproximation`),
* `src/invert/laplace/impls/petscamg/petscamg_set.cxx` (`LaplacePetscAmg::solve`).

Conventions of the embedding.

* `BoutReal` arithmetic of the inversion kernels is exact: values are rationals.
  The validation routine `MetricTensor::check`, whose whole purpose is to reject
  non-finite values, works on `BoutValue`, rationals extended by `±inf` and `nan`.
* A C++ `int` is an element of `ℤ`; `/` on `int` is truncating division
  (`Int.tdiv`).  Signed overflow is undefined behaviour in C++ and is not modelled.
* A region is the list of indices that `BOUT_FOR_SERIAL` visits, in order.
* A function that throws returns `Except`; what it writes to `output_error` or
  `output_info` is part of the value it returns.
* Freshly allocated storage (`emptyFrom`, `Matrix<BoutReal>(3, 3)`) has
  unspecified content, which the embedding takes as an explicit argument.
* The grid location tag of a field (`getLocation`, `setLocation`) and the `TRACE`
  bookkeeping carry no data of the computation and are left out.
* A `while` loop runs on fuel: the function returns `none` when the loop has not
  finished within the fuel, and the theorems say how much fuel is enough.
* `static_cast<int>(floor(x))` is the integer floor `⌊x⌋`.
* A PETSc `Vec` and a C array are functions on `ℤ`; the linear solver behind `KSPSolve`
  is a black box given by the vector and the reason it returns; `sqrt` is an argument of
  the functions that call it.
* A field read through a flat index (`f[ic]`) is a function on `ℤ`; the neighbour
  lookups of `SpecificInd` (`xp`, `xm`, `zp`, `zm` and their compositions) are one
  argument `nb ind dx dz` of the functions that use them, and so are the derivative
  fields `DDX(f)`, `DDZ(f)`, `DDX(DDZ(f))` of the basis mode of `interpolate`.
-/

namespace BOUT

/-! ## Data model -/

/-- Index of a point of a two-dimensional field (`Ind2D`), with its `x()` and `y()`. -/
structure Ind2D where
  x : Int
  y : Int
deriving DecidableEq, Repr

/-- A region: the indices visited by `BOUT_FOR_SERIAL(i, f.getRegion(region))`, in order. -/
abbrev Region := List Ind2D

/-- `BoutReal` in exact arithmetic. -/
abbrev BoutReal := ℚ

/-- The data of a `Field2D` of `BoutReal`, read and written through `f[i]`. -/
abbrev Field2D := Ind2D → BoutReal

/-- `Matrix<BoutReal>(3, 3)`: entry `a(i, j)` is the field `aij`. -/
structure Matrix3 where
  a00 : BoutReal
  a01 : BoutReal
  a02 : BoutReal
  a10 : BoutReal
  a11 : BoutReal
  a12 : BoutReal
  a20 : BoutReal
  a21 : BoutReal
  a22 : BoutReal
deriving DecidableEq, Repr

/-- The class `MetricTensor`: six components `g11_ … g23_` of type `FieldMetric`.
`FieldMetric` is a build-time alias in the source, here the type argument `F`. -/
structure MetricTensor (F : Type) where
  g11_ : F
  g22_ : F
  g33_ : F
  g12_ : F
  g13_ : F
  g23_ : F

/-- The scalar constructor `MetricTensor(g11, g22, g33, g12, g13, g23, mesh)`:
each component is the constant field `FieldMetric(gij, mesh)`. -/
def MetricTensor.ofScalars (g11 g22 g33 g12 g13 g23 : BoutReal) : MetricTensor Field2D :=
  { g11_ := fun _ => g11, g22_ := fun _ => g22, g33_ := fun _ => g33,
    g12_ := fun _ => g12, g13_ := fun _ => g13, g23_ := fun _ => g23 }

/-- `BoutException`: the exception object, determined by the one string handed to its
constructor (the class itself is declared outside the sources at hand). -/
structure BoutException where
  what : String
deriving DecidableEq, Repr

/-- One call `output_error.write(format, args...)`: the format string and its arguments. -/
structure LogWrite where
  format : String
  args : List Int
deriving DecidableEq, Repr

/-- A failed inversion: what was written to `output_error`, and the exception thrown. -/
structure InversionFailure where
  logged : LogWrite
  thrown : BoutException
deriving DecidableEq, Repr

/-! ## 3x3 inversion -/

/-- The determinant of a 3x3 matrix, expanded along its first row by cofactors. -/
def Matrix3.det (a : Matrix3) : BoutReal :=
  a.a00 * (a.a11 * a.a22 - a.a12 * a.a21)
    + a.a01 * (a.a12 * a.a20 - a.a10 * a.a22)
    + a.a02 * (a.a10 * a.a21 - a.a11 * a.a20)

/-- Modelled from the spec: `invert3x3` is called by `MetricTensor::inverse` and
`ContravariantMetricTensor::calcCovariant`, but its body (`bout/utils.hxx`) is not among
the sources. The spec (§4.1): "invert it by direct analytic 3×3 inversion
(cofactor/adjugate method, not iterative)"; "if the determinant is (numerically) zero,
inversion fails". The callers test `if (invert3x3(a))`, so failure is a non-zero status;
on success the matrix is overwritten in place by adjugate / determinant. -/
def invert3x3 (a : Matrix3) : Int × Matrix3 :=
  let A := a.a11 * a.a22 - a.a12 * a.a21
  let B := a.a12 * a.a20 - a.a10 * a.a22
  let C := a.a10 * a.a21 - a.a11 * a.a20
  let det := a.a00 * A + a.a01 * B + a.a02 * C
  if det = 0 then (1, a)
  else
    let D := a.a02 * a.a21 - a.a01 * a.a22
    let E := a.a00 * a.a22 - a.a02 * a.a20
    let F := a.a01 * a.a20 - a.a00 * a.a21
    let G := a.a01 * a.a12 - a.a02 * a.a11
    let H := a.a02 * a.a10 - a.a00 * a.a12
    let I := a.a00 * a.a11 - a.a01 * a.a10
    (0, { a00 := A / det, a01 := D / det, a02 := G / det,
          a10 := B / det, a11 := E / det, a12 := H / det,
          a20 := C / det, a21 := F / det, a22 := I / det })

/-! ## `MetricTensor::inverse` -/

/-- The format string `error_message` of `MetricTensor::inverse` and `calcCovariant`. -/
def error_message : String :=
  "\tERROR: metric tensor is singular at (\x7b:d\x7d, \x7b:d\x7d)\n"

/-- The matrix `a` as filled at point `i` (lines 86–92 of `metricTensor.cxx`). -/
def MetricTensor.fill (self : MetricTensor Field2D) (i : Ind2D) : Matrix3 :=
  { a00 := self.g11_ i, a11 := self.g22_ i, a22 := self.g33_ i,
    a01 := self.g12_ i, a10 := self.g12_ i,
    a12 := self.g23_ i, a21 := self.g23_ i,
    a02 := self.g13_ i, a20 := self.g13_ i }

/-- The assignment `f[i] = v`. -/
def Field2D.set (f : Field2D) (i : Ind2D) (v : BoutReal) : Field2D :=
  fun j => if j = i then v else f j

/-- The six writes `g_11[i] = a(0, 0); … g_23[i] = a(1, 2)` (lines 100–105). -/
def MetricTensor.store (out : MetricTensor Field2D) (i : Ind2D) (a : Matrix3) :
    MetricTensor Field2D :=
  { g11_ := Field2D.set out.g11_ i a.a00,
    g22_ := Field2D.set out.g22_ i a.a11,
    g33_ := Field2D.set out.g33_ i a.a22,
    g12_ := Field2D.set out.g12_ i a.a01,
    g13_ := Field2D.set out.g13_ i a.a02,
    g23_ := Field2D.set out.g23_ i a.a12 }

/-- The loop `BOUT_FOR_SERIAL(i, g11_.getRegion(region))` of `MetricTensor::inverse`
(lines 85–106). `out` holds the local fields `g_11 … g_23`. On a non-zero status of
`invert3x3` the message is written to `output_error` with `i.x()`, `i.y()`, and
`BoutException(error_message)` is thrown. -/
def MetricTensor.inverseLoop (self : MetricTensor Field2D) :
    Region → MetricTensor Field2D → Except InversionFailure (MetricTensor Field2D)
  | [], out => .ok out
  | i :: rest, out =>
    let r := invert3x3 (self.fill i)
    if r.1 ≠ 0 then
      .error { logged := { format := error_message, args := [i.x, i.y] },
               thrown := { what := error_message } }
    else
      MetricTensor.inverseLoop self rest (out.store i r.2)

/-- The tensor that the six writes at `p` produce from the inverted matrix. -/
def MetricTensor.inverseAt (t : MetricTensor Field2D) (p : Ind2D) : Matrix3 :=
  (invert3x3 (t.fill p)).2

/-- A tensor `g` agrees on a region with the pointwise inverse of `t`. -/
def MetricTensor.IsInverseOn (t g : MetricTensor Field2D) (region : Region) : Prop :=
  ∀ p ∈ region,
    g.g11_ p = (t.inverseAt p).a00 ∧ g.g22_ p = (t.inverseAt p).a11
      ∧ g.g33_ p = (t.inverseAt p).a22 ∧ g.g12_ p = (t.inverseAt p).a01
      ∧ g.g13_ p = (t.inverseAt p).a02 ∧ g.g23_ p = (t.inverseAt p).a12

/-- Two tensors agree off a region. -/
def MetricTensor.AgreeOff (g out : MetricTensor Field2D) (region : Region) : Prop :=
  ∀ p, p ∉ region →
    g.g11_ p = out.g11_ p ∧ g.g22_ p = out.g22_ p ∧ g.g33_ p = out.g33_ p
      ∧ g.g12_ p = out.g12_ p ∧ g.g13_ p = out.g13_ p ∧ g.g23_ p = out.g23_ p

/-- Modelled from the spec: `max(const Field2D&)` of the field library is not among the
sources; the spec (§4.1) uses it for the "maximum absolute deviation" and the "maximum
absolute off-diagonal double-contraction". The running maximum is started at the first
point of the region (`0` for an empty region). -/
def fieldMax (rgn : Region) (f : Field2D) : BoutReal :=
  match rgn with
  | [] => 0
  | i :: rest => rest.foldl (fun m j => max m (f j)) (f i)

/-- The macro `BOUTMAX` at three arguments. -/
def BOUTMAX (a b c : BoutReal) : BoutReal := max a (max b c)

/-- What `MetricTensor::inverse` returns and reports: the tensor `other_representation`
and the two values written to `output_info` ("Maximum error in diagonal inversion",
"Maximum error in off-diagonal inversion"). -/
structure InverseReport where
  tensor : MetricTensor Field2D
  maxerr_diagonal : BoutReal
  maxerr_offdiagonal : BoutReal

/-- `MetricTensor::inverse(region)` (lines 69–125). `fresh` is the content of the six
fields obtained by `emptyFrom`; `rgnMax` is the region over which `max` runs. The two
residuals are transcribed from lines 109–117, where every operand is one of the local
fields `g_11 … g_23`. -/
def MetricTensor.inverse (self : MetricTensor Field2D) (region : Region)
    (fresh : MetricTensor Field2D) (rgnMax : Region) : Except InversionFailure InverseReport :=
  match MetricTensor.inverseLoop self region fresh with
  | .error e => .error e
  | .ok g =>
    let g_11 := g.g11_
    let g_22 := g.g22_
    let g_33 := g.g33_
    let g_12 := g.g12_
    let g_13 := g.g13_
    let g_23 := g.g23_
    let maxerr1 :=
      BOUTMAX (fieldMax rgnMax (fun p => |(g_11 p * g_11 p + g_12 p * g_12 p + g_13 p * g_13 p) - 1|))
              (fieldMax rgnMax (fun p => |(g_12 p * g_12 p + g_22 p * g_22 p + g_23 p * g_23 p) - 1|))
              (fieldMax rgnMax (fun p => |(g_13 p * g_13 p + g_23 p * g_23 p + g_33 p * g_33 p) - 1|))
    let maxerr2 :=
      BOUTMAX (fieldMax rgnMax (fun p => |g_11 p * g_12 p + g_12 p * g_22 p + g_13 p * g_23 p|))
              (fieldMax rgnMax (fun p => |g_11 p * g_13 p + g_12 p * g_23 p + g_13 p * g_33 p|))
              (fieldMax rgnMax (fun p => |g_12 p * g_13 p + g_22 p * g_23 p + g_23 p * g_33 p|))
    .ok { tensor := { g11_ := g_11, g22_ := g_22, g33_ := g_33,
                      g12_ := g_12, g13_ := g_13, g23_ := g_23 },
          maxerr_diagonal := maxerr1,
          maxerr_offdiagonal := maxerr2 }

/-- The symmetric 3x3 matrix of a tensor at a point. -/
def MetricTensor.toMatrix (t : MetricTensor Field2D) (p : Ind2D) : Matrix (Fin 3) (Fin 3) ℚ :=
  !![t.g11_ p, t.g12_ p, t.g13_ p;
     t.g12_ p, t.g22_ p, t.g23_ p;
     t.g13_ p, t.g23_ p, t.g33_ p]

/-! ## `ContravariantMetricTensor::calcCovariant` -/

/-- The member `contravariant_components` of `ContravariantMetricTensor`. -/
structure ContravariantComponents where
  g11 : Field2D
  g22 : Field2D
  g33 : Field2D
  g12 : Field2D
  g13 : Field2D
  g23 : Field2D

/-- The class `ContravariantMetricTensor`. -/
structure ContravariantMetricTensor where
  contravariant_components : ContravariantComponents

/-- The class `CovariantMetricTensor` (`CovariantMetricTensor.hxx`, private members). -/
structure CovariantMetricTensor where
  g_11 : Field2D
  g_22 : Field2D
  g_33 : Field2D
  g_12 : Field2D
  g_13 : Field2D
  g_23 : Field2D

/-- Modelled from the spec: the scalar constructor
`CovariantMetricTensor(g_11, g_22, g_33, g_12, g_13, g_23, mesh)` is declared in
`CovariantMetricTensor.hxx` but its body is not among the sources. The spec (§3):
"six uniform scalar values broadcast across a mesh", as the scalar constructors of
`MetricTensor` and `ContravariantMetricTensor` do with `FieldMetric(g, mesh)`. -/
def CovariantMetricTensor.ofScalars (g_11 g_22 g_33 g_12 g_13 g_23 : BoutReal) :
    CovariantMetricTensor :=
  { g_11 := fun _ => g_11, g_22 := fun _ => g_22, g_33 := fun _ => g_33,
    g_12 := fun _ => g_12, g_13 := fun _ => g_13, g_23 := fun _ => g_23 }

/-- The matrix `a` as filled at point `i` (lines 58–64 of `ContravariantMetricTensor.cpp`). -/
def ContravariantMetricTensor.fill (self : ContravariantMetricTensor) (i : Ind2D) : Matrix3 :=
  { a00 := self.contravariant_components.g11 i,
    a11 := self.contravariant_components.g22 i,
    a22 := self.contravariant_components.g33 i,
    a01 := self.contravariant_components.g12 i,
    a10 := self.contravariant_components.g12 i,
    a12 := self.contravariant_components.g23 i,
    a21 := self.contravariant_components.g23 i,
    a02 := self.contravariant_components.g13 i,
    a20 := self.contravariant_components.g13 i }

/-- The loop of `calcCovariant` (lines 57–71). Its only state is the matrix `a`: the
body fills `a`, inverts it in place, and writes nothing else. -/
def ContravariantMetricTensor.calcCovariantLoop (self : ContravariantMetricTensor) :
    Region → Matrix3 → Except InversionFailure Matrix3
  | [], a => .ok a
  | i :: rest, _ =>
    let r := invert3x3 (self.fill i)
    if r.1 ≠ 0 then
      .error { logged := { format := error_message, args := [i.x, i.y] },
               thrown := { what := error_message } }
    else
      ContravariantMetricTensor.calcCovariantLoop self rest r.2

/-- What `calcCovariant` returns and reports to `output_info`. -/
structure CovariantReport where
  tensor : CovariantMetricTensor
  maxerr_diagonal : BoutReal
  maxerr_offdiagonal : BoutReal

/-- `ContravariantMetricTensor::calcCovariant(location, region)` (lines 47–113).
`a0` is the content of `Matrix<BoutReal>(3, 3)` before the loop; `rgnMax` is the region
over which `max` runs. After the loop the covariant tensor is built by the scalar
constructor from the entries of `a` (lines 76–77). -/
def ContravariantMetricTensor.calcCovariant (self : ContravariantMetricTensor)
    (region : Region) (a0 : Matrix3) (rgnMax : Region) :
    Except InversionFailure CovariantReport :=
  match ContravariantMetricTensor.calcCovariantLoop self region a0 with
  | .error e => .error e
  | .ok a =>
    let covariantMetricTensor :=
      CovariantMetricTensor.ofScalars a.a00 a.a11 a.a22 a.a01 a.a02 a.a12
    let cov := covariantMetricTensor
    let con := self.contravariant_components
    let maxerr1 :=
      BOUTMAX
        (fieldMax rgnMax (fun p =>
          |(cov.g_11 p * con.g11 p + cov.g_12 p * con.g12 p + cov.g_13 p * con.g13 p) - 1|))
        (fieldMax rgnMax (fun p =>
          |(cov.g_12 p * con.g12 p + cov.g_22 p * con.g22 p + cov.g_23 p * con.g23 p) - 1|))
        (fieldMax rgnMax (fun p =>
          |(cov.g_13 p * con.g13 p + cov.g_23 p * con.g23 p + cov.g_33 p * con.g33 p) - 1|))
    let maxerr2 :=
      BOUTMAX
        (fieldMax rgnMax (fun p =>
          |cov.g_11 p * con.g12 p + cov.g_12 p * con.g22 p + cov.g_13 p * con.g23 p|))
        (fieldMax rgnMax (fun p =>
          |cov.g_11 p * con.g13 p + cov.g_12 p * con.g23 p + cov.g_13 p * con.g33 p|))
        (fieldMax rgnMax (fun p =>
          |cov.g_12 p * con.g13 p + cov.g_22 p * con.g23 p + cov.g_23 p * con.g33 p|))
    .ok { tensor := covariantMetricTensor,
          maxerr_diagonal := maxerr1,
          maxerr_offdiagonal := maxerr2 }

/-- The symmetric 3x3 matrix of a contravariant tensor at a point. -/
def ContravariantMetricTensor.toMatrix (t : ContravariantMetricTensor) (p : Ind2D) :
    Matrix (Fin 3) (Fin 3) ℚ :=
  !![t.contravariant_components.g11 p, t.contravariant_components.g12 p,
       t.contravariant_components.g13 p;
     t.contravariant_components.g12 p, t.contravariant_components.g22 p,
       t.contravariant_components.g23 p;
     t.contravariant_components.g13 p, t.contravariant_components.g23 p,
       t.contravariant_components.g33 p]

/-- The symmetric 3x3 matrix of a covariant tensor at a point. -/
def CovariantMetricTensor.toMatrix (t : CovariantMetricTensor) (p : Ind2D) :
    Matrix (Fin 3) (Fin 3) ℚ :=
  !![t.g_11 p, t.g_12 p, t.g_13 p;
     t.g_12 p, t.g_22 p, t.g_23 p;
     t.g_13 p, t.g_23 p, t.g_33 p]

/-! ## `MetricTensor::check` -/

/-- A floating-point value as `check` sees it: a finite number, an infinity or a NaN. -/
inductive BoutValue where
  | finite (q : ℚ)
  | posInf
  | negInf
  | nan
deriving DecidableEq, Repr

/-- `std::isfinite`. -/
def BoutValue.isfinite : BoutValue → Bool
  | .finite _ => true
  | _ => false

/-- Strict positivity, `v > 0`. -/
def BoutValue.isPositive : BoutValue → Bool
  | .finite q => decide (0 < q)
  | .posInf => true
  | _ => false

/-- A `FieldMetric` as `check` uses it: its data, and its parallel slices `ynext(d)`
when it carries slices that are separate objects
(`f.hasParallelSlices() && &f.ynext(1) != &f`). -/
structure FieldMetric where
  data : Ind2D → BoutValue
  yslices : Option (Int → Ind2D → BoutValue)

/-- `f.ynext(d)`; a field without separate slices returns itself. -/
def FieldMetric.ynext (f : FieldMetric) (d : Int) : Ind2D → BoutValue :=
  match f.yslices with
  | some s => s d
  | none => f.data

/-- Which invariant a validation found violated. -/
inductive Violation where
  | notFinite
  | notPositive
deriving DecidableEq, Repr

/-- A validation failure, "reported with offending field name and region" (spec §7). -/
structure ValidationFailure where
  violation : Violation
  name : String
  rgn : String
deriving DecidableEq, Repr

/-- Modelled from the spec: `bout::checkFinite(f, name, rgn)` is not among the sources.
The spec (§4.2): the components "are finite over the interior region", "raising a
descriptive validation failure ... if violated". -/
def checkFinite (getRegion : String → Region) (f : Ind2D → BoutValue) (name rgn : String) :
    Except ValidationFailure Unit :=
  if (getRegion rgn).all (fun i => (f i).isfinite) then .ok ()
  else .error { violation := .notFinite, name := name, rgn := rgn }

/-- Modelled from the spec: `bout::checkPositive(f, name, rgn)` is not among the sources.
The spec (§4.2): the components "are strictly positive over the interior region",
"raising a descriptive validation failure ... if violated". -/
def checkPositive (getRegion : String → Region) (f : Ind2D → BoutValue) (name rgn : String) :
    Except ValidationFailure Unit :=
  if (getRegion rgn).all (fun i => (f i).isPositive) then .ok ()
  else .error { violation := .notPositive, name := name, rgn := rgn }

/-- The region name `fmt::format("RGN_YPAR_{:+d}", n)`. -/
def rgnYPar (n : Int) : String :=
  "RGN_YPAR_" ++ (if 0 ≤ n then "+" else "-") ++ toString n.natAbs

/-- The offsets `sign * dy` in the order of the loops
`for (dy = 1; dy <= ystart; ++dy) for (sign : {1, -1})`. -/
def sliceOffsets (ystart : Int) : List Int :=
  (List.range ystart.toNat).flatMap (fun k => [((k : Int) + 1), -((k : Int) + 1)])

/-- `MetricTensor::check(ystart)` (lines 17–67). `getRegion` resolves a region name. -/
def MetricTensor.check (self : MetricTensor FieldMetric) (getRegion : String → Region)
    (ystart : Int) : Except ValidationFailure Unit := do
  -- Diagonal metric components should be finite
  checkFinite getRegion self.g11_.data "g11" "RGN_NOCORNERS"
  checkFinite getRegion self.g22_.data "g22" "RGN_NOCORNERS"
  checkFinite getRegion self.g33_.data "g33" "RGN_NOCORNERS"
  if self.g11_.yslices.isSome then
    (sliceOffsets ystart).forM (fun d => do
      checkFinite getRegion (self.g11_.ynext d) "g11.ynext" (rgnYPar d)
      checkFinite getRegion (self.g22_.ynext d) "g22.ynext" (rgnYPar d)
      checkFinite getRegion (self.g33_.ynext d) "g33.ynext" (rgnYPar d))
  -- Diagonal metric components should be positive
  checkPositive getRegion self.g11_.data "g11" "RGN_NOCORNERS"
  checkPositive getRegion self.g22_.data "g22" "RGN_NOCORNERS"
  checkPositive getRegion self.g33_.data "g33" "RGN_NOCORNERS"
  if self.g11_.yslices.isSome then
    (sliceOffsets ystart).forM (fun d => do
      checkPositive getRegion (self.g11_.ynext d) "g11.ynext" (rgnYPar d)
      checkPositive getRegion (self.g22_.ynext d) "g22.ynext" (rgnYPar d)
      checkPositive getRegion (self.g33_.ynext d) "g33.ynext" (rgnYPar d))
  -- Off-diagonal metric components should be finite
  checkFinite getRegion self.g12_.data "g12" "RGN_NOCORNERS"
  checkFinite getRegion self.g13_.data "g13" "RGN_NOCORNERS"
  checkFinite getRegion self.g23_.data "g23" "RGN_NOCORNERS"
  if self.g23_.yslices.isSome then
    (sliceOffsets ystart).forM (fun d => do
      checkFinite getRegion (self.g12_.ynext d) "g12.ynext" (rgnYPar d)
      checkFinite getRegion (self.g13_.ynext d) "g13.ynext" (rgnYPar d)
      checkFinite getRegion (self.g23_.ynext d) "g23.ynext" (rgnYPar d))

/-! ## `IndConverter` -/

/-- The part of `BoutMesh` that `IndConverter` and `XZHermiteSpline` read: the local
array extents (guard cells included), the guard-cell depths `xstart`, `ystart`, the last
interior local column `xend`, the process counts `getNXPE()`, `getNYPE()` and this
process's indices `getXProcIndex()`, `getYProcIndex()`. -/
structure BoutMesh where
  LocalNx : Int
  LocalNy : Int
  LocalNz : Int
  xstart : Int
  xend : Int
  ystart : Int
  NXPE : Int
  NYPE : Int
  XProcIndex : Int
  YProcIndex : Int
deriving DecidableEq, Repr

/-- The class `IndConverter`; its `const` members are fixed by the constructor from the
mesh. -/
structure IndConverter where
  mesh : BoutMesh
deriving DecidableEq, Repr

/-- Member `nxpe(mesh->getNXPE())`. -/
def IndConverter.nxpe (c : IndConverter) : Int := c.mesh.NXPE

/-- Member `nype(mesh->getNYPE())`. -/
def IndConverter.nype (c : IndConverter) : Int := c.mesh.NYPE

/-- Member `const int nzpe{1}`. -/
def IndConverter.nzpe (_c : IndConverter) : Int := 1

/-- Modelled from the spec: the macros `ASSERT2`, `ASSERT3` (`bout/assert.hxx`) are not
among the sources. `ASSERTn(cond)` is compiled in when the build constant `CHECK` is at
least `n`, and then a false condition throws: "violating callers receive a precondition
failure" (spec §4.3). -/
def ASSERT (level CHECK : Nat) (cond : Bool) (text : String) : Except BoutException Unit :=
  if level ≤ CHECK ∧ cond = false then .error { what := text } else .ok ()

/-- `IndConverter::divToNeg(n, d)` (lines 99–101); `/` is truncating division. -/
def IndConverter.divToNeg (n d : Int) : Int :=
  if n < 0 then Int.tdiv (n - d + 1) d else Int.tdiv n d

/-- `IndConverter::fromLocalToGlobal(ilocalx, ilocaly, ilocalz, pex, pey, pez)`
(lines 77–89). -/
def IndConverter.fromLocalToGlobal (CHECK : Nat) (c : IndConverter)
    (ilocalx ilocaly ilocalz pex pey pez : Int) : Except BoutException Int := do
  ASSERT 3 CHECK (decide (ilocalx ≥ 0)) "ilocalx >= 0"
  ASSERT 3 CHECK (decide (ilocaly ≥ 0)) "ilocaly >= 0"
  ASSERT 3 CHECK (decide (ilocalz ≥ 0)) "ilocalz >= 0"
  let ilocal := ((ilocalx * c.mesh.LocalNy) + ilocaly) * c.mesh.LocalNz + ilocalz
  let ret := ilocal
             + c.mesh.LocalNx * c.mesh.LocalNy * c.mesh.LocalNz
                 * ((pey * c.nxpe + pex) * c.nzpe + pez)
  ASSERT 3 CHECK (decide (ret ≥ 0)) "ret >= 0"
  ASSERT 3 CHECK
    (decide (ret < c.nxpe * c.nype * c.mesh.LocalNx * c.mesh.LocalNy * c.mesh.LocalNz))
    "ret < nxpe * nype * mesh->LocalNx * mesh->LocalNy * mesh->LocalNz"
  return ret

/-- The overload `IndConverter::fromLocalToGlobal(ilocalx, ilocaly, ilocalz)`
(lines 73–76). -/
def IndConverter.fromLocalToGlobal3 (CHECK : Nat) (c : IndConverter)
    (ilocalx ilocaly ilocalz : Int) : Except BoutException Int :=
  IndConverter.fromLocalToGlobal CHECK c ilocalx ilocaly ilocalz
    c.mesh.XProcIndex c.mesh.YProcIndex 0

/-- The tuple of the distributed index: local coordinate and process ranks. -/
structure LocalAddress where
  x : Int
  y : Int
  z : Int
  pex : Int
  pey : Int
  pez : Int
deriving DecidableEq, Repr

/-- The valid inputs of the layout: a local coordinate inside the local array and
process ranks inside the decomposition, with `pez = 0`. -/
def IndConverter.validAddress (c : IndConverter) (t : LocalAddress) : Prop :=
  0 ≤ t.x ∧ t.x < c.mesh.LocalNx ∧ 0 ≤ t.y ∧ t.y < c.mesh.LocalNy
    ∧ 0 ≤ t.z ∧ t.z < c.mesh.LocalNz
    ∧ 0 ≤ t.pex ∧ t.pex < c.nxpe ∧ 0 ≤ t.pey ∧ t.pey < c.nype ∧ t.pez = 0

/-- The inverse of the layout in the spec's words (§8, "Index bijection"): the address
is decoded "by successive division and remainder", innermost digit first: z, y, x, then
the process block, which splits into `pez`, `pex`, `pey`. The source has no such
function; this definition states what the layout is compared with. -/
def IndConverter.decode (c : IndConverter) (a : Int) : LocalAddress :=
  let volume := c.mesh.LocalNx * c.mesh.LocalNy * c.mesh.LocalNz
  let ilocal := a % volume
  let block := a / volume
  { z := ilocal % c.mesh.LocalNz,
    y := (ilocal / c.mesh.LocalNz) % c.mesh.LocalNy,
    x := (ilocal / c.mesh.LocalNz) / c.mesh.LocalNy,
    pez := block % c.nzpe,
    pex := (block / c.nzpe) % c.nxpe,
    pey := (block / c.nzpe) / c.nxpe }

/-- The loop `while (pey < 0) { pey += nype; }` of `fromMeshToGlobal` (lines 60–62), run
for at most `fuel` iterations: `none` when the condition still holds after them. -/
def IndConverter.wrapBelow (nype : Int) : Nat → Int → Option Int
  | 0, pey => if pey < 0 then none else some pey
  | fuel + 1, pey =>
    if pey < 0 then IndConverter.wrapBelow nype fuel (pey + nype) else some pey

/-- The loop `while (pey >= nype) { pey -= nype; }` of `fromMeshToGlobal` (lines 63–65),
run for at most `fuel` iterations: `none` when the condition still holds after them. -/
def IndConverter.wrapAbove (nype : Int) : Nat → Int → Option Int
  | 0, pey => if pey ≥ nype then none else some pey
  | fuel + 1, pey =>
    if pey ≥ nype then IndConverter.wrapAbove nype fuel (pey - nype) else some pey

/-- `IndConverter::fromMeshToGlobal(ix, iy, iz)` (lines 39–72). Each of the two `while`
loops may run `fuel` iterations; the result is `none` when a loop has not finished by
then, and otherwise what the function returns or throws. -/
def IndConverter.fromMeshToGlobal (CHECK fuel : Nat) (c : IndConverter) (ix iy iz : Int) :
    Option (Except BoutException Int) :=
  let xstart := c.mesh.xstart
  let lnx := c.mesh.LocalNx - xstart * 2
  -- x-proc-id
  let pex0 := IndConverter.divToNeg (ix - xstart) lnx
  let pex1 := if pex0 < 0 then 0 else pex0
  let pex := if pex1 ≥ c.nxpe then c.nxpe - 1 else pex1
  let zstart : Int := 0
  let lnz := c.mesh.LocalNz - zstart * 2
  -- z-proc-id
  let pez := IndConverter.divToNeg (iz - zstart) lnz
  -- y proc-id - y is already local
  let ystart := c.mesh.ystart
  let lny := c.mesh.LocalNy - ystart * 2
  let pey_offset := IndConverter.divToNeg (iy - ystart) lny
  let pey0 := pey_offset + c.mesh.YProcIndex
  match IndConverter.wrapBelow c.nype fuel pey0 with
  | none => none
  | some pey1 =>
    match IndConverter.wrapAbove c.nype fuel pey1 with
    | none => none
    | some pey =>
      some (do
        ASSERT 2 CHECK (decide (pex ≥ 0)) "pex >= 0"
        ASSERT 2 CHECK (decide (pex < c.nxpe)) "pex < nxpe"
        ASSERT 2 CHECK (decide (pey ≥ 0)) "pey >= 0"
        ASSERT 2 CHECK (decide (pey < c.nype)) "pey < nype"
        IndConverter.fromLocalToGlobal CHECK c (ix - pex * lnx) (iy - pey_offset * lny)
          (iz - pez * lnz) pex pey 0)

/-- The x process index that the claim names: the floor quotient `(ix - xstart) / lnx`
(`/` on `ℤ` is floor division for a positive divisor) clamped into `[0, nxpe - 1]`. -/
def IndConverter.pexOf (c : IndConverter) (ix : Int) : Int :=
  max 0 (min (c.nxpe - 1) ((ix - c.mesh.xstart) / (c.mesh.LocalNx - c.mesh.xstart * 2)))

/-- The y process offset that the claim names: the floor quotient `(iy - ystart) / lny`. -/
def IndConverter.peyOffsetOf (c : IndConverter) (iy : Int) : Int :=
  (iy - c.mesh.ystart) / (c.mesh.LocalNy - c.mesh.ystart * 2)

/-- The z wrap count that the claim names: the floor quotient `iz / LocalNz`. -/
def IndConverter.pezOf (c : IndConverter) (iz : Int) : Int :=
  iz / c.mesh.LocalNz

/-- A decomposition as the mesh builds it: at least one interior cell per process in x and
y, at least one z point, at least one process in x and y, guard-cell depths that are not
negative, and this process's y index inside the decomposition. -/
def IndConverter.wellFormed (c : IndConverter) : Prop :=
  1 ≤ c.mesh.LocalNx - c.mesh.xstart * 2 ∧ 1 ≤ c.mesh.LocalNy - c.mesh.ystart * 2
    ∧ 1 ≤ c.mesh.LocalNz ∧ 1 ≤ c.nxpe ∧ 1 ≤ c.nype
    ∧ 0 ≤ c.mesh.xstart ∧ 0 ≤ c.mesh.ystart
    ∧ 0 ≤ c.mesh.YProcIndex ∧ c.mesh.YProcIndex < c.nype

/-! ## `XZHermiteSpline::calcWeights` -/

/-- Index of a point of a three-dimensional field (`Ind3D`), with `x()`, `y()`, `z()`. -/
structure Ind3D where
  x : Int
  y : Int
  z : Int
deriving DecidableEq, Repr

/-- The data of a `Field3D` of `BoutReal`, in exact arithmetic. -/
abbrev Field3D := Ind3D → BoutReal

/-- The assignment `f[i] = v` on a `Field3D`. -/
def Field3D.set (f : Field3D) (i : Ind3D) (v : BoutReal) : Field3D :=
  fun j => if j = i then v else f j

/-- The exception `BoutException(format, t, x, y, z, delta, corner)` that `calcWeights`
throws for an offset out of range: the format string and its six arguments. -/
structure OutOfRangeError where
  format : String
  t : BoutReal
  x : Int
  y : Int
  z : Int
  delta : BoutReal
  corner : Int
deriving DecidableEq, Repr

/-- The members of `XZHermiteSpline` that `calcWeights` reads and writes. The sixteen
fields of `newWeights` are those of the build with `USE_NEW_WEIGHTS`. -/
structure XZHermiteSpline where
  localmesh : BoutMesh
  y_offset : Int
  i_corner : Ind3D → Int
  k_corner : Ind3D → Int
  h00_x : Field3D
  h01_x : Field3D
  h10_x : Field3D
  h11_x : Field3D
  h00_z : Field3D
  h01_z : Field3D
  h10_z : Field3D
  h11_z : Field3D
  newWeights : Fin 16 → Field3D

/-- The local variables `i_corn`, `k_corner(x, y, z)`, `t_x`, `t_z` of one loop iteration
of `calcWeights`, after the clamping of lines 176–183. -/
structure CornerOffsets where
  i_corn : Int
  k_corner : Int
  t_x : BoutReal
  t_z : BoutReal
deriving DecidableEq, Repr

/-- The local constant `xend` of `calcWeights` (lines 155–156). -/
def XZHermiteSpline.xendGlobal (self : XZHermiteSpline) : Int :=
  (self.localmesh.xend - self.localmesh.xstart + 1) * self.localmesh.NXPE
    + self.localmesh.xstart - 1

/-- Lines 167–183 of `calcWeights`: corner indices by `floor`, offsets as the remainder,
then the two clamping steps on `i_corn` and `t_x`, in the order of the source. The
subtractions are exact here, so the remainders lie in `[0, 1)`; in `double` a small
negative displacement has a remainder that rounds to `1.0`, which the range check of
`calcWeights` (`t > 1.0`) lets through. -/
def XZHermiteSpline.cornerOffsets (self : XZHermiteSpline) (dx dz : BoutReal) :
    CornerOffsets :=
  let xend := self.xendGlobal
  let i_corn0 : Int := ⌊dx⌋
  let k_corner : Int := ⌊dz⌋
  let t_x0 : BoutReal := dx - (i_corn0 : BoutReal)
  let t_z : BoutReal := dz - (k_corner : BoutReal)
  -- NOTE: A (small) hack to avoid one-sided differences
  let i_corn1 : Int := if i_corn0 ≥ xend then xend - 1 else i_corn0
  let t_x1 : BoutReal := if i_corn0 ≥ xend then 1 else t_x0
  let i_corn : Int := if i_corn1 < self.localmesh.xstart then self.localmesh.xstart else i_corn1
  let t_x : BoutReal := if i_corn1 < self.localmesh.xstart then 0 else t_x1
  { i_corn := i_corn, k_corner := k_corner, t_x := t_x, t_z := t_z }

/-- The expression `(2. * t * t * t) - (3. * t * t) + 1.` of lines 201–202. -/
def h00 (t : BoutReal) : BoutReal := (2 * t * t * t) - (3 * t * t) + 1

/-- The expression `(-2. * t * t * t) + (3. * t * t)` of lines 204–205. -/
def h01 (t : BoutReal) : BoutReal := (-2 * t * t * t) + (3 * t * t)

/-- The expression `t * (1. - t) * (1. - t)` of lines 207–208. -/
def h10 (t : BoutReal) : BoutReal := t * (1 - t) * (1 - t)

/-- The expression `(t * t * t) - (t * t)` of lines 210–211. -/
def h11 (t : BoutReal) : BoutReal := (t * t * t) - (t * t)

/-- The update `newWeights[k][i] += v` on the sixteen values of one point. -/
def plusEq (k : Fin 16) (v : BoutReal) (w : Fin 16 → BoutReal) : Fin 16 → BoutReal :=
  fun j => if j = k then w j + v else w j

/-- The update `newWeights[k][i] -= v` on the sixteen values of one point. -/
def minusEq (k : Fin 16) (v : BoutReal) (w : Fin 16 → BoutReal) : Fin 16 → BoutReal :=
  fun j => if j = k then w j - v else w j

/-- Lines 215–270 of `calcWeights`: the sixteen weights of one point, set to zero and
then accumulated by the forty-eight updates, in the order of the source. -/
def newWeightsAt (h00_x h01_x h10_x h11_x h00_z h01_z h10_z h11_z : BoutReal) :
    Fin 16 → BoutReal :=
  (fun _ => 0)
    |> plusEq 5 (h00_x * h00_z)
    |> plusEq 9 (h01_x * h00_z)
    |> plusEq 9 (h10_x * h00_z / 2)
    |> minusEq 1 (h10_x * h00_z / 2)
    |> plusEq 13 (h11_x * h00_z / 2)
    |> minusEq 5 (h11_x * h00_z / 2)
    |> plusEq 6 (h00_x * h01_z)
    |> plusEq 10 (h01_x * h01_z)
    |> plusEq 10 (h10_x * h01_z / 2)
    |> minusEq 2 (h10_x * h01_z / 2)
    |> plusEq 14 (h11_x * h01_z / 2)
    |> minusEq 6 (h11_x * h01_z / 2)
    |> plusEq 6 (h00_x * h10_z / 2)
    |> minusEq 4 (h00_x * h10_z / 2)
    |> plusEq 10 (h01_x * h10_z / 2)
    |> minusEq 8 (h01_x * h10_z / 2)
    |> plusEq 10 (h10_x * h10_z / 4)
    |> minusEq 8 (h10_x * h10_z / 4)
    |> minusEq 2 (h10_x * h10_z / 4)
    |> plusEq 0 (h10_x * h10_z / 4)
    |> plusEq 14 (h11_x * h10_z / 4)
    |> minusEq 12 (h11_x * h10_z / 4)
    |> minusEq 6 (h11_x * h10_z / 4)
    |> plusEq 4 (h11_x * h10_z / 4)
    |> plusEq 7 (h00_x * h11_z / 2)
    |> minusEq 5 (h00_x * h11_z / 2)
    |> plusEq 11 (h01_x * h11_z / 2)
    |> minusEq 9 (h01_x * h11_z / 2)
    |> plusEq 11 (h10_x * h11_z / 4)
    |> minusEq 9 (h10_x * h11_z / 4)
    |> minusEq 3 (h10_x * h11_z / 4)
    |> plusEq 1 (h10_x * h11_z / 4)
    |> plusEq 15 (h11_x * h11_z / 4)
    |> minusEq 13 (h11_x * h11_z / 4)
    |> minusEq 7 (h11_x * h11_z / 4)
    |> plusEq 5 (h11_x * h11_z / 4)

/-- What `calcWeights` stores for one point: the compound corner index, `k_corner`, the
eight basis values and the sixteen weights. -/
structure PointData where
  i_corner : Int
  k_corner : Int
  h00_x : BoutReal
  h01_x : BoutReal
  h10_x : BoutReal
  h11_x : BoutReal
  h00_z : BoutReal
  h01_z : BoutReal
  h10_z : BoutReal
  h11_z : BoutReal
  newWeights : Fin 16 → BoutReal

/-- Lines 198–270 of `calcWeights`: the values stored for point `i` from the corner and
offsets `co`; `ny`, `nz` are `LocalNy`, `LocalNz`. -/
def XZHermiteSpline.pointValues (self : XZHermiteSpline) (i : Ind3D) (co : CornerOffsets) :
    PointData :=
  let ny := self.localmesh.LocalNy
  let nz := self.localmesh.LocalNz
  { i_corner := ((co.i_corn * ny) + (i.y + self.y_offset)) * nz + co.k_corner,
    k_corner := co.k_corner,
    h00_x := h00 co.t_x, h00_z := h00 co.t_z,
    h01_x := h01 co.t_x, h01_z := h01 co.t_z,
    h10_x := h10 co.t_x, h10_z := h10 co.t_z,
    h11_x := h11 co.t_x, h11_z := h11 co.t_z,
    newWeights := newWeightsAt (h00 co.t_x) (h01 co.t_x) (h10 co.t_x) (h11 co.t_x)
      (h00 co.t_z) (h01 co.t_z) (h10 co.t_z) (h11 co.t_z) }

/-- The stores of one loop iteration into the members of the spline. -/
def XZHermiteSpline.write (self : XZHermiteSpline) (i : Ind3D) (d : PointData) :
    XZHermiteSpline :=
  { self with
    i_corner := fun j => if j = i then d.i_corner else self.i_corner j,
    k_corner := fun j => if j = i then d.k_corner else self.k_corner j,
    h00_x := Field3D.set self.h00_x i d.h00_x,
    h01_x := Field3D.set self.h01_x i d.h01_x,
    h10_x := Field3D.set self.h10_x i d.h10_x,
    h11_x := Field3D.set self.h11_x i d.h11_x,
    h00_z := Field3D.set self.h00_z i d.h00_z,
    h01_z := Field3D.set self.h01_z i d.h01_z,
    h10_z := Field3D.set self.h10_z i d.h10_z,
    h11_z := Field3D.set self.h11_z i d.h11_z,
    newWeights := fun w => Field3D.set (self.newWeights w) i (d.newWeights w) }

/-- What the members of the spline hold for point `i`. -/
def XZHermiteSpline.read (self : XZHermiteSpline) (i : Ind3D) : PointData :=
  { i_corner := self.i_corner i, k_corner := self.k_corner i,
    h00_x := self.h00_x i, h01_x := self.h01_x i, h10_x := self.h10_x i,
    h11_x := self.h11_x i, h00_z := self.h00_z i, h01_z := self.h01_z i,
    h10_z := self.h10_z i, h11_z := self.h11_z i,
    newWeights := fun w => self.newWeights w i }

/-- One iteration of the loop of `calcWeights` (lines 161–270) at point `i`, in the build
with `USE_NEW_WEIGHTS` and without `HS_USE_PETSC`. A throw leaves `calcWeights`, so the
store into `k_corner` that precedes the range checks in the source is carried out here
together with the other stores, after the checks. -/
def XZHermiteSpline.calcWeightsAt (self : XZHermiteSpline) (delta_x delta_z : Field3D)
    (i : Ind3D) : Except OutOfRangeError XZHermiteSpline :=
  let co := self.cornerOffsets (delta_x i) (delta_z i)
  -- Check that t_x and t_z are in range
  if co.t_x < 0 ∨ co.t_x > 1 then
    .error { format := "t_x=\x7b:e\x7d out of range at (\x7b:d\x7d,\x7b:d\x7d,\x7b:d\x7d) (delta_x=\x7b:e\x7d, i_corn=\x7b:d\x7d)",
             t := co.t_x, x := i.x, y := i.y, z := i.z, delta := delta_x i,
             corner := co.i_corn }
  else if co.t_z < 0 ∨ co.t_z > 1 then
    .error { format := "t_z=\x7b:e\x7d out of range at (\x7b:d\x7d,\x7b:d\x7d,\x7b:d\x7d) (delta_z=\x7b:e\x7d, k_corner=\x7b:d\x7d)",
             t := co.t_z, x := i.x, y := i.y, z := i.z, delta := delta_z i,
             corner := co.k_corner }
  else
    .ok (self.write i (self.pointValues i co))

/-- `XZHermiteSpline::calcWeights(delta_x, delta_z, region)` (lines 150–293): the loop
over the points of the region. -/
def XZHermiteSpline.calcWeights (self : XZHermiteSpline) (delta_x delta_z : Field3D) :
    List Ind3D → Except OutOfRangeError XZHermiteSpline
  | [] => .ok self
  | i :: rest =>
    match self.calcWeightsAt delta_x delta_z i with
    | .error e => .error e
    | .ok s => XZHermiteSpline.calcWeights s delta_x delta_z rest

/-! ## `XZHermiteSpline::interpolate`, `getWeightsForYApproximation`, row assembly -/

/-- The data of a `Field3D` as `f[ic]` reads it: addressed by the flat index `ind` that an
`Ind3D` carries. -/
abbrev FieldData := Int → BoutReal

/-- The loop body of `interpolate` in the build with `USE_NEW_WEIGHTS` and without
`HS_USE_PETSC` (lines 353–362): the value assigned to `f_interp[iyp]`. The navigation
methods `xp`, `zp`, `zm` of the index type are declared outside the sources at hand; the
embedding takes them as the argument `nb`, where `nb ind dx dz` is the index reached
from `ind` by `dx` steps in x and `dz` steps in z: `ic.zm().xp(w-1)` is `nb ic (w-1) (-1)`,
`ic.xp(w-1)` is `nb ic (w-1) 0`, `ic.zp().xp(w-1)` is `nb ic (w-1) 1` and
`ic.zp(2).xp(w-1)` is `nb ic (w-1) 2`. -/
def XZHermiteSpline.interpolateAt (self : XZHermiteSpline) (nb : Int → Int → Int → Int)
    (f : FieldData) (i : Ind3D) : BoutReal :=
  let ic := self.i_corner i
  (List.finRange 4).foldl
    (fun (acc : BoutReal) (w : Fin 4) =>
      acc
        + self.newWeights ⟨w.val * 4 + 0, by have := w.isLt; omega⟩ i
            * f (nb ic ((w.val : Int) - 1) (-1))
        + self.newWeights ⟨w.val * 4 + 1, by have := w.isLt; omega⟩ i
            * f (nb ic ((w.val : Int) - 1) 0)
        + self.newWeights ⟨w.val * 4 + 2, by have := w.isLt; omega⟩ i
            * f (nb ic ((w.val : Int) - 1) 1)
        + self.newWeights ⟨w.val * 4 + 3, by have := w.isLt; omega⟩ i
            * f (nb ic ((w.val : Int) - 1) 2))
    0

/-- `XZHermiteSpline::interpolate(f, region)` in the build with `USE_NEW_WEIGHTS` and
without `HS_USE_PETSC` (lines 331–366): for every point `i` of the region the value is
stored at `iyp = i.yp(y_offset)`. `f_interp` is the content of the field obtained by
`emptyFrom`. -/
def XZHermiteSpline.interpolate (self : XZHermiteSpline) (nb : Int → Int → Int → Int)
    (f : FieldData) : Field3D → List Ind3D → Field3D
  | f_interp, [] => f_interp
  | f_interp, i :: rest =>
    XZHermiteSpline.interpolate self nb f
      (Field3D.set f_interp ⟨i.x, i.y + self.y_offset, i.z⟩ (self.interpolateAt nb f i)) rest

/-- The loop body of `interpolate` in the build without `USE_NEW_WEIGHTS` (lines 377–403):
the value assigned to `f_interp[iyp]`. The derivative fields `fx`, `fz`, `fxz`, computed
in the source by `DDX` and `DDZ` of the derivative library, are arguments. `iczp`,
`icxp`, `icxpzp` are `ic.zp()`, `ic.xp()`, `iczp.xp()`. -/
def XZHermiteSpline.interpolateBasisAt (self : XZHermiteSpline)
    (nb : Int → Int → Int → Int) (f fx fz fxz : FieldData) (i : Ind3D) : BoutReal :=
  let ic := self.i_corner i
  let iczp := nb ic 0 1
  let icxp := nb ic 1 0
  let icxpzp := nb ic 1 1
  -- Interpolate f in X at Z
  let f_z := f ic * self.h00_x i + f icxp * self.h01_x i + fx ic * self.h10_x i
    + fx icxp * self.h11_x i
  -- Interpolate f in X at Z+1
  let f_zp1 := f iczp * self.h00_x i + f icxpzp * self.h01_x i + fx iczp * self.h10_x i
    + fx icxpzp * self.h11_x i
  -- Interpolate fz in X at Z
  let fz_z := fz ic * self.h00_x i + fz icxp * self.h01_x i + fxz ic * self.h10_x i
    + fxz icxp * self.h11_x i
  -- Interpolate fz in X at Z+1
  let fz_zp1 := fz iczp * self.h00_x i + fz icxpzp * self.h01_x i + fxz iczp * self.h10_x i
    + fxz icxpzp * self.h11_x i
  -- Interpolate in Z
  f_z * self.h00_z i + f_zp1 * self.h01_z i + fz_z * self.h10_z i + fz_zp1 * self.h11_z i

/-- One entry `{i, j, k, weight}` of `ParallelTransform::PositionsAndWeights`. -/
structure PositionsAndWeights where
  i : Int
  j : Int
  k : Int
  weight : BoutReal
deriving DecidableEq, Repr

/-- `XZHermiteSpline::getWeightsForYApproximation(i, j, k, yoffset)` (lines 317–329);
`%` is the truncating remainder. -/
def XZHermiteSpline.getWeightsForYApproximation (self : XZHermiteSpline)
    (i j k yoffset : Int) : List PositionsAndWeights :=
  let ncz := self.localmesh.LocalNz
  let k_mod := Int.tmod (Int.tmod (self.k_corner ⟨i, j, k⟩) ncz + ncz) ncz
  let k_mod_m1 := if k_mod > 0 then k_mod - 1 else ncz - 1
  let k_mod_p1 := if k_mod = ncz then 0 else k_mod + 1
  let k_mod_p2 := if k_mod_p1 = ncz then 0 else k_mod_p1 + 1
  [ { i := i, j := j + yoffset, k := k_mod_m1, weight := -0.5 * self.h10_z ⟨i, j, k⟩ },
    { i := i, j := j + yoffset, k := k_mod,
      weight := self.h00_z ⟨i, j, k⟩ - 0.5 * self.h11_z ⟨i, j, k⟩ },
    { i := i, j := j + yoffset, k := k_mod_p1,
      weight := self.h01_z ⟨i, j, k⟩ + 0.5 * self.h10_z ⟨i, j, k⟩ },
    { i := i, j := j + yoffset, k := k_mod_p2, weight := 0.5 * self.h11_z ⟨i, j, k⟩ } ]

/-- The column address `idxm[k]` of row block `j` in the row assembly of `calcWeights`
under `HS_USE_PETSC` (lines 274–283), `conv` being `IndConverter conv{localmesh}`:
`conv.fromMeshToGlobal(i_corn - 1 + j, y + y_offset, k_corner(x, y, z) - 1 + k)`. -/
def XZHermiteSpline.petscColumn (CHECK fuel : Nat) (self : XZHermiteSpline) (i : Ind3D)
    (co : CornerOffsets) (j k : Fin 4) : Option (Except BoutException Int) :=
  IndConverter.fromMeshToGlobal CHECK fuel { mesh := self.localmesh }
    (co.i_corn - 1 + (j.val : Int)) (i.y + self.y_offset) (co.k_corner - 1 + (k.val : Int))

/-- Modelled from the spec: the decoding of a compound index, the accessors of
`SpecificInd` being declared outside the translated sources:
`x = idx div (ny*nz)`, `y = (idx div nz) mod ny`, `z = idx mod nz`. -/
def decodeCompound (ny nz idx : Int) : Ind3D :=
  { x := idx / (ny * nz), y := (idx / nz) % ny, z := idx % nz }

/-- The index `4*j + k` of the weight for x offset `j - 1` and z offset `k - 1`. -/
def weightIndex (j k : Fin 4) : Fin 16 :=
  ⟨4 * j.val + k.val, by have := j.isLt; have := k.isLt; omega⟩

/-! ## `MetricTensor::applyToComponents` -/

/-- `MetricTensor::applyToComponents(function)` (lines 137–148), a `const` method: the
six components are put in the vector `components_in` in the order `g11_, g22_, g33_,
g12_, g13_, g23_`, `std::transform` writes `function` of each into `components_out`,
and the result is built from the entries of `components_out` in that order. -/
def MetricTensor.applyToComponents {F : Type} (self : MetricTensor F) (function : F → F) :
    MetricTensor F :=
  let components_in : Fin 6 → F :=
    ![self.g11_, self.g22_, self.g33_, self.g12_, self.g13_, self.g23_]
  let components_out : Fin 6 → F := fun n => function (components_in n)
  { g11_ := components_out 0, g22_ := components_out 1, g33_ := components_out 2,
    g12_ := components_out 3, g13_ := components_out 4, g23_ := components_out 5 }

/-! ## `LaplacePetscAmg::solve` -/

/-- The data of a `FieldPerp`: the value at every `(x, z)` and the y index that
`getIndex` returns and `setIndex` sets. -/
structure FieldPerp where
  data : Int → Int → BoutReal
  index : Int

/-- The content of a PETSc `Vec`: the value at every global index. -/
abbrev Vec := Int → BoutReal

/-- The `InsertMode` argument of `VecSetValues`. -/
inductive InsertMode where
  | INSERT_VALUES
  | ADD_VALUES
deriving DecidableEq, Repr

/-- `VecSetValues(v, 1, &ind, &val, mode)`: the entry `ind` is replaced by `val` or has
`val` added to it. -/
def VecSetValues (v : Vec) (ind : Int) (val : BoutReal) : InsertMode → Vec
  | .INSERT_VALUES => fun n => if n = ind then val else v n
  | .ADD_VALUES => fun n => if n = ind then v n + val else v n

/-- The assignment `a[k] = v` on an array of `BoutReal`. An array is a function on `ℤ`:
the elements outside its bounds are the unspecified content of the memory next to it. -/
def arraySet (a : Int → BoutReal) (k : Int) (v : BoutReal) : Int → BoutReal :=
  fun n => if n = k then v else a n

/-- The assignment `result(x, z) = v` on the data of a `FieldPerp`. -/
def perpSet (f : Int → Int → BoutReal) (x z : Int) (v : BoutReal) : Int → Int → BoutReal :=
  fun a b => if a = x ∧ b = z then v else f a b

/-- The loop `for (i = 0; i < n; i++)`: the body runs for `i = 0, 1, ...` while `i < n`. -/
def forLoop {σ : Type} (n : Int) (body : Int → σ → σ) (init : σ) : σ :=
  (List.range n.toNat).foldl (fun st (i : Nat) => body (i : Int) st) init

/-- The bit masks of the inversion flags that `solve` tests. Their values are declared in
the header of the Laplacian interface and are arguments here. -/
structure InvertFlags where
  INVERT_START_NEW : Nat
  INVERT_AC_GRAD : Nat
  INVERT_SET : Nat

/-- The members of `Coordinates` that `solve` reads: `dx`, `g11`, `g13`, `g_11`, `G1` at
`(x, y)` and the scalar `dz`. -/
structure Coordinates where
  dx : Int → Int → BoutReal
  dz : BoutReal
  g11 : Int → Int → BoutReal
  g13 : Int → Int → BoutReal
  g_11 : Int → Int → BoutReal
  G1 : Int → Int → BoutReal

/-- The members of `Mesh` that `solve` reads: `xstart`, `xend`, `firstX()`, `lastX()` and
`coordinates()`. -/
structure Mesh where
  xstart : Int
  xend : Int
  firstX : Bool
  lastX : Bool
  coordinates : Coordinates

/-- The linear solver behind `KSPSolve(ksp, bs, xs)`, a black box: the content of `xs`
after the call and the `KSPConvergedReason`, both as functions of `bs` and of the trial
solution `xs`. -/
structure KSP where
  KSPSolve : Vec → Vec → Vec
  KSPGetConvergedReason : Vec → Vec → Int

/-- The members of `LaplacePetscAmg` that `solve` reads. -/
structure LaplacePetscAmg where
  Nx_local : Int
  Nz_local : Int
  nxt : Int
  nzt : Int
  lxs : Int
  lzs : Int
  mxstart : Int
  mzstart : Int
  gindices : Int → Int
  global_flags : Nat
  inner_boundary_flags : Nat
  outer_boundary_flags : Nat
  C1 : Int → Int → Int → BoutReal
  C2 : Int → Int → Int → BoutReal
  D : Int → Int → Int → BoutReal
  ksp : KSP
  xs : Vec
  bs : Vec

/-- The variables of `solve` that live across its blocks: the vectors `xs` and `bs`, the
scalar `val`, the array `tval` and the data of `result`. -/
structure SolveLocals where
  xs : Vec
  bs : Vec
  val : BoutReal
  tval : Int → BoutReal
  result : Int → Int → BoutReal

/-- Lines 107–132 of `solve`: the initial guess goes into `xs` and `rhs` into `bs`. -/
def LaplacePetscAmg.load (self : LaplacePetscAmg) (m : InvertFlags) (rhs x0 : FieldPerp)
    (st : SolveLocals) : SolveLocals :=
  if self.global_flags &&& m.INVERT_START_NEW ≠ 0 then
    -- set initial guess to zero
    forLoop self.Nx_local (fun i st =>
      forLoop self.Nz_local (fun k st =>
        let ind := self.gindices ((i + self.lxs) * self.nzt + k + self.lzs)
        let val : BoutReal := 0
        let xs := VecSetValues st.xs ind val .INSERT_VALUES
        let val := rhs.data (i + self.mxstart) (k + self.mzstart)
        let bs := VecSetValues st.bs ind val .INSERT_VALUES
        { st with xs := xs, bs := bs, val := val }) st) st
  else
    -- Read initial guess into local array, ignoring guard cells
    forLoop self.Nx_local (fun i st =>
      forLoop self.Nz_local (fun k st =>
        let ind := self.gindices ((i + self.lxs) * self.nzt + k + self.lzs)
        let val := x0.data (i + self.mxstart) (k + self.mzstart)
        let xs := VecSetValues st.xs ind val .INSERT_VALUES
        let val := rhs.data (i + self.mxstart) (k + self.mzstart)
        let bs := VecSetValues st.bs ind val .INSERT_VALUES
        { st with xs := xs, bs := bs, val := val }) st) st

/-- Lines 135–170 of `solve`: the array `tval` of the inner boundary. -/
def LaplacePetscAmg.innerTval (self : LaplacePetscAmg) (m : InvertFlags)
    (sqrt : BoutReal → BoutReal) (mesh : Mesh) (yindex : Int) (x0 : FieldPerp)
    (st : SolveLocals) : SolveLocals :=
  let coords := mesh.coordinates
  let i2 := mesh.xstart
  if self.inner_boundary_flags &&& m.INVERT_AC_GRAD ≠ 0 then
    -- Neumann boundary condition
    if self.inner_boundary_flags &&& m.INVERT_SET ≠ 0 then
      forLoop self.nzt (fun k st =>
        let v := (-(x0.data (i2 - 1) (k + self.mzstart - self.lzs)))
          * sqrt (coords.g_11 i2 yindex) * coords.dx i2 yindex
        { st with tval := arraySet st.tval k v }) st
    else
      -- zero gradient inner boundary condition
      forLoop self.nzt (fun k st => { st with tval := arraySet st.tval k 0 }) st
  else
    -- Dirichlet boundary condition
    if self.inner_boundary_flags &&& m.INVERT_SET ≠ 0 then
      forLoop self.nzt (fun k st =>
        let v := 2 * x0.data (i2 - 1) (k + self.mzstart - self.lzs)
        { st with tval := arraySet st.tval k v }) st
    else
      -- zero value inner boundary condition
      forLoop self.nzt (fun k st => { st with tval := arraySet st.tval k 0 }) st

/-- Lines 171–186 of `solve`: the correction of `bs` on the first interior column. -/
def LaplacePetscAmg.innerRhs (self : LaplacePetscAmg) (mesh : Mesh) (yindex : Int)
    (st : SolveLocals) : SolveLocals :=
  let coords := mesh.coordinates
  let i2 := mesh.xstart
  forLoop self.Nz_local (fun k st =>
    let k2 := k + self.mzstart
    let ddx_C := (self.C2 (i2 + 1) yindex k2 - self.C2 (i2 - 1) yindex k2) / 2
      / coords.dx i2 yindex / self.C1 i2 yindex k2
    let ddz_C := (self.C2 i2 yindex (k2 + self.nzt) - self.C2 i2 yindex (k2 - self.nzt)) / 2
      / coords.dz / self.C1 i2 yindex k2
    let dval := self.D i2 yindex k2 * coords.g11 i2 yindex / coords.dx i2 yindex
      / coords.dx i2 yindex
    let dval := dval - (self.D i2 yindex k2 * 2 * coords.G1 i2 yindex
      + coords.g11 i2 yindex * ddx_C + coords.g13 i2 yindex * ddz_C)
        / coords.dx i2 yindex / 2
    let val := (-(st.tval k)) * dval
    let dval := self.D i2 yindex k2 * coords.g13 i2 yindex / coords.dx i2 yindex
      / coords.dz / 4
    let val := if self.lzs = 0 ∧ k = 0 then val - dval * st.tval (self.nzt - 1)
      else val - dval * st.tval (k - 1)
    let val := if self.lzs = 0 ∧ k = self.nzt - 1 then val + dval * st.tval 0
      else val + dval * st.tval (k + 1)
    let ind := self.gindices (k + self.lzs)
    { st with bs := VecSetValues st.bs ind val .ADD_VALUES, val := val }) st

/-- Lines 189–225 of `solve`: the array `tval` of the outer boundary. -/
def LaplacePetscAmg.outerTval (self : LaplacePetscAmg) (m : InvertFlags)
    (sqrt : BoutReal → BoutReal) (mesh : Mesh) (yindex : Int) (x0 : FieldPerp)
    (st : SolveLocals) : SolveLocals :=
  let coords := mesh.coordinates
  let i2 := mesh.xend
  if self.outer_boundary_flags &&& m.INVERT_AC_GRAD ≠ 0 then
    -- Neumann boundary condition
    if self.inner_boundary_flags &&& m.INVERT_SET ≠ 0 then
      -- guard cells of x0 specify gradient to set at outer boundary
      forLoop self.nzt (fun k st =>
        let v := x0.data (i2 + 1) (k + self.mzstart - self.lzs)
          * sqrt (coords.g_11 i2 yindex) * coords.dx i2 yindex
        { st with tval := arraySet st.tval k v }) st
    else
      -- zero gradient outer boundary condition
      forLoop self.nzt (fun k st => { st with tval := arraySet st.tval k 0 }) st
  else
    -- Dirichlet boundary condition
    if self.outer_boundary_flags &&& m.INVERT_SET ≠ 0 then
      -- guard cells of x0 specify value to set at outer boundary
      forLoop self.nzt (fun k st =>
        let v := 2 * x0.data (i2 + 1) (k + self.mzstart - self.lzs)
        { st with tval := arraySet st.tval k v }) st
    else
      forLoop self.nzt (fun k st => { st with tval := arraySet st.tval k 0 }) st

/-- Lines 226–241 of `solve`: the correction of `bs` on the last interior column. -/
def LaplacePetscAmg.outerRhs (self : LaplacePetscAmg) (mesh : Mesh) (yindex : Int)
    (st : SolveLocals) : SolveLocals :=
  let coords := mesh.coordinates
  let i2 := mesh.xend
  forLoop self.Nz_local (fun k st =>
    let k2 := k + self.mzstart
    let ddx_C := (self.C2 (i2 + 1) yindex k2 - self.C2 (i2 - 1) yindex k2) / 2
      / coords.dx i2 yindex / self.C1 i2 yindex k2
    let ddz_C := (self.C2 i2 yindex (k2 + self.nzt) - self.C2 i2 yindex (k2 - self.nzt)) / 2
      / coords.dz / self.C1 i2 yindex k2
    let dval := self.D i2 yindex k2 * coords.g11 i2 yindex / coords.dx i2 yindex
      / coords.dx i2 yindex
    let dval := dval + (self.D i2 yindex k2 * 2 * coords.G1 i2 yindex
      + coords.g11 i2 yindex * ddx_C + coords.g13 i2 yindex * ddz_C)
        / coords.dx i2 yindex / 2
    let val := (-(st.tval k)) * dval
    let dval := self.D i2 yindex k2 * coords.g13 i2 yindex / coords.dx i2 yindex
      / coords.dz / 4
    let val := if self.lzs = 0 ∧ k = 0 then val + dval * st.tval (self.nzt - 1)
      else val + dval * st.tval (k - 1)
    let val := if self.lzs = 0 ∧ k = self.nzt - 1 then val - dval * st.tval 0
      else val - dval * st.tval (k + 1)
    let ind := self.gindices ((self.nxt - 1) * self.nzt + k + self.lzs)
    { st with bs := VecSetValues st.bs ind val .ADD_VALUES, val := val }) st

/-- Lines 99–242 of `solve`, up to the assembly of `bs` and `xs`: the load and the two
boundary corrections. `val0`, `tval0` and `result0` are the unspecified contents of the
variables `val`, `tval` and of the storage of `result`. -/
def LaplacePetscAmg.assemble (self : LaplacePetscAmg) (m : InvertFlags)
    (sqrt : BoutReal → BoutReal) (mesh : Mesh) (rhs x0 : FieldPerp)
    (val0 : BoutReal) (tval0 : Int → BoutReal) (result0 : Int → Int → BoutReal) :
    SolveLocals :=
  let yindex := rhs.index
  let st : SolveLocals :=
    { xs := self.xs, bs := self.bs, val := val0, tval := tval0, result := result0 }
  let st := self.load m rhs x0 st
  -- For the boundary conditions
  let st := if mesh.firstX then
      self.innerRhs mesh yindex (self.innerTval m sqrt mesh yindex x0 st)
    else st
  let st := if mesh.lastX then
      self.outerRhs mesh yindex (self.outerTval m sqrt mesh yindex x0 st)
    else st
  st

/-- Lines 268–274 of `solve`: the solution is copied into `result`. -/
def LaplacePetscAmg.copyResult (self : LaplacePetscAmg) (mesh : Mesh) (st : SolveLocals) :
    SolveLocals :=
  forLoop self.Nx_local (fun i st =>
    forLoop self.Nz_local (fun k st =>
      let ind := self.gindices ((i + self.lxs) * self.nzt + k + self.lzs)
      let val := st.xs ind
      { st with val := val,
                result := perpSet st.result (i + mesh.xstart) (k + self.mzstart) val }) st) st

/-- Lines 279–297 of `solve`: the inner guard cells of `result`. -/
def LaplacePetscAmg.innerGuard (self : LaplacePetscAmg) (m : InvertFlags)
    (sqrt : BoutReal → BoutReal) (mesh : Mesh) (yindex : Int) (x0 : FieldPerp)
    (st : SolveLocals) : SolveLocals :=
  let coords := mesh.coordinates
  if mesh.firstX then
    let i2 := mesh.xstart
    if self.inner_boundary_flags &&& m.INVERT_AC_GRAD ≠ 0 then
      forLoop self.Nz_local (fun k st =>
        let val := (-(x0.data (i2 - 1) (k + self.mzstart)))
          * sqrt (coords.g_11 i2 yindex) * coords.dx i2 yindex
        let v := val + st.result i2 (k + self.mzstart)
        { st with val := val, result := perpSet st.result (i2 - 1) (k + self.mzstart) v }) st
    else
      -- Dirichlet boundary condition
      forLoop self.Nz_local (fun k st =>
        let v := 2 * x0.data (i2 - 1) (k + self.mzstart) - st.result i2 (k + self.mzstart)
        { st with result := perpSet st.result (i2 - 1) (k + self.mzstart) v }) st
  else st

/-- Lines 300–321 of `solve`: the outer guard cells of `result`. -/
def LaplacePetscAmg.outerGuard (self : LaplacePetscAmg) (m : InvertFlags)
    (sqrt : BoutReal → BoutReal) (mesh : Mesh) (yindex : Int) (x0 : FieldPerp)
    (st : SolveLocals) : SolveLocals :=
  let coords := mesh.coordinates
  if mesh.lastX then
    let i2 := mesh.xend
    if self.outer_boundary_flags &&& m.INVERT_AC_GRAD ≠ 0 then
      -- Neumann boundary condition
      forLoop self.Nz_local (fun k st =>
        let tval := arraySet st.tval k
          (x0.data (i2 + 1) (k + self.mzstart) * sqrt (coords.g_11 i2 yindex)
            * coords.dx i2 yindex)
        let v := st.val + st.result i2 (k + self.mzstart)
        { st with tval := tval, result := perpSet st.result (i2 + 1) (k + self.mzstart) v }) st
    else
      -- Dirichlet boundary condition
      forLoop self.Nz_local (fun k st =>
        let v := 2 * x0.data (i2 + 1) (k + self.mzstart - self.lzs)
          - st.result i2 (k + self.mzstart)
        { st with result := perpSet st.result (i2 + 1) (k + self.mzstart) v }) st
  else st

/-- `LaplacePetscAmg::solve(rhs, x0)` (lines 95–325). `sqrt` is the square root of the
math library, an argument because the exact arithmetic of the embedding has no square
root of every value. When the solver reports a reason that is not positive the function
throws. -/
def LaplacePetscAmg.solve (self : LaplacePetscAmg) (m : InvertFlags)
    (sqrt : BoutReal → BoutReal) (mesh : Mesh) (rhs x0 : FieldPerp)
    (val0 : BoutReal) (tval0 : Int → BoutReal) (result0 : Int → Int → BoutReal) :
    Except BoutException FieldPerp :=
  let yindex := rhs.index
  let st := self.assemble m sqrt mesh rhs x0 val0 tval0 result0
  -- Solve the system
  let xs := self.ksp.KSPSolve st.bs st.xs
  let reason := self.ksp.KSPGetConvergedReason st.bs st.xs
  if reason ≤ 0 then
    .error { what := "LaplacePetscAmg failed to converge. Reason " ++ toString reason }
  else
    -- Copy data into result
    let st := self.copyResult mesh { st with xs := xs }
    let st := self.innerGuard m sqrt mesh yindex x0 st
    let st := self.outerGuard m sqrt mesh yindex x0 st
    .ok { data := st.result, index := yindex }

/-! ## Concrete inputs used to exercise the theorems -/

/-- A tensor that varies from point to point: `g11 = 2` on the column `x = 0` and `4`
elsewhere, `g22 = g33 = 1`, `g12 = 1`, `g13 = g23 = 0`. -/
def exampleTensor : MetricTensor Field2D :=
  { g11_ := fun p => if p.x = 0 then 2 else 4, g22_ := fun _ => 1, g33_ := fun _ => 1,
    g12_ := fun _ => 1, g13_ := fun _ => 0, g23_ := fun _ => 0 }

/-- A region of two points. -/
def exampleRegion : Region := [⟨0, 0⟩, ⟨1, 0⟩]

/-- The rank-deficient tensor of the spec: `c11 = c22 = c33 = 1`, `c12 = c13 = c23 = 1`. -/
def singularTensor : MetricTensor Field2D := MetricTensor.ofScalars 1 1 1 1 1 1

/-- Some content of freshly allocated fields. -/
def exampleFresh : MetricTensor Field2D := MetricTensor.ofScalars 7 7 7 7 7 7

/-- A contravariant tensor that varies from point to point: `g11 = 1` on the column
`x = 0` and `2` elsewhere, `g22 = g33 = 1`, off-diagonal components `0`. -/
def exampleContravariant : ContravariantMetricTensor :=
  { contravariant_components :=
      { g11 := fun p => if p.x = 0 then 1 else 2, g22 := fun _ => 1, g33 := fun _ => 1,
        g12 := fun _ => 0, g13 := fun _ => 0, g23 := fun _ => 0 } }

/-- A field of `check` without parallel slices, of constant finite value. -/
def FieldMetric.const (q : ℚ) : FieldMetric :=
  { data := fun _ => .finite q, yslices := none }

/-- Region lookup of a small mesh: every region name resolves to the two points of
`exampleRegion`. -/
def exampleGetRegion : String → Region := fun _ => exampleRegion

/-- A tensor of `check` without parallel slices: `g11 = -1`, `g22 = g33 = 1`, and
off-diagonal components `-3`. -/
def negativeDiagonalTensor : MetricTensor FieldMetric :=
  { g11_ := FieldMetric.const (-1), g22_ := FieldMetric.const 1, g33_ := FieldMetric.const 1,
    g12_ := FieldMetric.const (-3), g13_ := FieldMetric.const (-3),
    g23_ := FieldMetric.const (-3) }

/-- A tensor of `check` without parallel slices: diagonal components `1`, off-diagonal
components `-3`. -/
def negativeOffDiagonalTensor : MetricTensor FieldMetric :=
  { g11_ := FieldMetric.const 1, g22_ := FieldMetric.const 1, g33_ := FieldMetric.const 1,
    g12_ := FieldMetric.const (-3), g13_ := FieldMetric.const (-3),
    g23_ := FieldMetric.const (-3) }

/-- The decomposition of the spec's example: 2x2 processes, 4x4 interior cells per
process, 1 guard cell (local arrays 6x6), `LocalNz = 4`; this is process `(1, 0)`. -/
def exampleConverter : IndConverter :=
  { mesh := { LocalNx := 6, LocalNy := 6, LocalNz := 4, xstart := 1, xend := 4, ystart := 1,
              NXPE := 2, NYPE := 2, XProcIndex := 1, YProcIndex := 0 } }

/-- A spline on the mesh of `exampleConverter` (interior columns `1..4` on each of two
processes in x, so the local constant `xend` of `calcWeights` is `8`), with
`y_offset = 1` and members as the constructor leaves them. -/
def exampleSpline : XZHermiteSpline :=
  { localmesh := exampleConverter.mesh, y_offset := 1,
    i_corner := fun _ => 0, k_corner := fun _ => -1,
    h00_x := fun _ => 0, h01_x := fun _ => 0, h10_x := fun _ => 0, h11_x := fun _ => 0,
    h00_z := fun _ => 0, h01_z := fun _ => 0, h10_z := fun _ => 0, h11_z := fun _ => 0,
    newWeights := fun _ _ => 0 }

/-- A displacement in x: `5/2` on the column `x = 1` (corner inside the interior), `19/2`
on the column `x = 2` (corner beyond the last interior column), `-1/2` elsewhere (corner
below the first interior column). -/
def exampleDeltaX : Field3D :=
  fun i => if i.x = 1 then 5 / 2 else if i.x = 2 then 19 / 2 else -1 / 2

/-- A displacement in z: `-3/4` everywhere. -/
def exampleDeltaZ : Field3D := fun _ => -3 / 4

/-- A region of three points, one on each of the columns `x = 1, 2, 3`. -/
def exampleRegion3D : List Ind3D := [⟨1, 1, 0⟩, ⟨2, 1, 0⟩, ⟨3, 1, 0⟩]

/-- A spline on a mesh with a single interior column, `xstart = xend = 1` on one process
in x: the local constant `xend` of `calcWeights` is `1`. -/
def singleColumnSpline : XZHermiteSpline :=
  { exampleSpline with
    localmesh := { LocalNx := 3, LocalNy := 6, LocalNz := 4, xstart := 1, xend := 1,
                   ystart := 1, NXPE := 1, NYPE := 2, XProcIndex := 0, YProcIndex := 0 } }

/-- A neighbour lookup on the flat index of the example mesh (`ny = 6`, `nz = 4`), without
wrapping: `dx` steps in x are `dx * 24`, `dz` steps in z are `dz`. -/
def exampleNb (ind dx dz : Int) : Int := ind + dx * (6 * 4) + dz

/-- A field on the flat index that is affine in the coordinates of the example mesh seen
from the corner `(2, -1)` of the point `(1, 1, 0)`, whose compound index is `55`:
`f = 3*x + 5*z + 7`. -/
def exampleAffineField : FieldData :=
  fun ind => 3 * (2 + ((ind - 54) / 24 : Int)) + 5 * (((ind - 54) % 24 : Int) - 2) + 7

/-- The example spline with `k_corner = 0` everywhere. -/
def zeroCornerSpline : XZHermiteSpline := { exampleSpline with k_corner := fun _ => 0 }

/-- A field on the flat index that is not affine: the square of the index. -/
def exampleField : FieldData := fun ind => (ind : ℚ) * (ind : ℚ)

/-- The second-order central difference in x on the flat index of the example mesh. -/
def centralX (f : FieldData) : FieldData := fun p => (f (p + 6 * 4) - f (p - 6 * 4)) / 2

/-- The second-order central difference in z on the flat index of the example mesh. -/
def centralZ (f : FieldData) : FieldData := fun p => (f (p + 1) - f (p - 1)) / 2

/-- The values of the flag masks in the example: `INVERT_START_NEW = 2` among the global
flags, `INVERT_AC_GRAD = 2` and `INVERT_SET = 16` among the boundary flags. -/
def exampleFlags : InvertFlags :=
  { INVERT_START_NEW := 2, INVERT_AC_GRAD := 2, INVERT_SET := 16 }

/-- A mesh on the process at the last X and not at the first X, interior columns
`2..3`, with unit geometry: `dx = dz = 1`, `g11 = g_11 = 1`, `g13 = G1 = 0`. -/
def exampleMesh : Mesh :=
  { xstart := 2, xend := 3, firstX := false, lastX := true,
    coordinates := { dx := fun _ _ => 1, dz := 1, g11 := fun _ _ => 1, g13 := fun _ _ => 0,
                     g_11 := fun _ _ => 1, G1 := fun _ _ => 0 } }

/-- A solver on the example mesh: two interior columns of two z points each, no z
offset, the identity as index table, coefficients `C1 = C2 = D = 1`, `INVERT_AC_GRAD`
at the outer boundary and `INVERT_SET` at the inner one, and a linear solver that
converges (reason `2`) to the solution `5` everywhere. -/
def exampleLaplace : LaplacePetscAmg :=
  { Nx_local := 2, Nz_local := 2, nxt := 2, nzt := 2, lxs := 0, lzs := 0,
    mxstart := 2, mzstart := 0, gindices := fun n => n,
    global_flags := 0, inner_boundary_flags := 16, outer_boundary_flags := 2,
    C1 := fun _ _ _ => 1, C2 := fun _ _ _ => 1, D := fun _ _ _ => 1,
    ksp := { KSPSolve := fun _ _ _ => 5, KSPGetConvergedReason := fun _ _ => 2 },
    xs := fun _ => 0, bs := fun _ => 0 }

/-- The same solver with no inner boundary flag set. -/
def exampleLaplaceNoInnerFlag : LaplacePetscAmg :=
  { exampleLaplace with inner_boundary_flags := 0 }

/-- A right-hand side that is zero, at the y index `1`. -/
def exampleRhs : FieldPerp := { data := fun _ _ => 0, index := 1 }

/-- An initial guess whose value is `3` everywhere, the outer guard cells included. -/
def exampleX0 : FieldPerp := { data := fun _ _ => 3, index := 1 }

/-- A displacement in z that is grid-aligned: `2` everywhere. -/
def alignedDeltaZ : Field3D := fun _ => 2

end BOUT

/-! ## Lemmas on the 3x3 kernel and the inversion loop -/

namespace BOUT

theorem invert3x3_status_of_det_ne_zero (a : Matrix3) (h : a.det ≠ 0) :
    (invert3x3 a).1 = 0 := by
  unfold Matrix3.det at h
  simp [invert3x3, h]

theorem invert3x3_status_of_det_eq_zero (a : Matrix3) (h : a.det = 0) :
    (invert3x3 a).1 = 1 := by
  unfold Matrix3.det at h
  simp [invert3x3, h]

theorem invert3x3_status_eq_zero_iff (a : Matrix3) : (invert3x3 a).1 = 0 ↔ a.det ≠ 0 := by
  constructor
  · intro h hd
    rw [invert3x3_status_of_det_eq_zero a hd] at h
    exact absurd h (by decide)
  · exact invert3x3_status_of_det_ne_zero a

/-- The determinant of the filled matrix is the determinant of the symmetric matrix. -/
theorem det_fill_eq (t : MetricTensor Field2D) (p : Ind2D) :
    (t.fill p).det = (t.toMatrix p).det := by
  simp [Matrix3.det, MetricTensor.fill, MetricTensor.toMatrix, Matrix.det_fin_three]
  ring

theorem inverseLoop_ok_of_det_ne_zero (t : MetricTensor Field2D) (region : Region) :
    ∀ out : MetricTensor Field2D, (∀ p ∈ region, (t.fill p).det ≠ 0) →
      ∃ g, t.inverseLoop region out = .ok g ∧ t.IsInverseOn g region
        ∧ g.AgreeOff out region := by
  induction region with
  | nil =>
    intro out _
    exact ⟨out, rfl, by intro p hp; simp at hp, by intro p _; simp⟩
  | cons i rest ih =>
    intro out h
    have hi : (invert3x3 (t.fill i)).1 = 0 :=
      invert3x3_status_of_det_ne_zero _ (h i (List.mem_cons_self _ _))
    obtain ⟨g, hg, hin, hoff⟩ :=
      ih (out.store i (invert3x3 (t.fill i)).2)
        (fun p hp => h p (List.mem_cons_of_mem _ hp))
    refine ⟨g, ?_, ?_, ?_⟩
    · simp [MetricTensor.inverseLoop, hi, hg]
    · intro p hp
      by_cases hpr : p ∈ rest
      · exact hin p hpr
      · have hpi : p = i := by
          rcases List.mem_cons.mp hp with h1 | h1
          · exact h1
          · exact absurd h1 hpr
        have := hoff p hpr
        subst hpi
        simpa [MetricTensor.store, Field2D.set, MetricTensor.inverseAt] using this
    · intro p hp
      have hpi : p ≠ i := fun e => hp (e ▸ List.mem_cons_self _ _)
      have hpr : p ∉ rest := fun e => hp (List.mem_cons_of_mem _ e)
      have := hoff p hpr
      simpa [MetricTensor.store, Field2D.set, hpi] using this

theorem inverseLoop_error_of_det_eq_zero (t : MetricTensor Field2D) (region : Region) :
    ∀ out : MetricTensor Field2D, (∃ p ∈ region, (t.fill p).det = 0) →
      ∃ e, t.inverseLoop region out = .error e ∧ e.thrown = { what := error_message }
        ∧ ∃ p ∈ region, (t.fill p).det = 0 ∧ e.logged.args = [p.x, p.y] := by
  induction region with
  | nil =>
    intro out h
    obtain ⟨p, hp, _⟩ := h
    simp at hp
  | cons i rest ih =>
    intro out h
    by_cases hi : (t.fill i).det = 0
    · have hs := invert3x3_status_of_det_eq_zero _ hi
      refine ⟨{ logged := { format := error_message, args := [i.x, i.y] },
                thrown := { what := error_message } }, ?_, rfl, i,
              List.mem_cons_self _ _, hi, rfl⟩
      simp [MetricTensor.inverseLoop, hs]
    · have hs := invert3x3_status_of_det_ne_zero _ hi
      have h2 : ∃ p ∈ rest, (t.fill p).det = 0 := by
        obtain ⟨p, hp, hd⟩ := h
        rcases List.mem_cons.mp hp with h1 | h1
        · exact absurd (h1 ▸ hd) hi
        · exact ⟨p, h1, hd⟩
      obtain ⟨e, he, hthrown, q, hq, hqd, hargs⟩ :=
        ih (out.store i (invert3x3 (t.fill i)).2) h2
      refine ⟨e, ?_, hthrown, q, List.mem_cons_of_mem _ hq, hqd, hargs⟩
      simp [MetricTensor.inverseLoop, hs, he]

end BOUT

namespace BOUT

/-- The entries of the inverted matrix at a point of non-zero determinant. -/
theorem inverseAt_eq (t : MetricTensor Field2D) (p : Ind2D) (h : (t.fill p).det ≠ 0) :
    t.inverseAt p =
      { a00 := ((t.fill p).a11 * (t.fill p).a22 - (t.fill p).a12 * (t.fill p).a21)
                 / (t.fill p).det,
        a01 := ((t.fill p).a02 * (t.fill p).a21 - (t.fill p).a01 * (t.fill p).a22)
                 / (t.fill p).det,
        a02 := ((t.fill p).a01 * (t.fill p).a12 - (t.fill p).a02 * (t.fill p).a11)
                 / (t.fill p).det,
        a10 := ((t.fill p).a12 * (t.fill p).a20 - (t.fill p).a10 * (t.fill p).a22)
                 / (t.fill p).det,
        a11 := ((t.fill p).a00 * (t.fill p).a22 - (t.fill p).a02 * (t.fill p).a20)
                 / (t.fill p).det,
        a12 := ((t.fill p).a02 * (t.fill p).a10 - (t.fill p).a00 * (t.fill p).a12)
                 / (t.fill p).det,
        a20 := ((t.fill p).a10 * (t.fill p).a21 - (t.fill p).a11 * (t.fill p).a20)
                 / (t.fill p).det,
        a21 := ((t.fill p).a01 * (t.fill p).a20 - (t.fill p).a00 * (t.fill p).a21)
                 / (t.fill p).det,
        a22 := ((t.fill p).a00 * (t.fill p).a11 - (t.fill p).a01 * (t.fill p).a10)
                 / (t.fill p).det } := by
  have h2 := h
  unfold Matrix3.det at h2
  simp only [MetricTensor.inverseAt, invert3x3, Matrix3.det, if_neg h2]

/-- Where `g` holds the pointwise inverse of `t` and the determinant is not zero, the
product of the two symmetric matrices is the identity. -/
theorem toMatrix_mul_of_isInverseOn (t g : MetricTensor Field2D) (region : Region)
    (hg : t.IsInverseOn g region) (p : Ind2D) (hp : p ∈ region)
    (hd : (t.fill p).det ≠ 0) : t.toMatrix p * g.toMatrix p = 1 := by
  obtain ⟨h1, h2, h3, h4, h5, h6⟩ := hg p hp
  rw [inverseAt_eq t p hd] at h1 h2 h3 h4 h5 h6
  simp only [] at h1 h2 h3 h4 h5 h6
  have hd2 := hd
  simp only [Matrix3.det, MetricTensor.fill] at hd2 h1 h2 h3 h4 h5 h6
  ext i j
  fin_cases i <;> fin_cases j <;>
    simp [MetricTensor.toMatrix, Matrix.mul_apply, Fin.sum_univ_three, h1, h2, h3, h4, h5, h6] <;>
    field_simp <;> ring

end BOUT

namespace BOUT

/-- `inverse` returns exactly when its loop does, with the tensor the loop produced. -/
theorem inverse_eq_ok_iff (t : MetricTensor Field2D) (region : Region)
    (fresh : MetricTensor Field2D) (rgnMax : Region) (g : MetricTensor Field2D) :
    (∃ r, t.inverse region fresh rgnMax = .ok r ∧ r.tensor = g)
      ↔ t.inverseLoop region fresh = .ok g := by
  unfold MetricTensor.inverse
  cases hloop : t.inverseLoop region fresh with
  | error e => simp
  | ok g2 =>
    constructor
    · rintro ⟨r, hr, hrg⟩
      simp only [Except.ok.injEq] at hr
      rw [← hrg, ← hr]
    · intro h
      simp only [Except.ok.injEq] at h
      exact ⟨_, rfl, h⟩

/-- On a region without singular point `inverse` returns the pointwise inverse. -/
theorem inverse_ok_of_det_ne_zero (t : MetricTensor Field2D) (region : Region)
    (fresh : MetricTensor Field2D) (rgnMax : Region)
    (h : ∀ p ∈ region, (t.fill p).det ≠ 0) :
    ∃ r, t.inverse region fresh rgnMax = .ok r ∧ t.IsInverseOn r.tensor region
      ∧ r.tensor.AgreeOff fresh region := by
  obtain ⟨g, hg, hin, hoff⟩ := inverseLoop_ok_of_det_ne_zero t region fresh h
  obtain ⟨r, hr, hrg⟩ := (inverse_eq_ok_iff t region fresh rgnMax g).mpr hg
  exact ⟨r, hr, hrg ▸ hin, hrg ▸ hoff⟩

/-- If `inverse` returns, no point of the region is singular. -/
theorem det_ne_zero_of_inverse_ok (t : MetricTensor Field2D) (region : Region)
    (fresh : MetricTensor Field2D) (rgnMax : Region) (r : InverseReport)
    (hr : t.inverse region fresh rgnMax = .ok r) :
    ∀ p ∈ region, (t.fill p).det ≠ 0 := by
  intro p hp hd
  obtain ⟨e, he, _⟩ := inverseLoop_error_of_det_eq_zero t region fresh ⟨p, hp, hd⟩
  have hloop := (inverse_eq_ok_iff t region fresh rgnMax r.tensor).mp ⟨r, hr, rfl⟩
  rw [he] at hloop
  cases hloop

/-- A singular point in the region makes `inverse` throw. -/
theorem inverse_error_of_det_eq_zero (t : MetricTensor Field2D) (region : Region)
    (fresh : MetricTensor Field2D) (rgnMax : Region)
    (h : ∃ p ∈ region, (t.fill p).det = 0) :
    ∃ e, t.inverse region fresh rgnMax = .error e ∧ e.thrown = { what := error_message }
      ∧ ∃ p ∈ region, (t.fill p).det = 0 ∧ e.logged.args = [p.x, p.y] := by
  obtain ⟨e, he, rest⟩ := inverseLoop_error_of_det_eq_zero t region fresh h
  exact ⟨e, by simp [MetricTensor.inverse, he], rest⟩

/-- The six components are the entries of the symmetric matrix. -/
theorem components_eq_of_toMatrix_eq (t g : MetricTensor Field2D) (p : Ind2D)
    (h : g.toMatrix p = t.toMatrix p) :
    g.g11_ p = t.g11_ p ∧ g.g22_ p = t.g22_ p ∧ g.g33_ p = t.g33_ p
      ∧ g.g12_ p = t.g12_ p ∧ g.g13_ p = t.g13_ p ∧ g.g23_ p = t.g23_ p := by
  have e00 := congrFun (congrFun h 0) 0
  have e11 := congrFun (congrFun h 1) 1
  have e22 := congrFun (congrFun h 2) 2
  have e01 := congrFun (congrFun h 0) 1
  have e02 := congrFun (congrFun h 0) 2
  have e12 := congrFun (congrFun h 1) 2
  simp [MetricTensor.toMatrix] at e00 e11 e22 e01 e02 e12
  exact ⟨e00, e11, e22, e01, e02, e12⟩

end BOUT

/-! ## The claims -/

namespace BOUT

/-- C1: whenever `MetricTensor::inverse` returns, at every point of the region the
product of the input matrix and the matrix of the six written components is the
identity (diagonal contractions 1, off-diagonal contractions 0); and it does return
when the matrix is invertible (non-zero determinant) at every point of the region. -/
theorem MetricTensor.inverse_is_matrix_inverse (T : MetricTensor Field2D) (region : Region)
    (fresh : MetricTensor Field2D) (rgnMax : Region) :
    (∀ r, T.inverse region fresh rgnMax = .ok r →
        ∀ p ∈ region, (T.toMatrix p).det ≠ 0 ∧ T.toMatrix p * r.tensor.toMatrix p = 1)
      ∧ ((∀ p ∈ region, (T.toMatrix p).det ≠ 0) →
          ∃ r, T.inverse region fresh rgnMax = .ok r
            ∧ ∀ p ∈ region, T.toMatrix p * r.tensor.toMatrix p = 1) := by
  constructor
  · intro r hr p hp
    have hdet := det_ne_zero_of_inverse_ok T region fresh rgnMax r hr
    obtain ⟨r2, hr2, hin, _⟩ := inverse_ok_of_det_ne_zero T region fresh rgnMax hdet
    rw [hr] at hr2
    simp only [Except.ok.injEq] at hr2
    subst hr2
    exact ⟨det_fill_eq T p ▸ hdet p hp,
      toMatrix_mul_of_isInverseOn T r.tensor region hin p hp (hdet p hp)⟩
  · intro h
    have hdet : ∀ p ∈ region, (T.fill p).det ≠ 0 := fun p hp => by
      rw [det_fill_eq]; exact h p hp
    obtain ⟨r, hr, hin, _⟩ := inverse_ok_of_det_ne_zero T region fresh rgnMax hdet
    exact ⟨r, hr, fun p hp =>
      toMatrix_mul_of_isInverseOn T r.tensor region hin p hp (hdet p hp)⟩

end BOUT

namespace BOUT

theorem exampleTensor_det_ne_zero :
    ∀ p ∈ exampleRegion, (exampleTensor.toMatrix p).det ≠ 0 := by
  intro p hp
  simp only [exampleRegion, List.mem_cons, List.mem_singleton, List.not_mem_nil, or_false] at hp
  rcases hp with rfl | rfl <;>
    simp [MetricTensor.toMatrix, exampleTensor, Matrix.det_fin_three] <;> norm_num

/-- Witness of C1 on a tensor that varies from point to point. -/
theorem MetricTensor.inverse_is_matrix_inverse_witness :
    (∀ p ∈ exampleRegion, (exampleTensor.toMatrix p).det ≠ 0)
      ∧ ∃ r, exampleTensor.inverse exampleRegion exampleFresh exampleRegion = .ok r
          ∧ ∀ p ∈ exampleRegion, exampleTensor.toMatrix p * r.tensor.toMatrix p = 1 :=
  ⟨exampleTensor_det_ne_zero,
    (MetricTensor.inverse_is_matrix_inverse exampleTensor exampleRegion exampleFresh
      exampleRegion).2 exampleTensor_det_ne_zero⟩

/-- C2: on a region where the tensor is non-degenerate at every point (every symmetric
positive-definite tensor is), `MetricTensor::inverse` applied twice succeeds both times
and the second result has the six components of the original at every point of the
region. -/
theorem MetricTensor.inverse_inverse (T : MetricTensor Field2D) (region : Region)
    (fresh1 fresh2 : MetricTensor Field2D) (rgnMax1 rgnMax2 : Region)
    (h : ∀ p ∈ region, (T.toMatrix p).det ≠ 0) :
    ∃ r1 r2, T.inverse region fresh1 rgnMax1 = .ok r1
      ∧ r1.tensor.inverse region fresh2 rgnMax2 = .ok r2
      ∧ ∀ p ∈ region,
          r2.tensor.g11_ p = T.g11_ p ∧ r2.tensor.g22_ p = T.g22_ p
            ∧ r2.tensor.g33_ p = T.g33_ p ∧ r2.tensor.g12_ p = T.g12_ p
            ∧ r2.tensor.g13_ p = T.g13_ p ∧ r2.tensor.g23_ p = T.g23_ p := by
  have hdet : ∀ p ∈ region, (T.fill p).det ≠ 0 := fun p hp => by
    rw [det_fill_eq]; exact h p hp
  obtain ⟨r1, hr1, hin1, _⟩ := inverse_ok_of_det_ne_zero T region fresh1 rgnMax1 hdet
  have hTG : ∀ p ∈ region, T.toMatrix p * r1.tensor.toMatrix p = 1 := fun p hp =>
    toMatrix_mul_of_isInverseOn T r1.tensor region hin1 p hp (hdet p hp)
  have hdet1 : ∀ p ∈ region, (r1.tensor.fill p).det ≠ 0 := by
    intro p hp hz
    rw [det_fill_eq] at hz
    have := congrArg Matrix.det (hTG p hp)
    rw [Matrix.det_mul, hz, mul_zero, Matrix.det_one] at this
    exact zero_ne_one this
  obtain ⟨r2, hr2, hin2, _⟩ :=
    inverse_ok_of_det_ne_zero r1.tensor region fresh2 rgnMax2 hdet1
  refine ⟨r1, r2, hr1, hr2, fun p hp => ?_⟩
  have hGH : r1.tensor.toMatrix p * r2.tensor.toMatrix p = 1 :=
    toMatrix_mul_of_isInverseOn r1.tensor r2.tensor region hin2 p hp (hdet1 p hp)
  apply components_eq_of_toMatrix_eq
  calc r2.tensor.toMatrix p
      = (T.toMatrix p * r1.tensor.toMatrix p) * r2.tensor.toMatrix p := by
        rw [hTG p hp, one_mul]
    _ = T.toMatrix p * (r1.tensor.toMatrix p * r2.tensor.toMatrix p) := by
        rw [mul_assoc]
    _ = T.toMatrix p := by rw [hGH, mul_one]

/-- Witness of C2 on a tensor that varies from point to point. -/
theorem MetricTensor.inverse_inverse_witness :
    (∀ p ∈ exampleRegion, (exampleTensor.toMatrix p).det ≠ 0)
      ∧ ∃ r1 r2, exampleTensor.inverse exampleRegion exampleFresh [] = .ok r1
          ∧ r1.tensor.inverse exampleRegion exampleFresh [] = .ok r2
          ∧ ∀ p ∈ exampleRegion,
              r2.tensor.g11_ p = exampleTensor.g11_ p ∧ r2.tensor.g22_ p = exampleTensor.g22_ p
                ∧ r2.tensor.g33_ p = exampleTensor.g33_ p
                ∧ r2.tensor.g12_ p = exampleTensor.g12_ p
                ∧ r2.tensor.g13_ p = exampleTensor.g13_ p
                ∧ r2.tensor.g23_ p = exampleTensor.g23_ p :=
  ⟨exampleTensor_det_ne_zero,
    MetricTensor.inverse_inverse exampleTensor exampleRegion exampleFresh exampleFresh [] []
      exampleTensor_det_ne_zero⟩

/-- C3: `MetricTensor::inverse` raises an error, and so returns no tensor, whenever the
matrix at some point of the region has zero determinant; in particular whenever the six
components all equal 1 at some point of the region. -/
theorem MetricTensor.inverse_raises_on_singular (T : MetricTensor Field2D) (region : Region)
    (fresh : MetricTensor Field2D) (rgnMax : Region) :
    ((∃ p ∈ region, (T.toMatrix p).det = 0) →
        ∃ e, T.inverse region fresh rgnMax = .error e)
      ∧ ((∃ p ∈ region, T.g11_ p = 1 ∧ T.g22_ p = 1 ∧ T.g33_ p = 1
            ∧ T.g12_ p = 1 ∧ T.g13_ p = 1 ∧ T.g23_ p = 1) →
          ∃ e, T.inverse region fresh rgnMax = .error e) := by
  constructor
  · rintro ⟨p, hp, hd⟩
    obtain ⟨e, he, _⟩ := inverse_error_of_det_eq_zero T region fresh rgnMax
      ⟨p, hp, by rw [det_fill_eq]; exact hd⟩
    exact ⟨e, he⟩
  · rintro ⟨p, hp, h1, h2, h3, h4, h5, h6⟩
    obtain ⟨e, he, _⟩ := inverse_error_of_det_eq_zero T region fresh rgnMax
      ⟨p, hp, by simp [Matrix3.det, MetricTensor.fill, h1, h2, h3, h4, h5, h6]⟩
    exact ⟨e, he⟩

/-- Witness of C3: the all-ones tensor is singular at the second point of a region. -/
theorem MetricTensor.inverse_raises_on_singular_witness :
    (∃ p ∈ exampleRegion, (singularTensor.toMatrix p).det = 0)
      ∧ (∃ e, singularTensor.inverse exampleRegion exampleFresh exampleRegion = .error e)
      ∧ (∃ p ∈ exampleRegion, singularTensor.g11_ p = 1 ∧ singularTensor.g22_ p = 1
            ∧ singularTensor.g33_ p = 1 ∧ singularTensor.g12_ p = 1
            ∧ singularTensor.g13_ p = 1 ∧ singularTensor.g23_ p = 1)
      ∧ ∃ e, singularTensor.inverse exampleRegion exampleFresh exampleRegion = .error e := by
  have hd : ∃ p ∈ exampleRegion, (singularTensor.toMatrix p).det = 0 :=
    ⟨⟨1, 0⟩, by simp [exampleRegion], by
      simp [MetricTensor.toMatrix, singularTensor, MetricTensor.ofScalars,
        Matrix.det_fin_three]⟩
  have h1 : ∃ p ∈ exampleRegion, singularTensor.g11_ p = 1 ∧ singularTensor.g22_ p = 1
      ∧ singularTensor.g33_ p = 1 ∧ singularTensor.g12_ p = 1
      ∧ singularTensor.g13_ p = 1 ∧ singularTensor.g23_ p = 1 :=
    ⟨⟨1, 0⟩, by simp [exampleRegion], by simp [singularTensor, MetricTensor.ofScalars]⟩
  exact ⟨hd,
    (MetricTensor.inverse_raises_on_singular singularTensor exampleRegion exampleFresh
      exampleRegion).1 hd, h1,
    (MetricTensor.inverse_raises_on_singular singularTensor exampleRegion exampleFresh
      exampleRegion).2 h1⟩

end BOUT

namespace BOUT

theorem inverse_maxerr_eq (t : MetricTensor Field2D) (region : Region)
    (fresh : MetricTensor Field2D) (rgnMax : Region) (r : InverseReport)
    (hr : t.inverse region fresh rgnMax = .ok r) :
    r.maxerr_diagonal =
        BOUTMAX
          (fieldMax rgnMax (fun p => |(r.tensor.g11_ p * r.tensor.g11_ p
              + r.tensor.g12_ p * r.tensor.g12_ p + r.tensor.g13_ p * r.tensor.g13_ p) - 1|))
          (fieldMax rgnMax (fun p => |(r.tensor.g12_ p * r.tensor.g12_ p
              + r.tensor.g22_ p * r.tensor.g22_ p + r.tensor.g23_ p * r.tensor.g23_ p) - 1|))
          (fieldMax rgnMax (fun p => |(r.tensor.g13_ p * r.tensor.g13_ p
              + r.tensor.g23_ p * r.tensor.g23_ p + r.tensor.g33_ p * r.tensor.g33_ p) - 1|))
      ∧ r.maxerr_offdiagonal =
        BOUTMAX
          (fieldMax rgnMax (fun p => |r.tensor.g11_ p * r.tensor.g12_ p
              + r.tensor.g12_ p * r.tensor.g22_ p + r.tensor.g13_ p * r.tensor.g23_ p|))
          (fieldMax rgnMax (fun p => |r.tensor.g11_ p * r.tensor.g13_ p
              + r.tensor.g12_ p * r.tensor.g23_ p + r.tensor.g13_ p * r.tensor.g33_ p|))
          (fieldMax rgnMax (fun p => |r.tensor.g12_ p * r.tensor.g13_ p
              + r.tensor.g22_ p * r.tensor.g23_ p + r.tensor.g23_ p * r.tensor.g33_ p|)) := by
  unfold MetricTensor.inverse at hr
  cases hloop : t.inverseLoop region fresh with
  | error e => rw [hloop] at hr; cases hr
  | ok g =>
    rw [hloop] at hr
    simp only [Except.ok.injEq] at hr
    subst hr
    exact ⟨rfl, rfl⟩

/-- C4 (the code at a failing input): the all-ones tensor is singular at the only point
of the region, once `(3, 5)` and once `(7, 2)`. Both times the exception thrown carries
the format string itself, placeholders unfilled; the indices reach only `output_error`. -/
theorem MetricTensor.inverse_thrown_message_lacks_coordinates
    (fresh : MetricTensor Field2D) (rgnMax : Region) :
    singularTensor.inverse [⟨3, 5⟩] fresh rgnMax
        = .error { logged := { format := error_message, args := [3, 5] },
                   thrown := { what := error_message } }
      ∧ singularTensor.inverse [⟨7, 2⟩] fresh rgnMax
        = .error { logged := { format := error_message, args := [7, 2] },
                   thrown := { what := error_message } } := by
  constructor <;>
    simp [MetricTensor.inverse, MetricTensor.inverseLoop, invert3x3, MetricTensor.fill,
      singularTensor, MetricTensor.ofScalars]

/-- C5 (the code at a failing input): for the uniform tensor `diag(2, 2, 2)` the computed
`G = diag(1/2, 1/2, 1/2)` is the exact inverse, yet the diagonal residual that
`MetricTensor::inverse` reports is `3/4`: it contracts `G` with itself. -/
theorem MetricTensor.inverse_residual_of_uniform_diagonal (fresh : MetricTensor Field2D) :
    ∃ r, (MetricTensor.ofScalars 2 2 2 0 0 0).inverse [⟨0, 0⟩] fresh [⟨0, 0⟩] = .ok r
      ∧ (MetricTensor.ofScalars 2 2 2 0 0 0).toMatrix ⟨0, 0⟩ * r.tensor.toMatrix ⟨0, 0⟩ = 1
      ∧ r.maxerr_diagonal = 3 / 4
      ∧ r.maxerr_offdiagonal = 0 := by
  have hdet : ∀ p ∈ ([⟨0, 0⟩] : Region),
      ((MetricTensor.ofScalars 2 2 2 0 0 0).fill p).det ≠ 0 := by
    intro p _
    simp [Matrix3.det, MetricTensor.fill, MetricTensor.ofScalars]
  obtain ⟨r, hr, hin, _⟩ :=
    inverse_ok_of_det_ne_zero (MetricTensor.ofScalars 2 2 2 0 0 0) [⟨0, 0⟩] fresh [⟨0, 0⟩] hdet
  have hmem : (⟨0, 0⟩ : Ind2D) ∈ ([⟨0, 0⟩] : Region) := List.mem_singleton.mpr rfl
  obtain ⟨e1, e2⟩ := inverse_maxerr_eq _ _ _ _ r hr
  obtain ⟨h1, h2, h3, h4, h5, h6⟩ := hin ⟨0, 0⟩ hmem
  rw [inverseAt_eq _ _ (hdet _ hmem)] at h1 h2 h3 h4 h5 h6
  simp [Matrix3.det, MetricTensor.fill, MetricTensor.ofScalars] at h1 h2 h3 h4 h5 h6
  refine ⟨r, hr, toMatrix_mul_of_isInverseOn _ _ _ hin _ hmem (hdet _ hmem), ?_, ?_⟩
  · rw [e1]
    simp [BOUTMAX, fieldMax, h1, h2, h3, h4, h5, h6]
    norm_num [abs_of_neg]
  · rw [e2]
    simp [BOUTMAX, fieldMax, h1, h2, h3, h4, h5, h6]

end BOUT

namespace BOUT

/-- C6 (the code at a failing input): the contravariant tensor has `g11 = 1` at `(0, 0)`
and `g11 = 2` at `(1, 0)`. `calcCovariant` returns the tensor built from the matrix
inverted last, so its `g_11` is `1/2` at `(0, 0)` too, and the product with the
contravariant matrix at `(0, 0)` is not the identity. -/
theorem ContravariantMetricTensor.calcCovariant_returns_last_inverse
    (a0 : Matrix3) (rgnMax : Region) :
    ∃ r, exampleContravariant.calcCovariant exampleRegion a0 rgnMax = .ok r
      ∧ r.tensor.g_11 ⟨0, 0⟩ = 1 / 2
      ∧ r.tensor.g_11 ⟨1, 0⟩ = 1 / 2
      ∧ exampleContravariant.toMatrix ⟨0, 0⟩ * r.tensor.toMatrix ⟨0, 0⟩ ≠ 1 := by
  have hloop : exampleContravariant.calcCovariantLoop exampleRegion a0
      = .ok { a00 := 1 / 2, a01 := 0, a02 := 0, a10 := 0, a11 := 1, a12 := 0,
              a20 := 0, a21 := 0, a22 := 1 } := by
    simp [ContravariantMetricTensor.calcCovariantLoop, exampleRegion, invert3x3,
      ContravariantMetricTensor.fill, exampleContravariant]
  unfold ContravariantMetricTensor.calcCovariant
  rw [hloop]
  refine ⟨_, rfl, ?_, ?_, ?_⟩
  · simp [CovariantMetricTensor.ofScalars]
  · simp [CovariantMetricTensor.ofScalars]
  · intro h
    have h00 := congrFun (congrFun h 0) 0
    simp [ContravariantMetricTensor.toMatrix, CovariantMetricTensor.toMatrix,
      CovariantMetricTensor.ofScalars, exampleContravariant, Matrix.mul_apply,
      Fin.sum_univ_three] at h00

end BOUT

namespace BOUT

theorem checkFinite_eq_ok (getRegion : String → Region) (f : Ind2D → BoutValue)
    (name rgn : String) (h : ∀ p ∈ getRegion rgn, (f p).isfinite = true) :
    checkFinite getRegion f name rgn = .ok () := by
  have : (getRegion rgn).all (fun i => (f i).isfinite) = true := by
    rw [List.all_eq_true]; exact h
  simp [checkFinite, this]

theorem checkPositive_eq_ok_iff (getRegion : String → Region) (f : Ind2D → BoutValue)
    (name rgn : String) :
    checkPositive getRegion f name rgn = .ok ()
      ↔ ∀ p ∈ getRegion rgn, (f p).isPositive = true := by
  unfold checkPositive
  by_cases h : (getRegion rgn).all (fun i => (f i).isPositive) = true
  · simp only [h, if_true, true_iff]
    exact List.all_eq_true.mp h
  · simp only [h]
    constructor
    · intro h2; cases h2
    · intro h2; exact absurd (List.all_eq_true.mpr h2) h

theorem checkPositive_ok_or_error (getRegion : String → Region) (f : Ind2D → BoutValue)
    (name rgn : String) :
    checkPositive getRegion f name rgn = .ok ()
      ∨ checkPositive getRegion f name rgn
          = .error { violation := .notPositive, name := name, rgn := rgn } := by
  unfold checkPositive
  split
  · exact Or.inl rfl
  · exact Or.inr rfl

/-- C7: for a tensor without parallel slices whose six components are finite on the
no-corner region, `MetricTensor::check` raises if and only if one of `g11`, `g22`, `g33`
is not strictly positive at some point of the no-corner region. The off-diagonal
components do not occur in the condition: their sign never causes a failure. -/
theorem MetricTensor.check_raises_iff (T : MetricTensor FieldMetric)
    (getRegion : String → Region) (ystart : Int)
    (h11 : T.g11_.yslices = none) (h23 : T.g23_.yslices = none)
    (hfin : ∀ p ∈ getRegion "RGN_NOCORNERS",
      (T.g11_.data p).isfinite = true ∧ (T.g22_.data p).isfinite = true
        ∧ (T.g33_.data p).isfinite = true ∧ (T.g12_.data p).isfinite = true
        ∧ (T.g13_.data p).isfinite = true ∧ (T.g23_.data p).isfinite = true) :
    (∃ e, T.check getRegion ystart = .error e)
      ↔ ∃ p ∈ getRegion "RGN_NOCORNERS",
          (T.g11_.data p).isPositive = false ∨ (T.g22_.data p).isPositive = false
            ∨ (T.g33_.data p).isPositive = false := by
  have f11 := checkFinite_eq_ok getRegion T.g11_.data "g11" "RGN_NOCORNERS"
    (fun p hp => (hfin p hp).1)
  have f22 := checkFinite_eq_ok getRegion T.g22_.data "g22" "RGN_NOCORNERS"
    (fun p hp => (hfin p hp).2.1)
  have f33 := checkFinite_eq_ok getRegion T.g33_.data "g33" "RGN_NOCORNERS"
    (fun p hp => (hfin p hp).2.2.1)
  have f12 := checkFinite_eq_ok getRegion T.g12_.data "g12" "RGN_NOCORNERS"
    (fun p hp => (hfin p hp).2.2.2.1)
  have f13 := checkFinite_eq_ok getRegion T.g13_.data "g13" "RGN_NOCORNERS"
    (fun p hp => (hfin p hp).2.2.2.2.1)
  have f23 := checkFinite_eq_ok getRegion T.g23_.data "g23" "RGN_NOCORNERS"
    (fun p hp => (hfin p hp).2.2.2.2.2)
  have p11 := checkPositive_eq_ok_iff getRegion T.g11_.data "g11" "RGN_NOCORNERS"
  have p22 := checkPositive_eq_ok_iff getRegion T.g22_.data "g22" "RGN_NOCORNERS"
  have p33 := checkPositive_eq_ok_iff getRegion T.g33_.data "g33" "RGN_NOCORNERS"
  have hcheck : T.check getRegion ystart
      = (do
          checkPositive getRegion T.g11_.data "g11" "RGN_NOCORNERS"
          checkPositive getRegion T.g22_.data "g22" "RGN_NOCORNERS"
          checkPositive getRegion T.g33_.data "g33" "RGN_NOCORNERS") := by
    unfold MetricTensor.check
    simp only [f11, f22, f33, f12, f13, f23, h11, h23, Option.isSome_none]
    rcases checkPositive_ok_or_error getRegion T.g11_.data "g11" "RGN_NOCORNERS" with a | a <;>
    rcases checkPositive_ok_or_error getRegion T.g22_.data "g22" "RGN_NOCORNERS" with b | b <;>
    rcases checkPositive_ok_or_error getRegion T.g33_.data "g33" "RGN_NOCORNERS" with c | c <;>
    simp [a, b, c, bind, Except.bind, pure, Except.pure]
  rw [hcheck]
  constructor
  · rintro ⟨e, he⟩
    by_contra hne
    have hall : ∀ p ∈ getRegion "RGN_NOCORNERS",
        (T.g11_.data p).isPositive = true ∧ (T.g22_.data p).isPositive = true
          ∧ (T.g33_.data p).isPositive = true := by
      intro p hp
      refine ⟨?_, ?_, ?_⟩ <;>
      · by_contra hc
        exact hne ⟨p, hp, by simp_all⟩
    rw [p11.mpr (fun p hp => (hall p hp).1), p22.mpr (fun p hp => (hall p hp).2.1),
      p33.mpr (fun p hp => (hall p hp).2.2)] at he
    cases he
  · rintro ⟨p, hp, hpos⟩
    rcases checkPositive_ok_or_error getRegion T.g11_.data "g11" "RGN_NOCORNERS" with a | a
    · rcases checkPositive_ok_or_error getRegion T.g22_.data "g22" "RGN_NOCORNERS" with b | b
      · rcases checkPositive_ok_or_error getRegion T.g33_.data "g33" "RGN_NOCORNERS"
          with c | c
        · exfalso
          have h1 := p11.mp a p hp
          have h2 := p22.mp b p hp
          have h3 := p33.mp c p hp
          rcases hpos with h | h | h <;> simp_all
        · exact ⟨_, by rw [a, b, c]; rfl⟩
      · exact ⟨_, by rw [a, b]; rfl⟩
    · exact ⟨_, by rw [a]; rfl⟩

end BOUT

namespace BOUT

/-- Witness of C7: with `g11 = -1` the check raises, by the theorem. -/
theorem MetricTensor.check_raises_iff_witness :
    negativeDiagonalTensor.g11_.yslices = none
      ∧ negativeDiagonalTensor.g23_.yslices = none
      ∧ (∀ p ∈ exampleGetRegion "RGN_NOCORNERS",
          (negativeDiagonalTensor.g11_.data p).isfinite = true
            ∧ (negativeDiagonalTensor.g22_.data p).isfinite = true
            ∧ (negativeDiagonalTensor.g33_.data p).isfinite = true
            ∧ (negativeDiagonalTensor.g12_.data p).isfinite = true
            ∧ (negativeDiagonalTensor.g13_.data p).isfinite = true
            ∧ (negativeDiagonalTensor.g23_.data p).isfinite = true)
      ∧ ∃ e, negativeDiagonalTensor.check exampleGetRegion 2 = .error e := by
  refine ⟨rfl, rfl, fun p _ => ⟨rfl, rfl, rfl, rfl, rfl, rfl⟩, ?_⟩
  refine (MetricTensor.check_raises_iff negativeDiagonalTensor exampleGetRegion 2 rfl rfl
    (fun p _ => ⟨rfl, rfl, rfl, rfl, rfl, rfl⟩)).mpr ⟨⟨0, 0⟩, ?_, Or.inl ?_⟩
  · simp [exampleGetRegion, exampleRegion]
  · simp [negativeDiagonalTensor, FieldMetric.const, BoutValue.isPositive]

/-- Negative off-diagonal components with positive diagonal components pass the check. -/
theorem check_accepts_negative_offdiagonal :
    negativeOffDiagonalTensor.check exampleGetRegion 2 = .ok () := by
  simp [MetricTensor.check, checkFinite, checkPositive, negativeOffDiagonalTensor,
    FieldMetric.const, exampleGetRegion, exampleRegion, BoutValue.isfinite,
    BoutValue.isPositive, bind, Except.bind, pure, Except.pure]

end BOUT

/-! ## Lemmas on `IndConverter` -/

namespace BOUT

/-- The value that `fromLocalToGlobal` computes. -/
theorem fromLocalToGlobal_ok (CHECK : Nat) (c : IndConverter) (x y z pex pey pez : Int)
    (h : CHECK < 3 ∨ (0 ≤ x ∧ 0 ≤ y ∧ 0 ≤ z
      ∧ 0 ≤ ((x * c.mesh.LocalNy + y) * c.mesh.LocalNz + z)
            + c.mesh.LocalNx * c.mesh.LocalNy * c.mesh.LocalNz
              * ((pey * c.nxpe + pex) * 1 + pez)
      ∧ ((x * c.mesh.LocalNy + y) * c.mesh.LocalNz + z)
            + c.mesh.LocalNx * c.mesh.LocalNy * c.mesh.LocalNz
              * ((pey * c.nxpe + pex) * 1 + pez)
          < c.nxpe * c.nype * c.mesh.LocalNx * c.mesh.LocalNy * c.mesh.LocalNz)) :
    c.fromLocalToGlobal CHECK x y z pex pey pez
      = .ok (((x * c.mesh.LocalNy + y) * c.mesh.LocalNz + z)
            + c.mesh.LocalNx * c.mesh.LocalNy * c.mesh.LocalNz
              * ((pey * c.nxpe + pex) * 1 + pez)) := by
  rcases h with h | ⟨hx, hy, hz, h0, h1⟩
  · have h3 : ¬ (3 ≤ CHECK) := by omega
    simp [IndConverter.fromLocalToGlobal, ASSERT, h3, IndConverter.nzpe, bind, Except.bind,
      pure, Except.pure]
  · simp only [mul_one] at h0 h1
    simp [IndConverter.fromLocalToGlobal, ASSERT, IndConverter.nzpe, bind, Except.bind,
      pure, Except.pure, hx, hy, hz, not_lt.mpr h0, not_le.mpr h1]

theorem fromLocalToGlobal_value (CHECK : Nat) (c : IndConverter) (x y z pex pey pez v : Int)
    (h : c.fromLocalToGlobal CHECK x y z pex pey pez = .ok v) :
    v = ((x * c.mesh.LocalNy + y) * c.mesh.LocalNz + z)
            + c.mesh.LocalNx * c.mesh.LocalNy * c.mesh.LocalNz
              * ((pey * c.nxpe + pex) * 1 + pez) := by
  unfold IndConverter.fromLocalToGlobal at h
  simp only [ASSERT, IndConverter.nzpe, bind, Except.bind, pure, Except.pure] at h
  repeat' split at h
  all_goals (cases h <;> rfl)

end BOUT

namespace BOUT

/-- One digit of a mixed-radix number: quotient and remainder by the radix. -/
theorem digit_ediv_emod (q b r : Int) (hr0 : 0 ≤ r) (hrb : r < b) :
    (q * b + r) / b = q ∧ (q * b + r) % b = r := by
  have hb : 0 < b := lt_of_le_of_lt hr0 hrb
  constructor
  · rw [add_comm, Int.add_mul_ediv_right _ _ (ne_of_gt hb), Int.ediv_eq_zero_of_lt hr0 hrb,
      zero_add]
  · rw [add_comm, Int.add_mul_emod_self, Int.emod_eq_of_lt hr0 hrb]

/-- A two-digit number is below the product of the radices. -/
theorem digit_bound (q b r n : Int) (hq0 : 0 ≤ q) (hqn : q < n) (hr0 : 0 ≤ r) (hrb : r < b) :
    0 ≤ q * b + r ∧ q * b + r < n * b := by
  have hb : 0 < b := lt_of_le_of_lt hr0 hrb
  constructor
  · have := mul_nonneg hq0 (le_of_lt hb)
    omega
  · have h1 : (q + 1) * b ≤ n * b := Int.mul_le_mul_of_nonneg_right (by omega) (le_of_lt hb)
    have h2 : (q + 1) * b = q * b + b := by ring
    omega

/-- On valid input the layout stays inside the address range. -/
theorem layout_bounds (c : IndConverter) (t : LocalAddress) (ht : c.validAddress t) :
    (0 ≤ (t.x * c.mesh.LocalNy + t.y) * c.mesh.LocalNz + t.z
      ∧ (t.x * c.mesh.LocalNy + t.y) * c.mesh.LocalNz + t.z
          < c.mesh.LocalNx * c.mesh.LocalNy * c.mesh.LocalNz)
      ∧ (0 ≤ t.pey * c.nxpe + t.pex ∧ t.pey * c.nxpe + t.pex < c.nype * c.nxpe) := by
  obtain ⟨hx0, hx1, hy0, hy1, hz0, hz1, hpx0, hpx1, hpy0, hpy1, _⟩ := ht
  have hxy := digit_bound t.x c.mesh.LocalNy t.y c.mesh.LocalNx hx0 hx1 hy0 hy1
  exact ⟨digit_bound _ c.mesh.LocalNz t.z _ hxy.1 hxy.2 hz0 hz1,
    digit_bound t.pey c.nxpe t.pex c.nype hpy0 hpy1 hpx0 hpx1⟩

end BOUT

namespace BOUT

/-- Decoding the address of a valid input recovers the input. -/
theorem decode_layout (c : IndConverter) (t : LocalAddress) (ht : c.validAddress t) :
    c.decode (((t.x * c.mesh.LocalNy + t.y) * c.mesh.LocalNz + t.z)
        + c.mesh.LocalNx * c.mesh.LocalNy * c.mesh.LocalNz
          * ((t.pey * c.nxpe + t.pex) * 1 + t.pez)) = t := by
  obtain ⟨hl, hb⟩ := layout_bounds c t ht
  obtain ⟨hx0, hx1, hy0, hy1, hz0, hz1, hpx0, hpx1, hpy0, hpy1, hpz⟩ := ht
  have ha : ((t.x * c.mesh.LocalNy + t.y) * c.mesh.LocalNz + t.z)
        + c.mesh.LocalNx * c.mesh.LocalNy * c.mesh.LocalNz
          * ((t.pey * c.nxpe + t.pex) * 1 + t.pez)
      = (t.pey * c.nxpe + t.pex) * (c.mesh.LocalNx * c.mesh.LocalNy * c.mesh.LocalNz)
        + ((t.x * c.mesh.LocalNy + t.y) * c.mesh.LocalNz + t.z) := by
    rw [hpz]; ring
  obtain ⟨d1, m1⟩ := digit_ediv_emod (t.pey * c.nxpe + t.pex)
    (c.mesh.LocalNx * c.mesh.LocalNy * c.mesh.LocalNz)
    ((t.x * c.mesh.LocalNy + t.y) * c.mesh.LocalNz + t.z) hl.1 hl.2
  obtain ⟨d2, m2⟩ := digit_ediv_emod (t.x * c.mesh.LocalNy + t.y) c.mesh.LocalNz t.z hz0 hz1
  obtain ⟨d3, m3⟩ := digit_ediv_emod t.x c.mesh.LocalNy t.y hy0 hy1
  obtain ⟨d4, m4⟩ := digit_ediv_emod t.pey c.nxpe t.pex hpx0 hpx1
  rw [ha]
  unfold IndConverter.decode
  simp only [d1, m1, d2, m2, d3, m3, IndConverter.nzpe, Int.ediv_one, Int.emod_one, d4, m4]
  cases t
  simp_all

/-- An address of the range decodes to a valid input whose address it is. -/
theorem layout_decode (c : IndConverter) (a : Int)
    (hNx : 0 < c.mesh.LocalNx) (hNy : 0 < c.mesh.LocalNy) (hNz : 0 < c.mesh.LocalNz)
    (hpx : 0 < c.nxpe) (ha0 : 0 ≤ a)
    (ha1 : a < c.nxpe * c.nype * c.mesh.LocalNx * c.mesh.LocalNy * c.mesh.LocalNz) :
    c.validAddress (c.decode a)
      ∧ (((c.decode a).x * c.mesh.LocalNy + (c.decode a).y) * c.mesh.LocalNz + (c.decode a).z)
          + c.mesh.LocalNx * c.mesh.LocalNy * c.mesh.LocalNz
            * (((c.decode a).pey * c.nxpe + (c.decode a).pex) * 1 + (c.decode a).pez) = a := by
  have hV : 0 < c.mesh.LocalNx * c.mesh.LocalNy * c.mesh.LocalNz :=
    mul_pos (mul_pos hNx hNy) hNz
  have hL0 : 0 ≤ a % (c.mesh.LocalNx * c.mesh.LocalNy * c.mesh.LocalNz) :=
    Int.emod_nonneg _ (ne_of_gt hV)
  have hL1 : a % (c.mesh.LocalNx * c.mesh.LocalNy * c.mesh.LocalNz)
      < c.mesh.LocalNx * c.mesh.LocalNy * c.mesh.LocalNz := Int.emod_lt_of_pos _ hV
  have hB0 : 0 ≤ a / (c.mesh.LocalNx * c.mesh.LocalNy * c.mesh.LocalNz) :=
    Int.ediv_nonneg ha0 (le_of_lt hV)
  have hB1 : a / (c.mesh.LocalNx * c.mesh.LocalNy * c.mesh.LocalNz) < c.nype * c.nxpe := by
    apply Int.ediv_lt_of_lt_mul hV
    calc a < c.nxpe * c.nype * c.mesh.LocalNx * c.mesh.LocalNy * c.mesh.LocalNz := ha1
      _ = c.nype * c.nxpe * (c.mesh.LocalNx * c.mesh.LocalNy * c.mesh.LocalNz) := by ring
  have hq0 : 0 ≤ a % (c.mesh.LocalNx * c.mesh.LocalNy * c.mesh.LocalNz) / c.mesh.LocalNz :=
    Int.ediv_nonneg hL0 (le_of_lt hNz)
  have hq1 : a % (c.mesh.LocalNx * c.mesh.LocalNy * c.mesh.LocalNz) / c.mesh.LocalNz
      < c.mesh.LocalNx * c.mesh.LocalNy := Int.ediv_lt_of_lt_mul hNz hL1
  unfold IndConverter.decode
  simp only [IndConverter.nzpe, Int.ediv_one, Int.emod_one]
  refine ⟨⟨Int.ediv_nonneg hq0 (le_of_lt hNy), Int.ediv_lt_of_lt_mul hNy hq1,
    Int.emod_nonneg _ (ne_of_gt hNy), Int.emod_lt_of_pos _ hNy,
    Int.emod_nonneg _ (ne_of_gt hNz), Int.emod_lt_of_pos _ hNz,
    Int.emod_nonneg _ (ne_of_gt hpx), Int.emod_lt_of_pos _ hpx,
    Int.ediv_nonneg hB0 (le_of_lt hpx), Int.ediv_lt_of_lt_mul hpx hB1, rfl⟩, ?_⟩
  rw [Int.ediv_add_emod', Int.ediv_add_emod', mul_one, add_zero, Int.ediv_add_emod',
    Int.emod_add_ediv]

end BOUT

namespace BOUT

/-- C8: `fromLocalToGlobal(x, y, z, pex, pey, pez)` returns
`((x*LocalNy + y)*LocalNz + z) + LocalNx*LocalNy*LocalNz * ((pey*nxpe + pex)*nzpe + pez)`
with `nzpe = 1`: whatever it returns is that value, and it does return it when the
assertions are compiled out (`CHECK < 3`) or hold; the three-argument overload is the
same call at this process's `(XProcIndex, YProcIndex, 0)`. -/
theorem IndConverter.fromLocalToGlobal_formula (CHECK : Nat) (c : IndConverter)
    (x y z pex pey pez : Int) :
    c.nzpe = 1
      ∧ (∀ v, c.fromLocalToGlobal CHECK x y z pex pey pez = .ok v →
          v = ((x * c.mesh.LocalNy + y) * c.mesh.LocalNz + z)
                + c.mesh.LocalNx * c.mesh.LocalNy * c.mesh.LocalNz
                  * ((pey * c.nxpe + pex) * c.nzpe + pez))
      ∧ ((CHECK < 3 ∨ (0 ≤ x ∧ 0 ≤ y ∧ 0 ≤ z
            ∧ 0 ≤ ((x * c.mesh.LocalNy + y) * c.mesh.LocalNz + z)
                  + c.mesh.LocalNx * c.mesh.LocalNy * c.mesh.LocalNz
                    * ((pey * c.nxpe + pex) * c.nzpe + pez)
            ∧ ((x * c.mesh.LocalNy + y) * c.mesh.LocalNz + z)
                  + c.mesh.LocalNx * c.mesh.LocalNy * c.mesh.LocalNz
                    * ((pey * c.nxpe + pex) * c.nzpe + pez)
                < c.nxpe * c.nype * c.mesh.LocalNx * c.mesh.LocalNy * c.mesh.LocalNz)) →
          c.fromLocalToGlobal CHECK x y z pex pey pez
            = .ok (((x * c.mesh.LocalNy + y) * c.mesh.LocalNz + z)
                    + c.mesh.LocalNx * c.mesh.LocalNy * c.mesh.LocalNz
                      * ((pey * c.nxpe + pex) * c.nzpe + pez)))
      ∧ c.fromLocalToGlobal3 CHECK x y z
          = c.fromLocalToGlobal CHECK x y z c.mesh.XProcIndex c.mesh.YProcIndex 0 :=
  ⟨rfl, fun v hv => fromLocalToGlobal_value CHECK c x y z pex pey pez v hv,
    fun h => fromLocalToGlobal_ok CHECK c x y z pex pey pez h, rfl⟩

/-- Witness of C8 on the 2x2 decomposition with all assertions compiled in: local point
`(2, 3, 1)` of process `(1, 1)` has address `61 + 144 * 3 = 493`. -/
theorem IndConverter.fromLocalToGlobal_formula_witness :
    exampleConverter.fromLocalToGlobal 3 2 3 1 1 1 0 = .ok 493 :=
  (IndConverter.fromLocalToGlobal_formula 3 exampleConverter 2 3 1 1 1 0).2.2.1
    (Or.inr (by decide))

/-- C9: for positive `LocalNx`, `LocalNy`, `LocalNz` and `nxpe` (and any `nype`, the
positive ones included), `fromLocalToGlobal` on the valid inputs (local coordinate inside
the local array, ranks inside the decomposition, `pez = 0`) is a bijection onto
`[0, nxpe*nype*LocalNx*LocalNy*LocalNz)`: every valid input gets an address of the range
from which `decode` recovers it, distinct valid inputs get distinct addresses, and every
address of the range is the address of the valid input it decodes to. -/
theorem IndConverter.fromLocalToGlobal_bijection (CHECK : Nat) (c : IndConverter)
    (hNx : 0 < c.mesh.LocalNx) (hNy : 0 < c.mesh.LocalNy) (hNz : 0 < c.mesh.LocalNz)
    (hpx : 0 < c.nxpe) :
    (∀ t, c.validAddress t →
        ∃ a, c.fromLocalToGlobal CHECK t.x t.y t.z t.pex t.pey t.pez = .ok a
          ∧ 0 ≤ a
          ∧ a < c.nxpe * c.nype * c.mesh.LocalNx * c.mesh.LocalNy * c.mesh.LocalNz
          ∧ c.decode a = t)
      ∧ (∀ t u, c.validAddress t → c.validAddress u →
          c.fromLocalToGlobal CHECK t.x t.y t.z t.pex t.pey t.pez
            = c.fromLocalToGlobal CHECK u.x u.y u.z u.pex u.pey u.pez → t = u)
      ∧ (∀ a, 0 ≤ a →
          a < c.nxpe * c.nype * c.mesh.LocalNx * c.mesh.LocalNy * c.mesh.LocalNz →
          c.validAddress (c.decode a)
            ∧ c.fromLocalToGlobal CHECK (c.decode a).x (c.decode a).y (c.decode a).z
                (c.decode a).pex (c.decode a).pey (c.decode a).pez = .ok a) := by
  have key : ∀ t, c.validAddress t →
      c.fromLocalToGlobal CHECK t.x t.y t.z t.pex t.pey t.pez
          = .ok (((t.x * c.mesh.LocalNy + t.y) * c.mesh.LocalNz + t.z)
                  + c.mesh.LocalNx * c.mesh.LocalNy * c.mesh.LocalNz
                    * ((t.pey * c.nxpe + t.pex) * 1 + t.pez))
        ∧ 0 ≤ ((t.x * c.mesh.LocalNy + t.y) * c.mesh.LocalNz + t.z)
                  + c.mesh.LocalNx * c.mesh.LocalNy * c.mesh.LocalNz
                    * ((t.pey * c.nxpe + t.pex) * 1 + t.pez)
        ∧ ((t.x * c.mesh.LocalNy + t.y) * c.mesh.LocalNz + t.z)
                  + c.mesh.LocalNx * c.mesh.LocalNy * c.mesh.LocalNz
                    * ((t.pey * c.nxpe + t.pex) * 1 + t.pez)
            < c.nxpe * c.nype * c.mesh.LocalNx * c.mesh.LocalNy * c.mesh.LocalNz := by
    intro t ht
    obtain ⟨hl, hb⟩ := layout_bounds c t ht
    have hpz : t.pez = 0 := ht.2.2.2.2.2.2.2.2.2.2
    have hbd := digit_bound (t.pey * c.nxpe + t.pex)
      (c.mesh.LocalNx * c.mesh.LocalNy * c.mesh.LocalNz)
      ((t.x * c.mesh.LocalNy + t.y) * c.mesh.LocalNz + t.z) (c.nype * c.nxpe)
      hb.1 hb.2 hl.1 hl.2
    have e1 : ((t.x * c.mesh.LocalNy + t.y) * c.mesh.LocalNz + t.z)
          + c.mesh.LocalNx * c.mesh.LocalNy * c.mesh.LocalNz
            * ((t.pey * c.nxpe + t.pex) * 1 + t.pez)
        = (t.pey * c.nxpe + t.pex) * (c.mesh.LocalNx * c.mesh.LocalNy * c.mesh.LocalNz)
          + ((t.x * c.mesh.LocalNy + t.y) * c.mesh.LocalNz + t.z) := by
      rw [hpz]; ring
    have e2 : c.nxpe * c.nype * c.mesh.LocalNx * c.mesh.LocalNy * c.mesh.LocalNz
        = c.nype * c.nxpe * (c.mesh.LocalNx * c.mesh.LocalNy * c.mesh.LocalNz) := by ring
    have h0 := hbd.1
    have h1 := hbd.2
    rw [← e1] at h0 h1
    rw [← e2] at h1
    exact ⟨fromLocalToGlobal_ok CHECK c t.x t.y t.z t.pex t.pey t.pez
      (Or.inr ⟨ht.1, ht.2.2.1, ht.2.2.2.2.1, h0, h1⟩), h0, h1⟩
  refine ⟨?_, ?_, ?_⟩
  · intro t ht
    obtain ⟨hok, h0, h1⟩ := key t ht
    exact ⟨_, hok, h0, h1, decode_layout c t ht⟩
  · intro t u ht hu h
    rw [(key t ht).1, (key u hu).1] at h
    simp only [Except.ok.injEq] at h
    rw [← decode_layout c t ht, ← decode_layout c u hu, h]
  · intro a ha0 ha1
    obtain ⟨hv, hval⟩ := layout_decode c a hNx hNy hNz hpx ha0 ha1
    refine ⟨hv, ?_⟩
    rw [(key _ hv).1, hval]

end BOUT

namespace BOUT

/-- Witness of C9 on the spec's decomposition (2x2 processes, 4x4 interior cells, one
guard cell), all assertions compiled in, at local point `(2, 3, 1)` of process `(1, 1)`. -/
theorem IndConverter.fromLocalToGlobal_bijection_witness :
    (0 < exampleConverter.mesh.LocalNx ∧ 0 < exampleConverter.mesh.LocalNy
        ∧ 0 < exampleConverter.mesh.LocalNz ∧ 0 < exampleConverter.nxpe)
      ∧ exampleConverter.validAddress ⟨2, 3, 1, 1, 1, 0⟩
      ∧ ∃ a, exampleConverter.fromLocalToGlobal 3 2 3 1 1 1 0 = .ok a
          ∧ 0 ≤ a ∧ a < 2 * 2 * 6 * 6 * 4
          ∧ exampleConverter.decode a = ⟨2, 3, 1, 1, 1, 0⟩ :=
  ⟨by decide, by unfold IndConverter.validAddress; decide,
    (IndConverter.fromLocalToGlobal_bijection 3 exampleConverter (by decide) (by decide)
      (by decide) (by decide)).1 ⟨2, 3, 1, 1, 1, 0⟩
      (by unfold IndConverter.validAddress; decide)⟩

/-- For a positive divisor `divToNeg` is the floor division of the integers. -/
theorem divToNeg_eq_ediv (n d : Int) (hd : 0 < d) : IndConverter.divToNeg n d = n / d := by
  unfold IndConverter.divToNeg
  split
  · rename_i hn
    have hr0 : 0 ≤ n % d := Int.emod_nonneg _ (ne_of_gt hd)
    have hr1 : n % d < d := Int.emod_lt_of_pos _ hd
    have hn2 : n = d * (n / d) + n % d := (Int.ediv_add_emod n d).symm
    have e : n - d + 1 = -((-(n / d)) * d + (d - 1 - n % d)) := by
      have : -((-(n / d)) * d + (d - 1 - n % d)) = (d * (n / d) + n % d) - d + 1 := by ring
      rw [this, ← hn2]
    have hm : 0 ≤ (-(n / d)) * d + (d - 1 - n % d) := by
      have : (-(n / d)) * d + (d - 1 - n % d) = -(n - d + 1) := by rw [e]; ring
      rw [this]; omega
    rw [e, Int.neg_tdiv, Int.tdiv_eq_ediv hm (le_of_lt hd),
      (digit_ediv_emod (-(n / d)) d (d - 1 - n % d) (by omega) (by omega)).1, neg_neg]
  · rename_i hn
    exact Int.tdiv_eq_ediv (not_lt.mp hn) (le_of_lt hd)

/-- C10: for every integer `n` and every positive `d`, `divToNeg(n, d)`, computed with
truncating division, is the floor of `n/d`: the result `q` satisfies
`d*q ≤ n < d*(q + 1)`, it is the floor of the rational quotient, and for negative `n`
not divisible by `d` it lies strictly below the truncated quotient. -/
theorem IndConverter.divToNeg_floor (n d : Int) (hd : 0 < d) :
    d * IndConverter.divToNeg n d ≤ n
      ∧ n < d * (IndConverter.divToNeg n d + 1)
      ∧ IndConverter.divToNeg n d = ⌊(n : ℚ) / (d : ℚ)⌋
      ∧ (n < 0 → n % d ≠ 0 → IndConverter.divToNeg n d = Int.tdiv n d - 1) := by
  have hq := divToNeg_eq_ediv n d hd
  have hr0 : 0 ≤ n % d := Int.emod_nonneg _ (ne_of_gt hd)
  have hr1 : n % d < d := Int.emod_lt_of_pos _ hd
  have hn2 : d * (n / d) + n % d = n := Int.ediv_add_emod n d
  have h1 : d * IndConverter.divToNeg n d ≤ n := by rw [hq]; linarith
  have h2 : n < d * (IndConverter.divToNeg n d + 1) := by rw [hq, mul_add, mul_one]; linarith
  refine ⟨h1, h2, ?_, ?_⟩
  · symm
    rw [Int.floor_eq_iff]
    have hdq : (0 : ℚ) < (d : ℚ) := by exact_mod_cast hd
    constructor
    · rw [le_div_iff₀ hdq]
      have : IndConverter.divToNeg n d * d ≤ n := by rw [mul_comm]; exact h1
      exact_mod_cast this
    · rw [div_lt_iff₀ hdq]
      have : n < (IndConverter.divToNeg n d + 1) * d := by rw [mul_comm]; exact h2
      exact_mod_cast this
  · intro hn hne
    rw [hq]
    have hneg : n = -(-n) := by ring
    have hpos : 0 ≤ -n := by omega
    have ht : Int.tdiv n d = -((-n) / d) := by
      rw [hneg, Int.neg_tdiv, Int.tdiv_eq_ediv hpos (le_of_lt hd), neg_neg]
    rw [ht]
    have hm0 : 0 ≤ (-n) % d := Int.emod_nonneg _ (ne_of_gt hd)
    have hm1 : (-n) % d < d := Int.emod_lt_of_pos _ hd
    have hm2 : d * ((-n) / d) + (-n) % d = -n := Int.ediv_add_emod (-n) d
    have hrpos : 0 < n % d := lt_of_le_of_ne hr0 (Ne.symm hne)
    have key : n = (-((-n) / d) - 1) * d + (d - (-n) % d) := by
      have : (-((-n) / d) - 1) * d + (d - (-n) % d) = -(d * ((-n) / d) + (-n) % d) := by ring
      rw [this, hm2]; ring
    have hmpos : 0 < (-n) % d := by
      rcases lt_or_eq_of_le hm0 with h | h
      · exact h
      · exfalso
        have hdvd : d ∣ -n := Int.dvd_of_emod_eq_zero h.symm
        have : d ∣ n := (Int.dvd_neg).mp hdvd
        exact hne (Int.emod_eq_zero_of_dvd this)
    have := (digit_ediv_emod (-((-n) / d) - 1) d (d - (-n) % d) (by omega) (by omega)).1
    rw [← key] at this
    exact this

/-- Witness of C10 at a negative numerator: `divToNeg(-7, 2) = -4`, where truncation
gives `-3`. -/
theorem IndConverter.divToNeg_floor_witness :
    (0 : Int) < 2
      ∧ 2 * IndConverter.divToNeg (-7) 2 ≤ -7
      ∧ -7 < 2 * (IndConverter.divToNeg (-7) 2 + 1)
      ∧ IndConverter.divToNeg (-7) 2 = ⌊((-7 : Int) : ℚ) / ((2 : Int) : ℚ)⌋
      ∧ ((-7 : Int) < 0 → (-7 : Int) % 2 ≠ 0 →
          IndConverter.divToNeg (-7) 2 = Int.tdiv (-7) 2 - 1) :=
  ⟨by decide, IndConverter.divToNeg_floor (-7) 2 (by decide)⟩

end BOUT

/-! ## Lemmas on `IndConverter::fromMeshToGlobal` -/

namespace BOUT

/-- Floor division of integers by a positive divisor is the floor of the rational
quotient. -/
theorem ediv_eq_floor (n d : Int) (hd : 0 < d) : n / d = ⌊(n : ℚ) / (d : ℚ)⌋ := by
  have hr0 : 0 ≤ n % d := Int.emod_nonneg _ (ne_of_gt hd)
  have hr1 : n % d < d := Int.emod_lt_of_pos _ hd
  have hn2 : d * (n / d) + n % d = n := Int.ediv_add_emod n d
  symm
  rw [Int.floor_eq_iff]
  have hdq : (0 : ℚ) < (d : ℚ) := by exact_mod_cast hd
  constructor
  · rw [le_div_iff₀ hdq]
    have : n / d * d ≤ n := by rw [mul_comm]; linarith
    exact_mod_cast this
  · rw [div_lt_iff₀ hdq]
    have : n < (n / d + 1) * d := by rw [add_mul, one_mul, mul_comm]; linarith
    exact_mod_cast this

/-- With enough fuel the first loop leaves a value that is not negative unchanged and
replaces a negative one by its remainder modulo `nype`. -/
theorem wrapBelow_eq (nype : Int) (hn : 1 ≤ nype) :
    ∀ (fuel : Nat) (pey : Int), (pey < 0 → -pey ≤ fuel) →
      IndConverter.wrapBelow nype fuel pey = some (if pey < 0 then pey % nype else pey) := by
  intro fuel
  induction fuel with
  | zero =>
    intro pey h
    have : ¬ pey < 0 := fun hp => by have := h hp; simp at this; omega
    simp [IndConverter.wrapBelow, this]
  | succ f ih =>
    intro pey h
    by_cases hp : pey < 0
    · have hf := h hp
      push_cast at hf
      have hrec := ih (pey + nype) (fun h2 => by omega)
      simp only [IndConverter.wrapBelow, hp, if_true, hrec]
      by_cases h2 : pey + nype < 0
      · simp [h2]
      · simp only [h2, if_false]
        have : (pey + nype) % nype = pey + nype :=
          Int.emod_eq_of_lt (by omega) (by omega)
        rw [← this, Int.add_emod_self]
    · simp [IndConverter.wrapBelow, hp]

/-- With enough fuel the second loop reduces a value that is not negative modulo `nype`. -/
theorem wrapAbove_eq (nype : Int) (hn : 1 ≤ nype) :
    ∀ (fuel : Nat) (pey : Int), 0 ≤ pey → (nype ≤ pey → pey ≤ fuel) →
      IndConverter.wrapAbove nype fuel pey = some (pey % nype) := by
  intro fuel
  induction fuel with
  | zero =>
    intro pey h0 h
    have hlt : ¬ pey ≥ nype := fun hp => by have := h hp; simp at this; omega
    simp only [IndConverter.wrapAbove, hlt, if_false]
    rw [Int.emod_eq_of_lt h0 (by omega)]
  | succ f ih =>
    intro pey h0 h
    by_cases hp : pey ≥ nype
    · have hf := h hp
      push_cast at hf
      have hrec := ih (pey - nype) (by omega) (fun _ => by omega)
      simp only [IndConverter.wrapAbove, hp, if_true, hrec]
      have : (pey - nype) % nype = pey % nype := by
        have h3 := Int.add_emod_self (a := pey - nype) (b := nype)
        rw [sub_add_cancel] at h3
        exact h3.symm
      rw [this]
    · simp only [IndConverter.wrapAbove, hp, if_false]
      rw [Int.emod_eq_of_lt h0 (by omega)]

/-- Both loops together compute the remainder modulo `nype`. -/
theorem wrap_eq_emod (nype : Int) (hn : 1 ≤ nype) (fuel : Nat) (pey : Int)
    (hf : pey.natAbs ≤ fuel) :
    ∃ p1, IndConverter.wrapBelow nype fuel pey = some p1
      ∧ IndConverter.wrapAbove nype fuel p1 = some (pey % nype) := by
  have hf2 : (pey.natAbs : Int) ≤ fuel := by exact_mod_cast hf
  refine ⟨_, wrapBelow_eq nype hn fuel pey (fun h => by omega), ?_⟩
  by_cases hp : pey < 0
  · simp only [hp, if_true]
    have h0 : 0 ≤ pey % nype := Int.emod_nonneg _ (by omega)
    have h1 : pey % nype < nype := Int.emod_lt_of_pos _ (by omega)
    rw [wrapAbove_eq nype hn fuel (pey % nype) h0 (fun h => by omega), Int.emod_emod_of_dvd _ (dvd_refl _)]
  · simp only [hp, if_false]
    exact wrapAbove_eq nype hn fuel pey (by omega) (fun _ => by omega)

end BOUT

namespace BOUT

/-- The two clamping steps on `pex` are the clamp into `[0, nxpe - 1]`. -/
theorem clamp_pex (nxpe f : Int) (hn : 1 ≤ nxpe) :
    (if (if f < 0 then 0 else f) ≥ nxpe then nxpe - 1 else (if f < 0 then 0 else f))
      = max 0 (min (nxpe - 1) f) := by
  simp only [max_def, min_def]
  split_ifs <;> omega

/-- On a well-formed decomposition and with enough fuel, `fromMeshToGlobal` is the call
of `fromLocalToGlobal` at the resolved local coordinate and process indices; the four
`ASSERT2` never fail. -/
theorem fromMeshToGlobal_eq (CHECK fuel : Nat) (c : IndConverter) (ix iy iz : Int)
    (hlnx : 1 ≤ c.mesh.LocalNx - c.mesh.xstart * 2)
    (hlny : 1 ≤ c.mesh.LocalNy - c.mesh.ystart * 2)
    (hNz : 1 ≤ c.mesh.LocalNz) (hnx : 1 ≤ c.nxpe) (hny : 1 ≤ c.nype)
    (hf : ((iy - c.mesh.ystart) / (c.mesh.LocalNy - c.mesh.ystart * 2)
            + c.mesh.YProcIndex).natAbs ≤ fuel) :
    c.fromMeshToGlobal CHECK fuel ix iy iz
      = some (c.fromLocalToGlobal CHECK
          (ix - max 0 (min (c.nxpe - 1)
                  ((ix - c.mesh.xstart) / (c.mesh.LocalNx - c.mesh.xstart * 2)))
                * (c.mesh.LocalNx - c.mesh.xstart * 2))
          (iy - (iy - c.mesh.ystart) / (c.mesh.LocalNy - c.mesh.ystart * 2)
                * (c.mesh.LocalNy - c.mesh.ystart * 2))
          (iz - iz / c.mesh.LocalNz * c.mesh.LocalNz)
          (max 0 (min (c.nxpe - 1)
                  ((ix - c.mesh.xstart) / (c.mesh.LocalNx - c.mesh.xstart * 2))))
          (((iy - c.mesh.ystart) / (c.mesh.LocalNy - c.mesh.ystart * 2)
              + c.mesh.YProcIndex) % c.nype)
          0) := by
  obtain ⟨p1, hb, ha⟩ := wrap_eq_emod c.nype hny fuel _ hf
  have hp0 : 0 ≤ ((iy - c.mesh.ystart) / (c.mesh.LocalNy - c.mesh.ystart * 2)
              + c.mesh.YProcIndex) % c.nype := Int.emod_nonneg _ (by omega)
  have hp1 : ((iy - c.mesh.ystart) / (c.mesh.LocalNy - c.mesh.ystart * 2)
              + c.mesh.YProcIndex) % c.nype < c.nype := Int.emod_lt_of_pos _ (by omega)
  have hx0 : 0 ≤ max 0 (min (c.nxpe - 1)
      ((ix - c.mesh.xstart) / (c.mesh.LocalNx - c.mesh.xstart * 2))) := le_max_left _ _
  have hx1 : max 0 (min (c.nxpe - 1)
      ((ix - c.mesh.xstart) / (c.mesh.LocalNx - c.mesh.xstart * 2))) < c.nxpe := by
    have := min_le_left (c.nxpe - 1)
      ((ix - c.mesh.xstart) / (c.mesh.LocalNx - c.mesh.xstart * 2))
    rcases max_choice 0 (min (c.nxpe - 1)
      ((ix - c.mesh.xstart) / (c.mesh.LocalNx - c.mesh.xstart * 2))) with h | h <;>
    rw [h] <;> omega
  unfold IndConverter.fromMeshToGlobal
  simp only [divToNeg_eq_ediv _ _ (show (0 : Int) < c.mesh.LocalNx - c.mesh.xstart * 2 by omega),
    divToNeg_eq_ediv _ _ (show (0 : Int) < c.mesh.LocalNy - c.mesh.ystart * 2 by omega),
    sub_zero, zero_mul,
    divToNeg_eq_ediv _ _ (show (0 : Int) < c.mesh.LocalNz by omega), hb, ha,
    clamp_pex c.nxpe _ hnx]
  simp [ASSERT, hp0, hp1, hx0, hx1, bind, Except.bind]

end BOUT

/-! ## Lemmas on `XZHermiteSpline::calcWeights` -/

namespace BOUT

/-- The offsets after clamping, in the exact arithmetic of the embedding: `t_x` lies in
`[0, 1]` and `t_z` in `[0, 1)`. -/
theorem cornerOffsets_range (s : XZHermiteSpline) (dx dz : BoutReal) :
    0 ≤ (s.cornerOffsets dx dz).t_x ∧ (s.cornerOffsets dx dz).t_x ≤ 1
      ∧ 0 ≤ (s.cornerOffsets dx dz).t_z ∧ (s.cornerOffsets dx dz).t_z < 1 := by
  have hx0 : (0 : ℚ) ≤ dx - (⌊dx⌋ : ℚ) := sub_nonneg.mpr (Int.floor_le dx)
  have hx1 : dx - (⌊dx⌋ : ℚ) < 1 := by linarith [Int.lt_floor_add_one dx]
  have hz0 : (0 : ℚ) ≤ dz - (⌊dz⌋ : ℚ) := sub_nonneg.mpr (Int.floor_le dz)
  have hz1 : dz - (⌊dz⌋ : ℚ) < 1 := by linarith [Int.lt_floor_add_one dz]
  simp only [XZHermiteSpline.cornerOffsets]
  refine ⟨?_, ?_, hz0, hz1⟩
  · split_ifs <;> first | exact le_refl _ | exact zero_le_one | exact hx0
  · split_ifs <;> first | exact le_refl _ | exact zero_le_one | exact le_of_lt hx1

/-- In exact arithmetic one iteration never throws: it stores the values of the point. -/
theorem calcWeightsAt_eq_ok (s : XZHermiteSpline) (delta_x delta_z : Field3D) (i : Ind3D) :
    s.calcWeightsAt delta_x delta_z i
      = .ok (s.write i (s.pointValues i (s.cornerOffsets (delta_x i) (delta_z i)))) := by
  obtain ⟨h0, h1, h2, h3⟩ := cornerOffsets_range s (delta_x i) (delta_z i)
  have hx : ¬ ((s.cornerOffsets (delta_x i) (delta_z i)).t_x < 0
      ∨ (s.cornerOffsets (delta_x i) (delta_z i)).t_x > 1) := by
    rintro (h | h)
    · exact absurd h (not_lt.mpr h0)
    · exact absurd h (not_lt.mpr h1)
  have hz : ¬ ((s.cornerOffsets (delta_x i) (delta_z i)).t_z < 0
      ∨ (s.cornerOffsets (delta_x i) (delta_z i)).t_z > 1) := by
    rintro (h | h)
    · exact absurd h (not_lt.mpr h2)
    · exact absurd h (not_lt.mpr (le_of_lt h3))
  simp only [XZHermiteSpline.calcWeightsAt, if_neg hx, if_neg hz]

/-- Reading back after the stores of one iteration. -/
theorem read_write (s : XZHermiteSpline) (i j : Ind3D) (d : PointData) :
    (s.write i d).read j = if j = i then d else s.read j := by
  by_cases h : j = i
  · subst h
    simp [XZHermiteSpline.read, XZHermiteSpline.write, Field3D.set]
  · simp [XZHermiteSpline.read, XZHermiteSpline.write, Field3D.set, h]

/-- The loop of `calcWeights` returns, keeps the mesh and the offset, holds at every point
of the region the values computed from that point's displacement, and leaves the other
points as they were. -/
theorem calcWeights_ok (delta_x delta_z : Field3D) (region : List Ind3D) :
    ∀ s : XZHermiteSpline, ∃ r, s.calcWeights delta_x delta_z region = .ok r
      ∧ r.localmesh = s.localmesh ∧ r.y_offset = s.y_offset
      ∧ (∀ i ∈ region,
          r.read i = s.pointValues i (s.cornerOffsets (delta_x i) (delta_z i)))
      ∧ (∀ i, i ∉ region → r.read i = s.read i) := by
  induction region with
  | nil =>
    intro s
    exact ⟨s, rfl, rfl, rfl, by intro i hi; simp at hi, fun _ _ => rfl⟩
  | cons p rest ih =>
    intro s
    obtain ⟨r, hr, hm, hy, hin, hout⟩ :=
      ih (s.write p (s.pointValues p (s.cornerOffsets (delta_x p) (delta_z p))))
    refine ⟨r, ?_, hm, hy, ?_, ?_⟩
    · simp only [XZHermiteSpline.calcWeights, calcWeightsAt_eq_ok, hr]
    · intro i hi
      by_cases hir : i ∈ rest
      · exact hin i hir
      · have hip : i = p := by
          rcases List.mem_cons.mp hi with h | h
          · exact h
          · exact absurd h hir
        rw [hout i hir, read_write, if_pos hip, hip]
    · intro i hi
      have hip : i ≠ p := fun e => hi (e ▸ List.mem_cons_self _ _)
      have hir : i ∉ rest := fun e => hi (List.mem_cons_of_mem _ e)
      rw [hout i hir, read_write, if_neg hip]

end BOUT

namespace BOUT

/-- The local x coordinate that `fromMeshToGlobal` resolves for a global x index of the
mesh lies inside the local array. -/
theorem local_x_bounds (nxpe lnx xstart ix : Int) (hlnx : 1 ≤ lnx) (hnx : 1 ≤ nxpe)
    (hxs : 0 ≤ xstart) (h0 : 0 ≤ ix) (h1 : ix < nxpe * lnx + 2 * xstart) :
    0 ≤ ix - max 0 (min (nxpe - 1) ((ix - xstart) / lnx)) * lnx
      ∧ ix - max 0 (min (nxpe - 1) ((ix - xstart) / lnx)) * lnx < lnx + xstart * 2 := by
  have hr0 : 0 ≤ (ix - xstart) % lnx := Int.emod_nonneg _ (by omega)
  have hr1 : (ix - xstart) % lnx < lnx := Int.emod_lt_of_pos _ (by omega)
  have hn2 : lnx * ((ix - xstart) / lnx) + (ix - xstart) % lnx = ix - xstart :=
    Int.ediv_add_emod _ _
  generalize (ix - xstart) / lnx = f at hn2
  generalize (ix - xstart) % lnx = r at hn2 hr0 hr1
  rcases lt_or_le f 0 with hf | hf
  · have hm : max 0 (min (nxpe - 1) f) = 0 := by
      simp only [max_def, min_def]; split_ifs <;> omega
    rw [hm, zero_mul, sub_zero]
    have : lnx * f ≤ lnx * (-1) := Int.mul_le_mul_of_nonneg_left (by omega) (by omega)
    exact ⟨h0, by omega⟩
  · rcases le_or_lt f (nxpe - 1) with hg | hg
    · have hm : max 0 (min (nxpe - 1) f) = f := by
        simp only [max_def, min_def]; split_ifs <;> omega
      rw [hm]
      have : f * lnx = lnx * f := mul_comm _ _
      constructor <;> omega
    · have hm : max 0 (min (nxpe - 1) f) = nxpe - 1 := by
        simp only [max_def, min_def]; split_ifs <;> omega
      rw [hm]
      have e1 : (nxpe - 1) * lnx = nxpe * lnx - lnx := by ring
      have e2 : lnx * nxpe ≤ lnx * f := Int.mul_le_mul_of_nonneg_left (by omega) (by omega)
      have e3 : lnx * nxpe = nxpe * lnx := mul_comm _ _
      constructor <;> omega

/-- The local y and z coordinates that `fromMeshToGlobal` resolves lie inside the local
array, for every integer input. -/
theorem local_wrap_bounds (n start i : Int) (hn : 1 ≤ n) :
    start ≤ i - (i - start) / n * n ∧ i - (i - start) / n * n < start + n := by
  have hr0 : 0 ≤ (i - start) % n := Int.emod_nonneg _ (by omega)
  have hr1 : (i - start) % n < n := Int.emod_lt_of_pos _ (by omega)
  have hn2 : n * ((i - start) / n) + (i - start) % n = i - start := Int.ediv_add_emod _ _
  have : (i - start) / n * n = n * ((i - start) / n) := mul_comm _ _
  constructor <;> omega

/-- On a valid input `fromLocalToGlobal` returns, at every check level, an address of the
range. -/
theorem fromLocalToGlobal_of_valid (CHECK : Nat) (c : IndConverter) (t : LocalAddress)
    (ht : c.validAddress t) :
    ∃ a, c.fromLocalToGlobal CHECK t.x t.y t.z t.pex t.pey t.pez = .ok a
      ∧ a = ((t.x * c.mesh.LocalNy + t.y) * c.mesh.LocalNz + t.z)
              + c.mesh.LocalNx * c.mesh.LocalNy * c.mesh.LocalNz
                * ((t.pey * c.nxpe + t.pex) * 1 + t.pez)
      ∧ 0 ≤ a
      ∧ a < c.nxpe * c.nype * c.mesh.LocalNx * c.mesh.LocalNy * c.mesh.LocalNz := by
  obtain ⟨hl, hb⟩ := layout_bounds c t ht
  have hpz : t.pez = 0 := ht.2.2.2.2.2.2.2.2.2.2
  have hbd := digit_bound (t.pey * c.nxpe + t.pex)
    (c.mesh.LocalNx * c.mesh.LocalNy * c.mesh.LocalNz)
    ((t.x * c.mesh.LocalNy + t.y) * c.mesh.LocalNz + t.z) (c.nype * c.nxpe)
    hb.1 hb.2 hl.1 hl.2
  have e1 : ((t.x * c.mesh.LocalNy + t.y) * c.mesh.LocalNz + t.z)
        + c.mesh.LocalNx * c.mesh.LocalNy * c.mesh.LocalNz
          * ((t.pey * c.nxpe + t.pex) * 1 + t.pez)
      = (t.pey * c.nxpe + t.pex) * (c.mesh.LocalNx * c.mesh.LocalNy * c.mesh.LocalNz)
        + ((t.x * c.mesh.LocalNy + t.y) * c.mesh.LocalNz + t.z) := by
    rw [hpz]; ring
  have e2 : c.nxpe * c.nype * c.mesh.LocalNx * c.mesh.LocalNy * c.mesh.LocalNz
      = c.nype * c.nxpe * (c.mesh.LocalNx * c.mesh.LocalNy * c.mesh.LocalNz) := by ring
  have h0 := hbd.1
  have h1 := hbd.2
  rw [← e1] at h0 h1
  rw [← e2] at h1
  exact ⟨_, fromLocalToGlobal_ok CHECK c t.x t.y t.z t.pex t.pey t.pez
    (Or.inr ⟨ht.1, ht.2.2.1, ht.2.2.2.2.1, h0, h1⟩), rfl, h0, h1⟩

/-- With the level-3 assertions compiled in, an address that `fromLocalToGlobal` returns
lies in the range. -/
theorem fromLocalToGlobal_range_of_ok (CHECK : Nat) (c : IndConverter)
    (x y z pex pey pez a : Int) (hC : 3 ≤ CHECK)
    (h : c.fromLocalToGlobal CHECK x y z pex pey pez = .ok a) :
    0 ≤ a ∧ a < c.nxpe * c.nype * c.mesh.LocalNx * c.mesh.LocalNy * c.mesh.LocalNz := by
  have hv := fromLocalToGlobal_value CHECK c x y z pex pey pez a h
  unfold IndConverter.fromLocalToGlobal at h
  simp only [ASSERT, IndConverter.nzpe, bind, Except.bind, pure, Except.pure, hC, true_and,
    decide_eq_false_iff_not] at h
  rw [hv]
  constructor
  · by_contra hneg
    repeat' split at h
    all_goals simp_all
  · by_contra hneg
    repeat' split at h
    all_goals simp_all

/-- With the level-3 assertions compiled in, a negative local x coordinate makes
`fromLocalToGlobal` throw. -/
theorem fromLocalToGlobal_error_of_neg (CHECK : Nat) (c : IndConverter)
    (x y z pex pey pez : Int) (hC : 3 ≤ CHECK) (hx : x < 0) :
    c.fromLocalToGlobal CHECK x y z pex pey pez = .error { what := "ilocalx >= 0" } := by
  simp [IndConverter.fromLocalToGlobal, ASSERT, hC, hx, bind, Except.bind]

end BOUT

/-! ## The claims on `fromMeshToGlobal` -/

namespace BOUT

/-- C11: on a decomposition with `lnx, lny, LocalNz ≥ 1` and `nxpe, nype ≥ 1`, and once
the two loops have run to their end, `fromMeshToGlobal(ix, iy, iz)` is
`fromLocalToGlobal(ix - pex*lnx, iy - q*lny, iz - r*LocalNz, pex, pey, 0)`, returned
value or failed assertion alike, where `pex` is `floor((ix - xstart)/lnx)` clamped into
`[0, nxpe - 1]`, `q = floor((iy - ystart)/lny)`, `pey` is the representative in
`[0, nype)` of `q + YProcIndex` modulo `nype`, and `r = floor(iz/LocalNz)`. -/
theorem IndConverter.fromMeshToGlobal_resolves (CHECK fuel : Nat) (c : IndConverter)
    (ix iy iz : Int)
    (hlnx : 1 ≤ c.mesh.LocalNx - c.mesh.xstart * 2)
    (hlny : 1 ≤ c.mesh.LocalNy - c.mesh.ystart * 2)
    (hNz : 1 ≤ c.mesh.LocalNz) (hnx : 1 ≤ c.nxpe) (hny : 1 ≤ c.nype)
    (hf : (c.peyOffsetOf iy + c.mesh.YProcIndex).natAbs ≤ fuel) :
    c.fromMeshToGlobal CHECK fuel ix iy iz
        = some (c.fromLocalToGlobal CHECK
            (ix - c.pexOf ix * (c.mesh.LocalNx - c.mesh.xstart * 2))
            (iy - c.peyOffsetOf iy * (c.mesh.LocalNy - c.mesh.ystart * 2))
            (iz - c.pezOf iz * c.mesh.LocalNz)
            (c.pexOf ix)
            ((c.peyOffsetOf iy + c.mesh.YProcIndex) % c.nype)
            0)
      ∧ c.pexOf ix
          = max 0 (min (c.nxpe - 1)
              ⌊((ix - c.mesh.xstart : Int) : ℚ)
                / ((c.mesh.LocalNx - c.mesh.xstart * 2 : Int) : ℚ)⌋)
      ∧ c.peyOffsetOf iy
          = ⌊((iy - c.mesh.ystart : Int) : ℚ)
              / ((c.mesh.LocalNy - c.mesh.ystart * 2 : Int) : ℚ)⌋
      ∧ c.pezOf iz = ⌊(iz : ℚ) / (c.mesh.LocalNz : ℚ)⌋
      ∧ 0 ≤ (c.peyOffsetOf iy + c.mesh.YProcIndex) % c.nype
      ∧ (c.peyOffsetOf iy + c.mesh.YProcIndex) % c.nype < c.nype
      ∧ c.nype ∣ (c.peyOffsetOf iy + c.mesh.YProcIndex) % c.nype
                  - (c.peyOffsetOf iy + c.mesh.YProcIndex) := by
  refine ⟨fromMeshToGlobal_eq CHECK fuel c ix iy iz hlnx hlny hNz hnx hny hf, ?_, ?_, ?_,
    Int.emod_nonneg _ (by omega), Int.emod_lt_of_pos _ (by omega), ?_⟩
  · unfold IndConverter.pexOf
    rw [ediv_eq_floor _ _ (by omega)]
  · unfold IndConverter.peyOffsetOf
    rw [ediv_eq_floor _ _ (by omega)]
  · unfold IndConverter.pezOf
    rw [ediv_eq_floor _ _ (by omega)]
  · exact (dvd_sub_comm).mp (Int.dvd_sub_of_emod_eq rfl)

/-- Witness of C11 on the 2x2 decomposition, process row 0: the mesh point
`(6, -3, 9)` lies one process row below and two z periods up; it resolves to local point
`(2, 1, 1)` of process `(1, 1)`, address `53 + 144 * 3 = 485`. -/
theorem IndConverter.fromMeshToGlobal_resolves_witness :
    exampleConverter.fromMeshToGlobal 3 5 6 (-3) 9
        = some (exampleConverter.fromLocalToGlobal 3 2 1 1 1 1 0)
      ∧ exampleConverter.fromMeshToGlobal 3 5 6 (-3) 9 = some (.ok 485) :=
  ⟨(IndConverter.fromMeshToGlobal_resolves 3 5 exampleConverter 6 (-3) 9 (by decide)
      (by decide) (by decide) (by decide) (by decide) (by decide)).1, by rfl⟩

/-- C12: on a well-formed decomposition with this process's y index `p` in `[0, nype)`,
for every x index of the mesh and every z index of the local array,
`fromMeshToGlobal(ix, ystart - 1, iz)` fails no assertion and returns the address of
local row `ystart + lny - 1`, the last interior row, on the process with y index
`(p - 1 + nype) mod nype`. -/
theorem IndConverter.fromMeshToGlobal_wraps_below (CHECK fuel : Nat) (c : IndConverter)
    (ix iz : Int) (hc : c.wellFormed)
    (hx0 : 0 ≤ ix)
    (hx1 : ix < c.nxpe * (c.mesh.LocalNx - c.mesh.xstart * 2) + 2 * c.mesh.xstart)
    (hz0 : 0 ≤ iz) (hz1 : iz < c.mesh.LocalNz)
    (hf : (c.mesh.YProcIndex - 1).natAbs ≤ fuel) :
    c.fromMeshToGlobal CHECK fuel ix (c.mesh.ystart - 1) iz
        = some (.ok
            ((((ix - c.pexOf ix * (c.mesh.LocalNx - c.mesh.xstart * 2)) * c.mesh.LocalNy
                  + (c.mesh.ystart + (c.mesh.LocalNy - c.mesh.ystart * 2) - 1))
                * c.mesh.LocalNz + iz)
              + c.mesh.LocalNx * c.mesh.LocalNy * c.mesh.LocalNz
                * (((c.mesh.YProcIndex - 1 + c.nype) % c.nype) * c.nxpe + c.pexOf ix)))
      ∧ c.fromMeshToGlobal CHECK fuel ix (c.mesh.ystart - 1) iz
        = some (c.fromLocalToGlobal CHECK
            (ix - c.pexOf ix * (c.mesh.LocalNx - c.mesh.xstart * 2))
            (c.mesh.ystart + (c.mesh.LocalNy - c.mesh.ystart * 2) - 1) iz
            (c.pexOf ix) ((c.mesh.YProcIndex - 1 + c.nype) % c.nype) 0) := by
  obtain ⟨hlnx, hlny, hNz, hnx, hny, hxs, hys, hp0, hp1⟩ := hc
  have hq : (c.mesh.ystart - 1 - c.mesh.ystart) / (c.mesh.LocalNy - c.mesh.ystart * 2)
      = -1 := by
    have e : c.mesh.ystart - 1 - c.mesh.ystart
        = (-1) * (c.mesh.LocalNy - c.mesh.ystart * 2)
          + ((c.mesh.LocalNy - c.mesh.ystart * 2) - 1) := by ring
    rw [e]
    exact (digit_ediv_emod (-1) _ _ (by omega) (by omega)).1
  have hr : iz / c.mesh.LocalNz = 0 := Int.ediv_eq_zero_of_lt hz0 hz1
  have hmain := fromMeshToGlobal_eq CHECK fuel c ix (c.mesh.ystart - 1) iz hlnx hlny hNz hnx
    hny (by rw [hq]; simpa [add_comm, sub_eq_add_neg] using hf)
  rw [hq, hr] at hmain
  have e1 : c.mesh.ystart - 1 - -1 * (c.mesh.LocalNy - c.mesh.ystart * 2)
      = c.mesh.ystart + (c.mesh.LocalNy - c.mesh.ystart * 2) - 1 := by ring
  have e2 : iz - 0 * c.mesh.LocalNz = iz := by ring
  have e3 : (-1 + c.mesh.YProcIndex) % c.nype
      = (c.mesh.YProcIndex - 1 + c.nype) % c.nype := by
    rw [Int.add_emod_self]; congr 1; ring
  rw [e1, e2, e3] at hmain
  have hxb := local_x_bounds c.nxpe (c.mesh.LocalNx - c.mesh.xstart * 2) c.mesh.xstart ix
    hlnx hnx hxs hx0 hx1
  have hpx0 : 0 ≤ c.pexOf ix := le_max_left _ _
  have hpx1 : c.pexOf ix < c.nxpe := by
    unfold IndConverter.pexOf
    have := min_le_left (c.nxpe - 1)
      ((ix - c.mesh.xstart) / (c.mesh.LocalNx - c.mesh.xstart * 2))
    rcases max_choice 0 (min (c.nxpe - 1)
      ((ix - c.mesh.xstart) / (c.mesh.LocalNx - c.mesh.xstart * 2))) with h | h <;>
    rw [h] <;> omega
  have hval : c.validAddress
      ⟨ix - c.pexOf ix * (c.mesh.LocalNx - c.mesh.xstart * 2),
        c.mesh.ystart + (c.mesh.LocalNy - c.mesh.ystart * 2) - 1, iz, c.pexOf ix,
        (c.mesh.YProcIndex - 1 + c.nype) % c.nype, 0⟩ := by
    refine ⟨hxb.1, ?_, ?_, ?_, hz0, hz1, hpx0, hpx1, Int.emod_nonneg _ (by omega),
      Int.emod_lt_of_pos _ (by omega), rfl⟩
    · have := hxb.2
      show ix - c.pexOf ix * (c.mesh.LocalNx - c.mesh.xstart * 2) < c.mesh.LocalNx
      unfold IndConverter.pexOf
      omega
    · show 0 ≤ c.mesh.ystart + (c.mesh.LocalNy - c.mesh.ystart * 2) - 1
      omega
    · show c.mesh.ystart + (c.mesh.LocalNy - c.mesh.ystart * 2) - 1 < c.mesh.LocalNy
      omega
  obtain ⟨a, ha, hav, _, _⟩ := fromLocalToGlobal_of_valid CHECK c _ hval
  simp only [IndConverter.pexOf] at ha hav ⊢
  refine ⟨?_, hmain⟩
  rw [hmain, ha, hav]
  simp only [mul_one, add_zero]

end BOUT

namespace BOUT

/-- Witness of C12 on the 2x2 decomposition at process row `p = 0`: the row below the
first local row is row `4` of process row `1`; for `ix = 3`, `iz = 2` the address is
`(3*6 + 4)*4 + 2 + 144 * 2 = 378`. -/
theorem IndConverter.fromMeshToGlobal_wraps_below_witness :
    exampleConverter.wellFormed
      ∧ exampleConverter.fromMeshToGlobal 3 1 3 (exampleConverter.mesh.ystart - 1) 2
          = some (.ok 378) :=
  ⟨by unfold IndConverter.wellFormed; decide,
    (IndConverter.fromMeshToGlobal_wraps_below 3 1 exampleConverter 3 2
      (by unfold IndConverter.wellFormed; decide) (by decide) (by decide) (by decide)
      (by decide) (by decide)).1⟩

/-- The local coordinate and process indices that `fromMeshToGlobal` resolves form a
valid input of the layout. -/
theorem resolved_address_valid (c : IndConverter) (ix iy iz : Int) (hc : c.wellFormed)
    (hx0 : 0 ≤ ix)
    (hx1 : ix < c.nxpe * (c.mesh.LocalNx - c.mesh.xstart * 2) + 2 * c.mesh.xstart) :
    c.validAddress
      ⟨ix - max 0 (min (c.nxpe - 1)
                  ((ix - c.mesh.xstart) / (c.mesh.LocalNx - c.mesh.xstart * 2)))
                * (c.mesh.LocalNx - c.mesh.xstart * 2),
        iy - (iy - c.mesh.ystart) / (c.mesh.LocalNy - c.mesh.ystart * 2)
                * (c.mesh.LocalNy - c.mesh.ystart * 2),
        iz - iz / c.mesh.LocalNz * c.mesh.LocalNz,
        max 0 (min (c.nxpe - 1)
                  ((ix - c.mesh.xstart) / (c.mesh.LocalNx - c.mesh.xstart * 2))),
        ((iy - c.mesh.ystart) / (c.mesh.LocalNy - c.mesh.ystart * 2)
              + c.mesh.YProcIndex) % c.nype,
        0⟩ := by
  obtain ⟨hlnx, hlny, hNz, hnx, hny, hxs, hys, _, _⟩ := hc
  have hxb := local_x_bounds c.nxpe (c.mesh.LocalNx - c.mesh.xstart * 2) c.mesh.xstart ix
    hlnx hnx hxs hx0 hx1
  have hyb := local_wrap_bounds (c.mesh.LocalNy - c.mesh.ystart * 2) c.mesh.ystart iy hlny
  have hzb := local_wrap_bounds c.mesh.LocalNz 0 iz hNz
  simp only [sub_zero, zero_add] at hzb
  have hx1b : max 0 (min (c.nxpe - 1)
      ((ix - c.mesh.xstart) / (c.mesh.LocalNx - c.mesh.xstart * 2))) < c.nxpe := by
    have := min_le_left (c.nxpe - 1)
      ((ix - c.mesh.xstart) / (c.mesh.LocalNx - c.mesh.xstart * 2))
    rcases max_choice 0 (min (c.nxpe - 1)
      ((ix - c.mesh.xstart) / (c.mesh.LocalNx - c.mesh.xstart * 2))) with h | h <;>
    rw [h] <;> omega
  refine ⟨hxb.1, ?_, ?_, ?_, hzb.1, hzb.2, le_max_left _ _, hx1b,
    Int.emod_nonneg _ (by omega), Int.emod_lt_of_pos _ (by omega), rfl⟩
  · have := hxb.2
    simp only []
    omega
  · have := hyb.1
    simp only []
    omega
  · have := hyb.2
    simp only []
    omega

/-- C13: on a well-formed decomposition (`lnx, lny, LocalNz ≥ 1`, `nxpe, nype ≥ 1`, guard
depths not negative, this process's y index in `[0, nype)`), for every x index of the
mesh, `0 ≤ ix < nxpe*lnx + 2*xstart`, and all integers `iy`, `iz`, `fromMeshToGlobal`
fails none of its assertions, at any check level, and returns an address `a` with
`0 ≤ a < nxpe*nype*LocalNx*LocalNy*LocalNz`. -/
theorem IndConverter.fromMeshToGlobal_in_range (CHECK fuel : Nat) (c : IndConverter)
    (ix iy iz : Int) (hc : c.wellFormed)
    (hx0 : 0 ≤ ix)
    (hx1 : ix < c.nxpe * (c.mesh.LocalNx - c.mesh.xstart * 2) + 2 * c.mesh.xstart)
    (hf : (c.peyOffsetOf iy + c.mesh.YProcIndex).natAbs ≤ fuel) :
    ∃ a, c.fromMeshToGlobal CHECK fuel ix iy iz = some (.ok a)
      ∧ 0 ≤ a
      ∧ a < c.nxpe * c.nype * c.mesh.LocalNx * c.mesh.LocalNy * c.mesh.LocalNz := by
  have hval := resolved_address_valid c ix iy iz hc hx0 hx1
  obtain ⟨hlnx, hlny, hNz, hnx, hny, _, _, _, _⟩ := hc
  obtain ⟨a, ha, _, h0, h1⟩ := fromLocalToGlobal_of_valid CHECK c _ hval
  refine ⟨a, ?_, h0, h1⟩
  rw [fromMeshToGlobal_eq CHECK fuel c ix iy iz hlnx hlny hNz hnx hny hf]
  exact congrArg some ha

/-- Witness of C13 on the 2x2 decomposition with all assertions compiled in, at a point
far outside the local patch in y and z. -/
theorem IndConverter.fromMeshToGlobal_in_range_witness :
    exampleConverter.wellFormed
      ∧ (0 : Int) ≤ 9 ∧ (9 : Int) < exampleConverter.nxpe
          * (exampleConverter.mesh.LocalNx - exampleConverter.mesh.xstart * 2)
          + 2 * exampleConverter.mesh.xstart
      ∧ ∃ a, exampleConverter.fromMeshToGlobal 3 4 9 (-11) 23 = some (.ok a)
          ∧ 0 ≤ a ∧ a < 2 * 2 * 6 * 6 * 4 :=
  ⟨by unfold IndConverter.wellFormed; decide, by decide, by decide,
    IndConverter.fromMeshToGlobal_in_range 3 4 exampleConverter 9 (-11) 23
      (by unfold IndConverter.wellFormed; decide) (by decide) (by decide) (by decide)⟩

/-- C14 (counterexample): on the 2x2 decomposition the x range of the mesh is `[0, 10)`.
With every assertion compiled in (`CHECK = 3`) the call at `ix = 10` returns address
`292`, the address of local point `(0, 1, 0)` of process `(0, 1)`; and at the check level
`2`, where no `ASSERT3` is compiled in, the call at `ix = -1` returns `-20`. -/
theorem IndConverter.fromMeshToGlobal_accepts_ix_out_of_range :
    exampleConverter.wellFormed
      ∧ exampleConverter.nxpe
          * (exampleConverter.mesh.LocalNx - exampleConverter.mesh.xstart * 2)
          + 2 * exampleConverter.mesh.xstart = 10
      ∧ exampleConverter.fromMeshToGlobal 3 5 10 1 0 = some (.ok 292)
      ∧ exampleConverter.fromLocalToGlobal 3 0 1 0 0 1 0 = .ok 292
      ∧ exampleConverter.fromMeshToGlobal 2 5 (-1) 1 0 = some (.ok (-20)) :=
  ⟨by unfold IndConverter.wellFormed; decide, by decide, by rfl, by rfl, by rfl⟩

/-- C14 (amended): on a well-formed decomposition and with the level-3 assertions
compiled in (`CHECK ≥ 3`), every call with `ix < 0` fails an assertion, for every `iy`
and `iz`; and whatever `ix` is, an address that the call returns lies in
`[0, nxpe*nype*LocalNx*LocalNy*LocalNz)`. -/
theorem IndConverter.fromMeshToGlobal_rejects_negative_ix (CHECK fuel : Nat)
    (c : IndConverter) (ix iy iz : Int) (hC : 3 ≤ CHECK) (hc : c.wellFormed)
    (hf : (c.peyOffsetOf iy + c.mesh.YProcIndex).natAbs ≤ fuel) :
    (ix < 0 → ∃ e, c.fromMeshToGlobal CHECK fuel ix iy iz = some (.error e))
      ∧ (∀ a, c.fromMeshToGlobal CHECK fuel ix iy iz = some (.ok a) →
          0 ≤ a ∧ a < c.nxpe * c.nype * c.mesh.LocalNx * c.mesh.LocalNy * c.mesh.LocalNz) := by
  obtain ⟨hlnx, hlny, hNz, hnx, hny, hxs, _, _, _⟩ := hc
  have hmain := fromMeshToGlobal_eq CHECK fuel c ix iy iz hlnx hlny hNz hnx hny hf
  constructor
  · intro hneg
    have hq : (ix - c.mesh.xstart) / (c.mesh.LocalNx - c.mesh.xstart * 2) < 0 :=
      Int.ediv_neg' (by omega) (by omega)
    have hm : max 0 (min (c.nxpe - 1)
        ((ix - c.mesh.xstart) / (c.mesh.LocalNx - c.mesh.xstart * 2))) = 0 := by
      simp only [max_def, min_def]; split_ifs <;> omega
    rw [hm, zero_mul, sub_zero] at hmain
    rw [hmain, fromLocalToGlobal_error_of_neg CHECK c ix _ _ _ _ _ hC hneg]
    exact ⟨_, rfl⟩
  · intro a ha
    rw [hmain] at ha
    exact fromLocalToGlobal_range_of_ok CHECK c _ _ _ _ _ _ a hC (Option.some.inj ha)

/-- Witness of C14 (amended) on the 2x2 decomposition: `ix = -1` fails an assertion. -/
theorem IndConverter.fromMeshToGlobal_rejects_negative_ix_witness :
    (3 ≤ 3) ∧ exampleConverter.wellFormed
      ∧ ((-1 : Int) < 0)
      ∧ ∃ e, exampleConverter.fromMeshToGlobal 3 5 (-1) 1 0 = some (.error e) :=
  ⟨by decide, by unfold IndConverter.wellFormed; decide, by decide,
    (IndConverter.fromMeshToGlobal_rejects_negative_ix 3 5 exampleConverter (-1) 1 0
      (by decide) (by unfold IndConverter.wellFormed; decide) (by decide)).1 (by decide)⟩

end BOUT

/-! ## The claims on `calcWeights` -/

namespace BOUT

/-- The corner and offsets where no clamping applies. -/
theorem cornerOffsets_unclamped (s : XZHermiteSpline) (dx dz : BoutReal)
    (h0 : s.localmesh.xstart ≤ ⌊dx⌋) (h1 : ⌊dx⌋ < s.xendGlobal) :
    s.cornerOffsets dx dz
      = { i_corn := ⌊dx⌋, k_corner := ⌊dz⌋, t_x := dx - (⌊dx⌋ : ℚ), t_z := dz - (⌊dz⌋ : ℚ) } := by
  simp [XZHermiteSpline.cornerOffsets, not_le.mpr h1, not_lt.mpr h0]

/-- The corner and offsets where the corner lies at or beyond the local constant `xend`,
on a mesh with `xstart ≤ xend - 1`. -/
theorem cornerOffsets_upper (s : XZHermiteSpline) (dx dz : BoutReal)
    (hm : s.localmesh.xstart ≤ s.xendGlobal - 1) (h1 : s.xendGlobal ≤ ⌊dx⌋) :
    s.cornerOffsets dx dz
      = { i_corn := s.xendGlobal - 1, k_corner := ⌊dz⌋, t_x := 1, t_z := dz - (⌊dz⌋ : ℚ) } := by
  simp [XZHermiteSpline.cornerOffsets, h1, not_lt.mpr hm]

/-- The corner and offsets where the corner lies below `xstart`. -/
theorem cornerOffsets_lower (s : XZHermiteSpline) (dx dz : BoutReal)
    (h0 : ⌊dx⌋ < s.localmesh.xstart) :
    s.cornerOffsets dx dz
      = { i_corn := s.localmesh.xstart, k_corner := ⌊dz⌋, t_x := 0,
          t_z := dz - (⌊dz⌋ : ℚ) } := by
  have key : (if ⌊dx⌋ ≥ s.xendGlobal then s.xendGlobal - 1 else ⌊dx⌋) < s.localmesh.xstart := by
    split_ifs <;> omega
  simp only [XZHermiteSpline.cornerOffsets, key, if_true]

/-- C15: `calcWeights` returns, and for every point of the region it stores
`k_corner = floor(delta_z)` and uses `t_z = delta_z - k_corner`; where
`xstart ≤ floor(delta_x) < xend` it uses `i_corn = floor(delta_x)` and
`t_x = delta_x - i_corn`, so that `i_corn + t_x = delta_x` and
`k_corner + t_z = delta_z`; every value stored for the point is computed from these. -/
theorem XZHermiteSpline.calcWeights_corner_and_offsets (s : XZHermiteSpline)
    (delta_x delta_z : Field3D) (region : List Ind3D) :
    ∃ r, s.calcWeights delta_x delta_z region = .ok r
      ∧ ∀ i ∈ region,
          r.k_corner i = ⌊delta_z i⌋
            ∧ (s.cornerOffsets (delta_x i) (delta_z i)).k_corner = ⌊delta_z i⌋
            ∧ (s.cornerOffsets (delta_x i) (delta_z i)).t_z
                = delta_z i - ((r.k_corner i : Int) : ℚ)
            ∧ ((r.k_corner i : Int) : ℚ) + (s.cornerOffsets (delta_x i) (delta_z i)).t_z
                = delta_z i
            ∧ r.read i = s.pointValues i (s.cornerOffsets (delta_x i) (delta_z i))
            ∧ (s.localmesh.xstart ≤ ⌊delta_x i⌋ → ⌊delta_x i⌋ < s.xendGlobal →
                (s.cornerOffsets (delta_x i) (delta_z i)).i_corn = ⌊delta_x i⌋
                  ∧ (s.cornerOffsets (delta_x i) (delta_z i)).t_x
                      = delta_x i - ((⌊delta_x i⌋ : Int) : ℚ)
                  ∧ (((s.cornerOffsets (delta_x i) (delta_z i)).i_corn : Int) : ℚ)
                      + (s.cornerOffsets (delta_x i) (delta_z i)).t_x = delta_x i
                  ∧ r.i_corner i
                      = ((⌊delta_x i⌋ * s.localmesh.LocalNy) + (i.y + s.y_offset))
                          * s.localmesh.LocalNz + ⌊delta_z i⌋
                  ∧ r.read i
                      = s.pointValues i
                          { i_corn := ⌊delta_x i⌋, k_corner := ⌊delta_z i⌋,
                            t_x := delta_x i - ((⌊delta_x i⌋ : Int) : ℚ),
                            t_z := delta_z i - ((⌊delta_z i⌋ : Int) : ℚ) }) := by
  obtain ⟨r, hr, _, _, hin, _⟩ := calcWeights_ok delta_x delta_z region s
  refine ⟨r, hr, fun i hi => ?_⟩
  have hread := hin i hi
  have hk : r.k_corner i = ⌊delta_z i⌋ := congrArg PointData.k_corner hread
  refine ⟨hk, rfl, ?_, ?_, hread, ?_⟩
  · rw [hk]; rfl
  · rw [hk]
    show ((⌊delta_z i⌋ : Int) : ℚ) + (delta_z i - ((⌊delta_z i⌋ : Int) : ℚ)) = delta_z i
    ring
  · intro h0 h1
    have hco := cornerOffsets_unclamped s (delta_x i) (delta_z i) h0 h1
    refine ⟨by rw [hco], by rw [hco], by rw [hco]; ring, ?_, by rw [hread, hco]⟩
    have hic : r.i_corner i = _ := congrArg PointData.i_corner hread
    rw [hic, hco]
    rfl

end BOUT

namespace BOUT

/-- The corner indices of the example displacement. -/
theorem example_floors :
    ⌊exampleDeltaX ⟨1, 1, 0⟩⌋ = 2 ∧ ⌊exampleDeltaX ⟨2, 1, 0⟩⌋ = 9
      ∧ ⌊exampleDeltaX ⟨3, 1, 0⟩⌋ = -1 ∧ ∀ i, ⌊exampleDeltaZ i⌋ = -1 := by
  refine ⟨?_, ?_, ?_, fun i => ?_⟩ <;>
    (rw [Int.floor_eq_iff]; norm_num [exampleDeltaX, exampleDeltaZ])

/-- The local constant `xend` of `calcWeights` on the example meshes. -/
theorem example_xend :
    exampleSpline.xendGlobal = 8 ∧ exampleSpline.localmesh.xstart = 1
      ∧ singleColumnSpline.xendGlobal = 1 ∧ singleColumnSpline.localmesh.xstart = 1 := by
  refine ⟨by decide, by decide, by decide, by decide⟩

/-- Witness of C15 at the point `(1, 1, 0)`, displaced by `(5/2, -3/4)`: corner `(2, -1)`,
offsets `(1/2, 1/4)`, compound index `(2*6 + 2)*4 - 1 = 55`. -/
theorem XZHermiteSpline.calcWeights_corner_and_offsets_witness :
    ∃ r, exampleSpline.calcWeights exampleDeltaX exampleDeltaZ exampleRegion3D = .ok r
      ∧ r.k_corner ⟨1, 1, 0⟩ = -1
      ∧ r.i_corner ⟨1, 1, 0⟩ = 55
      ∧ (exampleSpline.cornerOffsets (exampleDeltaX ⟨1, 1, 0⟩) (exampleDeltaZ ⟨1, 1, 0⟩)).i_corn
          = 2
      ∧ (exampleSpline.cornerOffsets (exampleDeltaX ⟨1, 1, 0⟩) (exampleDeltaZ ⟨1, 1, 0⟩)).t_x
          = 1 / 2 := by
  obtain ⟨r, hr, h⟩ := XZHermiteSpline.calcWeights_corner_and_offsets exampleSpline
    exampleDeltaX exampleDeltaZ exampleRegion3D
  obtain ⟨f1, _, _, fz⟩ := example_floors
  obtain ⟨hk, _, _, _, _, hx⟩ := h ⟨1, 1, 0⟩ (by simp [exampleRegion3D])
  obtain ⟨hi, ht, _, hic, _⟩ := hx (by rw [f1]; decide) (by rw [f1]; decide)
  refine ⟨r, hr, by rw [hk, fz], ?_, by rw [hi, f1], ?_⟩
  · rw [hic, f1, fz]; decide
  · rw [ht, f1]; norm_num [exampleDeltaX]

/-- C16 (counterexample): on the example mesh the last interior column is `xend = 8`.
At the point displaced by `19/2` the corner `floor(delta_x) = 9` lies beyond it;
`calcWeights` returns, forces `t_x = 1`, and the corner x-index it uses and stores in the
compound index is `7`, not `8`. On the mesh with a single interior column (`xend = 1`)
a displacement `5/2` puts the corner beyond `xend`, and `t_x` is forced to `0`, not `1`. -/
theorem XZHermiteSpline.calcWeights_upper_clamp_is_not_xend :
    exampleSpline.xendGlobal = 8
      ∧ ⌊exampleDeltaX ⟨2, 1, 0⟩⌋ = 9
      ∧ (∃ r, exampleSpline.calcWeights exampleDeltaX exampleDeltaZ exampleRegion3D = .ok r
          ∧ r.i_corner ⟨2, 1, 0⟩ = ((7 * 6) + (1 + 1)) * 4 + (-1))
      ∧ (exampleSpline.cornerOffsets (exampleDeltaX ⟨2, 1, 0⟩) (exampleDeltaZ ⟨2, 1, 0⟩)).i_corn
          = 7
      ∧ (exampleSpline.cornerOffsets (exampleDeltaX ⟨2, 1, 0⟩) (exampleDeltaZ ⟨2, 1, 0⟩)).t_x
          = 1
      ∧ singleColumnSpline.xendGlobal = 1
      ∧ ⌊(5 / 2 : ℚ)⌋ = 2
      ∧ (singleColumnSpline.cornerOffsets (5 / 2) 0).t_x = 0
      ∧ (singleColumnSpline.cornerOffsets (5 / 2) 0).i_corn = 1 := by
  obtain ⟨_, f2, _, fz⟩ := example_floors
  obtain ⟨x1, x2, x3, x4⟩ := example_xend
  have hup := cornerOffsets_upper exampleSpline (exampleDeltaX ⟨2, 1, 0⟩)
    (exampleDeltaZ ⟨2, 1, 0⟩) (by rw [x1, x2]; decide) (by rw [x1, f2]; decide)
  have f52 : ⌊(5 / 2 : ℚ)⌋ = 2 := by rw [Int.floor_eq_iff]; norm_num
  have hlow : (if ⌊(5 / 2 : ℚ)⌋ ≥ singleColumnSpline.xendGlobal
      then singleColumnSpline.xendGlobal - 1 else ⌊(5 / 2 : ℚ)⌋)
        < singleColumnSpline.localmesh.xstart := by
    rw [f52, x3, x4]; decide
  refine ⟨x1, f2, ?_, by rw [hup, x1]; rfl, by rw [hup], x3, f52, ?_, ?_⟩
  · obtain ⟨r, hr, _, _, hin, _⟩ :=
      calcWeights_ok exampleDeltaX exampleDeltaZ exampleRegion3D exampleSpline
    refine ⟨r, hr, ?_⟩
    have hic : r.i_corner ⟨2, 1, 0⟩ = _ :=
      congrArg PointData.i_corner (hin ⟨2, 1, 0⟩ (by simp [exampleRegion3D]))
    rw [hic, hup, x1, fz]
    rfl
  · simp only [XZHermiteSpline.cornerOffsets, hlow, if_true]
  · simp only [XZHermiteSpline.cornerOffsets, hlow, if_true]
    exact x4

/-- C16 (amended): on a mesh with `xstart ≤ xend - 1`, for every point whose corner
`floor(delta_x)` lies at or beyond the last interior column `xend`, `calcWeights` raises
no error, forces `t_x` to `1` and uses the corner x-index `xend - 1`, the column before
the last interior one, so that the position `i_corn + t_x` is `xend`; the x basis values
stored are `h01_x = 1` and `h00_x = h10_x = h11_x = 0`. -/
theorem XZHermiteSpline.calcWeights_upper_clamp (s : XZHermiteSpline)
    (delta_x delta_z : Field3D) (region : List Ind3D)
    (hm : s.localmesh.xstart ≤ s.xendGlobal - 1) :
    ∃ r, s.calcWeights delta_x delta_z region = .ok r
      ∧ ∀ i ∈ region, s.xendGlobal ≤ ⌊delta_x i⌋ →
          (s.cornerOffsets (delta_x i) (delta_z i)).t_x = 1
            ∧ (s.cornerOffsets (delta_x i) (delta_z i)).i_corn = s.xendGlobal - 1
            ∧ (((s.cornerOffsets (delta_x i) (delta_z i)).i_corn : Int) : ℚ)
                + (s.cornerOffsets (delta_x i) (delta_z i)).t_x = ((s.xendGlobal : Int) : ℚ)
            ∧ r.i_corner i
                = (((s.xendGlobal - 1) * s.localmesh.LocalNy) + (i.y + s.y_offset))
                    * s.localmesh.LocalNz + ⌊delta_z i⌋
            ∧ r.h00_x i = 0 ∧ r.h01_x i = 1 ∧ r.h10_x i = 0 ∧ r.h11_x i = 0 := by
  obtain ⟨r, hr, _, _, hin, _⟩ := calcWeights_ok delta_x delta_z region s
  refine ⟨r, hr, fun i hi h1 => ?_⟩
  have hco := cornerOffsets_upper s (delta_x i) (delta_z i) hm h1
  have hread := hin i hi
  rw [hco] at hread
  refine ⟨by rw [hco], by rw [hco], by rw [hco]; push_cast; ring, ?_, ?_, ?_, ?_, ?_⟩
  · exact congrArg PointData.i_corner hread
  · have := congrArg PointData.h00_x hread
    simp only [XZHermiteSpline.read, XZHermiteSpline.pointValues, h00] at this
    rw [this]; norm_num
  · have := congrArg PointData.h01_x hread
    simp only [XZHermiteSpline.read, XZHermiteSpline.pointValues, h01] at this
    rw [this]; norm_num
  · have := congrArg PointData.h10_x hread
    simp only [XZHermiteSpline.read, XZHermiteSpline.pointValues, h10] at this
    rw [this]; norm_num
  · have := congrArg PointData.h11_x hread
    simp only [XZHermiteSpline.read, XZHermiteSpline.pointValues, h11] at this
    rw [this]; norm_num

/-- Witness of C16 (amended) at the point `(2, 1, 0)`, displaced by `19/2` in x. -/
theorem XZHermiteSpline.calcWeights_upper_clamp_witness :
    exampleSpline.localmesh.xstart ≤ exampleSpline.xendGlobal - 1
      ∧ exampleSpline.xendGlobal ≤ ⌊exampleDeltaX ⟨2, 1, 0⟩⌋
      ∧ ∃ r, exampleSpline.calcWeights exampleDeltaX exampleDeltaZ exampleRegion3D = .ok r
          ∧ r.h00_x ⟨2, 1, 0⟩ = 0 ∧ r.h01_x ⟨2, 1, 0⟩ = 1
          ∧ r.h10_x ⟨2, 1, 0⟩ = 0 ∧ r.h11_x ⟨2, 1, 0⟩ = 0 := by
  obtain ⟨_, f2, _, _⟩ := example_floors
  have hm : exampleSpline.localmesh.xstart ≤ exampleSpline.xendGlobal - 1 := by decide
  have h1 : exampleSpline.xendGlobal ≤ ⌊exampleDeltaX ⟨2, 1, 0⟩⌋ := by rw [f2]; decide
  obtain ⟨r, hr, h⟩ := XZHermiteSpline.calcWeights_upper_clamp exampleSpline
    exampleDeltaX exampleDeltaZ exampleRegion3D hm
  obtain ⟨_, _, _, _, a, b, c, d⟩ := h ⟨2, 1, 0⟩ (by simp [exampleRegion3D]) h1
  exact ⟨hm, h1, r, hr, a, b, c, d⟩

end BOUT

namespace BOUT

/-- C17: for every point of the region with `floor(delta_x) < xstart`, `calcWeights`
raises no error, uses and stores the corner x-index `xstart` and forces `t_x` to `0`, so
the x basis values stored are `h00_x = 1` and `h01_x = h10_x = h11_x = 0`. -/
theorem XZHermiteSpline.calcWeights_lower_clamp (s : XZHermiteSpline)
    (delta_x delta_z : Field3D) (region : List Ind3D) :
    ∃ r, s.calcWeights delta_x delta_z region = .ok r
      ∧ ∀ i ∈ region, ⌊delta_x i⌋ < s.localmesh.xstart →
          (s.cornerOffsets (delta_x i) (delta_z i)).i_corn = s.localmesh.xstart
            ∧ (s.cornerOffsets (delta_x i) (delta_z i)).t_x = 0
            ∧ r.i_corner i
                = ((s.localmesh.xstart * s.localmesh.LocalNy) + (i.y + s.y_offset))
                    * s.localmesh.LocalNz + ⌊delta_z i⌋
            ∧ r.h00_x i = 1 ∧ r.h01_x i = 0 ∧ r.h10_x i = 0 ∧ r.h11_x i = 0 := by
  obtain ⟨r, hr, _, _, hin, _⟩ := calcWeights_ok delta_x delta_z region s
  refine ⟨r, hr, fun i hi h0 => ?_⟩
  have hco := cornerOffsets_lower s (delta_x i) (delta_z i) h0
  have hread := hin i hi
  rw [hco] at hread
  refine ⟨by rw [hco], by rw [hco], ?_, ?_, ?_, ?_, ?_⟩
  · exact congrArg PointData.i_corner hread
  · have := congrArg PointData.h00_x hread
    simp only [XZHermiteSpline.read, XZHermiteSpline.pointValues, h00] at this
    rw [this]; norm_num
  · have := congrArg PointData.h01_x hread
    simp only [XZHermiteSpline.read, XZHermiteSpline.pointValues, h01] at this
    rw [this]; norm_num
  · have := congrArg PointData.h10_x hread
    simp only [XZHermiteSpline.read, XZHermiteSpline.pointValues, h10] at this
    rw [this]; norm_num
  · have := congrArg PointData.h11_x hread
    simp only [XZHermiteSpline.read, XZHermiteSpline.pointValues, h11] at this
    rw [this]; norm_num

/-- Witness of C17 at the point `(3, 1, 0)`, displaced by `-1/2` in x: corner x-index
`xstart = 1`, compound index `(1*6 + 2)*4 - 1 = 31`. -/
theorem XZHermiteSpline.calcWeights_lower_clamp_witness :
    ⌊exampleDeltaX ⟨3, 1, 0⟩⌋ < exampleSpline.localmesh.xstart
      ∧ ∃ r, exampleSpline.calcWeights exampleDeltaX exampleDeltaZ exampleRegion3D = .ok r
          ∧ r.i_corner ⟨3, 1, 0⟩ = 31
          ∧ r.h00_x ⟨3, 1, 0⟩ = 1 ∧ r.h01_x ⟨3, 1, 0⟩ = 0
          ∧ r.h10_x ⟨3, 1, 0⟩ = 0 ∧ r.h11_x ⟨3, 1, 0⟩ = 0 := by
  obtain ⟨_, _, f3, fz⟩ := example_floors
  have h0 : ⌊exampleDeltaX ⟨3, 1, 0⟩⌋ < exampleSpline.localmesh.xstart := by rw [f3]; decide
  obtain ⟨r, hr, h⟩ := XZHermiteSpline.calcWeights_lower_clamp exampleSpline
    exampleDeltaX exampleDeltaZ exampleRegion3D
  obtain ⟨_, _, hic, a, b, c, d⟩ := h ⟨3, 1, 0⟩ (by simp [exampleRegion3D]) h0
  refine ⟨h0, r, hr, ?_, a, b, c, d⟩
  rw [hic, fz]; decide

/-- C19: `calcWeights` returns, and for every point of the region the eight values it
stores are the four cubic Hermite basis polynomials `2t³ - 3t² + 1`, `-2t³ + 3t²`,
`t(1 - t)²`, `t³ - t²` at the point's `t_x` (the `_x` fields) and `t_z` (the `_z`
fields). -/
theorem XZHermiteSpline.calcWeights_stores_hermite_basis (s : XZHermiteSpline)
    (delta_x delta_z : Field3D) (region : List Ind3D) :
    ∃ r, s.calcWeights delta_x delta_z region = .ok r
      ∧ ∀ i ∈ region,
          r.h00_x i = 2 * (s.cornerOffsets (delta_x i) (delta_z i)).t_x ^ 3
                        - 3 * (s.cornerOffsets (delta_x i) (delta_z i)).t_x ^ 2 + 1
            ∧ r.h01_x i = -2 * (s.cornerOffsets (delta_x i) (delta_z i)).t_x ^ 3
                        + 3 * (s.cornerOffsets (delta_x i) (delta_z i)).t_x ^ 2
            ∧ r.h10_x i = (s.cornerOffsets (delta_x i) (delta_z i)).t_x
                        * (1 - (s.cornerOffsets (delta_x i) (delta_z i)).t_x) ^ 2
            ∧ r.h11_x i = (s.cornerOffsets (delta_x i) (delta_z i)).t_x ^ 3
                        - (s.cornerOffsets (delta_x i) (delta_z i)).t_x ^ 2
            ∧ r.h00_z i = 2 * (s.cornerOffsets (delta_x i) (delta_z i)).t_z ^ 3
                        - 3 * (s.cornerOffsets (delta_x i) (delta_z i)).t_z ^ 2 + 1
            ∧ r.h01_z i = -2 * (s.cornerOffsets (delta_x i) (delta_z i)).t_z ^ 3
                        + 3 * (s.cornerOffsets (delta_x i) (delta_z i)).t_z ^ 2
            ∧ r.h10_z i = (s.cornerOffsets (delta_x i) (delta_z i)).t_z
                        * (1 - (s.cornerOffsets (delta_x i) (delta_z i)).t_z) ^ 2
            ∧ r.h11_z i = (s.cornerOffsets (delta_x i) (delta_z i)).t_z ^ 3
                        - (s.cornerOffsets (delta_x i) (delta_z i)).t_z ^ 2 := by
  obtain ⟨r, hr, _, _, hin, _⟩ := calcWeights_ok delta_x delta_z region s
  refine ⟨r, hr, fun i hi => ?_⟩
  have hread := hin i hi
  have e1 : r.h00_x i = h00 _ := congrArg PointData.h00_x hread
  have e2 : r.h01_x i = h01 _ := congrArg PointData.h01_x hread
  have e3 : r.h10_x i = h10 _ := congrArg PointData.h10_x hread
  have e4 : r.h11_x i = h11 _ := congrArg PointData.h11_x hread
  have e5 : r.h00_z i = h00 _ := congrArg PointData.h00_z hread
  have e6 : r.h01_z i = h01 _ := congrArg PointData.h01_z hread
  have e7 : r.h10_z i = h10 _ := congrArg PointData.h10_z hread
  have e8 : r.h11_z i = h11 _ := congrArg PointData.h11_z hread
  rw [e1, e2, e3, e4, e5, e6, e7, e8]
  simp only [h00, h01, h10, h11]
  refine ⟨?_, ?_, ?_, ?_, ?_, ?_, ?_, ?_⟩ <;> ring

/-- Witness of C19 at the point `(1, 1, 0)`, where `t_x = 1/2` and `t_z = 1/4`. -/
theorem XZHermiteSpline.calcWeights_stores_hermite_basis_witness :
    ∃ r, exampleSpline.calcWeights exampleDeltaX exampleDeltaZ exampleRegion3D = .ok r
      ∧ r.h00_x ⟨1, 1, 0⟩ = 1 / 2 ∧ r.h01_x ⟨1, 1, 0⟩ = 1 / 2
      ∧ r.h10_x ⟨1, 1, 0⟩ = 1 / 8 ∧ r.h11_x ⟨1, 1, 0⟩ = -1 / 8
      ∧ r.h00_z ⟨1, 1, 0⟩ = 27 / 32 ∧ r.h01_z ⟨1, 1, 0⟩ = 5 / 32
      ∧ r.h10_z ⟨1, 1, 0⟩ = 9 / 64 ∧ r.h11_z ⟨1, 1, 0⟩ = -3 / 64 := by
  obtain ⟨r, hr, h⟩ := XZHermiteSpline.calcWeights_stores_hermite_basis exampleSpline
    exampleDeltaX exampleDeltaZ exampleRegion3D
  obtain ⟨f1, _, _, fz⟩ := example_floors
  obtain ⟨x1, x2, _, _⟩ := example_xend
  have hco := cornerOffsets_unclamped exampleSpline (exampleDeltaX ⟨1, 1, 0⟩)
    (exampleDeltaZ ⟨1, 1, 0⟩) (by rw [x2, f1]; decide) (by rw [x1, f1]; decide)
  obtain ⟨a1, a2, a3, a4, a5, a6, a7, a8⟩ := h ⟨1, 1, 0⟩ (by simp [exampleRegion3D])
  rw [hco] at a1 a2 a3 a4 a5 a6 a7 a8
  simp only [f1, fz] at a1 a2 a3 a4 a5 a6 a7 a8
  refine ⟨r, hr, ?_, ?_, ?_, ?_, ?_, ?_, ?_, ?_⟩
  · rw [a1]; norm_num [exampleDeltaX]
  · rw [a2]; norm_num [exampleDeltaX]
  · rw [a3]; norm_num [exampleDeltaX]
  · rw [a4]; norm_num [exampleDeltaX]
  · rw [a5]; norm_num [exampleDeltaZ]
  · rw [a6]; norm_num [exampleDeltaZ]
  · rw [a7]; norm_num [exampleDeltaZ]
  · rw [a8]; norm_num [exampleDeltaZ]

/-- C20: for every `t` the basis expressions of `calcWeights` satisfy
`h00(t) + h01(t) = 1`; hence, for every point of the region, the stored pairs satisfy
`h00_x + h01_x = 1` and `h00_z + h01_z = 1`. -/
theorem XZHermiteSpline.calcWeights_h00_add_h01 (s : XZHermiteSpline)
    (delta_x delta_z : Field3D) (region : List Ind3D) :
    (∀ t : BoutReal, h00 t + h01 t = 1)
      ∧ ∃ r, s.calcWeights delta_x delta_z region = .ok r
          ∧ ∀ i ∈ region, r.h00_x i + r.h01_x i = 1 ∧ r.h00_z i + r.h01_z i = 1 := by
  have hsum : ∀ t : BoutReal, h00 t + h01 t = 1 := fun t => by
    simp only [h00, h01]; ring
  refine ⟨hsum, ?_⟩
  obtain ⟨r, hr, _, _, hin, _⟩ := calcWeights_ok delta_x delta_z region s
  refine ⟨r, hr, fun i hi => ?_⟩
  have hread := hin i hi
  have e1 : r.h00_x i = h00 _ := congrArg PointData.h00_x hread
  have e2 : r.h01_x i = h01 _ := congrArg PointData.h01_x hread
  have e5 : r.h00_z i = h00 _ := congrArg PointData.h00_z hread
  have e6 : r.h01_z i = h01 _ := congrArg PointData.h01_z hread
  rw [e1, e2, e5, e6]
  exact ⟨hsum _, hsum _⟩

/-- Witness of C20 on the example region, at the clamped point `(2, 1, 0)`. -/
theorem XZHermiteSpline.calcWeights_h00_add_h01_witness :
    h00 (1 / 2) + h01 (1 / 2) = 1
      ∧ ∃ r, exampleSpline.calcWeights exampleDeltaX exampleDeltaZ exampleRegion3D = .ok r
          ∧ r.h00_x ⟨2, 1, 0⟩ + r.h01_x ⟨2, 1, 0⟩ = 1
          ∧ r.h00_z ⟨2, 1, 0⟩ + r.h01_z ⟨2, 1, 0⟩ = 1 := by
  obtain ⟨ht, r, hr, h⟩ := XZHermiteSpline.calcWeights_h00_add_h01 exampleSpline
    exampleDeltaX exampleDeltaZ exampleRegion3D
  obtain ⟨a, b⟩ := h ⟨2, 1, 0⟩ (by simp [exampleRegion3D])
  exact ⟨ht _, r, hr, a, b⟩

end BOUT

/-! ## Lemmas on the sixteen weights -/

namespace BOUT

theorem plusEq_of_eq (j k : Fin 16) (v : BoutReal) (w : Fin 16 → BoutReal) (h : j = k) :
    plusEq k v w j = w j + v := by
  simp [plusEq, h]

theorem plusEq_of_ne (j k : Fin 16) (v : BoutReal) (w : Fin 16 → BoutReal) (h : j ≠ k) :
    plusEq k v w j = w j := by
  simp [plusEq, h]

theorem minusEq_of_eq (j k : Fin 16) (v : BoutReal) (w : Fin 16 → BoutReal) (h : j = k) :
    minusEq k v w j = w j - v := by
  simp [minusEq, h]

theorem minusEq_of_ne (j k : Fin 16) (v : BoutReal) (w : Fin 16 → BoutReal) (h : j ≠ k) :
    minusEq k v w j = w j := by
  simp [minusEq, h]

/-- A sum over the sixteen indices, written out. -/
theorem sum_fin16 (g : Fin 16 → ℚ) :
    ∑ w : Fin 16, g w
      = g 0 + g 1 + g 2 + g 3 + g 4 + g 5 + g 6 + g 7 + g 8 + g 9 + g 10 + g 11 + g 12
          + g 13 + g 14 + g 15 := by
  simp only [Fin.sum_univ_succ, Fin.sum_univ_zero]
  simp only [add_zero, ← add_assoc]
  rfl

/-- The sixteen accumulated weights, each as the product of an x weight and a z weight:
weight `4*j + k` belongs to the x offset `j - 1` and the z offset `k - 1`. -/
theorem newWeightsAt_values (a0 a1 a2 a3 b0 b1 b2 b3 : BoutReal) :
    newWeightsAt a0 a1 a2 a3 b0 b1 b2 b3 0 = (-a2 / 2) * (-b2 / 2)
      ∧ newWeightsAt a0 a1 a2 a3 b0 b1 b2 b3 1 = (-a2 / 2) * (b0 - b3 / 2)
      ∧ newWeightsAt a0 a1 a2 a3 b0 b1 b2 b3 2 = (-a2 / 2) * (b1 + b2 / 2)
      ∧ newWeightsAt a0 a1 a2 a3 b0 b1 b2 b3 3 = (-a2 / 2) * (b3 / 2)
      ∧ newWeightsAt a0 a1 a2 a3 b0 b1 b2 b3 4 = (a0 - a3 / 2) * (-b2 / 2)
      ∧ newWeightsAt a0 a1 a2 a3 b0 b1 b2 b3 5 = (a0 - a3 / 2) * (b0 - b3 / 2)
      ∧ newWeightsAt a0 a1 a2 a3 b0 b1 b2 b3 6 = (a0 - a3 / 2) * (b1 + b2 / 2)
      ∧ newWeightsAt a0 a1 a2 a3 b0 b1 b2 b3 7 = (a0 - a3 / 2) * (b3 / 2)
      ∧ newWeightsAt a0 a1 a2 a3 b0 b1 b2 b3 8 = (a1 + a2 / 2) * (-b2 / 2)
      ∧ newWeightsAt a0 a1 a2 a3 b0 b1 b2 b3 9 = (a1 + a2 / 2) * (b0 - b3 / 2)
      ∧ newWeightsAt a0 a1 a2 a3 b0 b1 b2 b3 10 = (a1 + a2 / 2) * (b1 + b2 / 2)
      ∧ newWeightsAt a0 a1 a2 a3 b0 b1 b2 b3 11 = (a1 + a2 / 2) * (b3 / 2)
      ∧ newWeightsAt a0 a1 a2 a3 b0 b1 b2 b3 12 = (a3 / 2) * (-b2 / 2)
      ∧ newWeightsAt a0 a1 a2 a3 b0 b1 b2 b3 13 = (a3 / 2) * (b0 - b3 / 2)
      ∧ newWeightsAt a0 a1 a2 a3 b0 b1 b2 b3 14 = (a3 / 2) * (b1 + b2 / 2)
      ∧ newWeightsAt a0 a1 a2 a3 b0 b1 b2 b3 15 = (a3 / 2) * (b3 / 2) := by
  unfold newWeightsAt
  refine ⟨?_, ?_, ?_, ?_, ?_, ?_, ?_, ?_, ?_, ?_, ?_, ?_, ?_, ?_, ?_, ?_⟩ <;>
    (simp (disch := decide) only [plusEq_of_eq, plusEq_of_ne, minusEq_of_eq, minusEq_of_ne]
     ring)

/-- The value of `interpolate` at one point, written out: weight `4*j + k` multiplies
the field value at x offset `j - 1` and z offset `k - 1` from the corner. -/
theorem interpolateAt_eq (s : XZHermiteSpline) (nb : Int → Int → Int → Int) (f : FieldData)
    (i : Ind3D) :
    s.interpolateAt nb f i
      = 0 + s.newWeights 0 i * f (nb (s.i_corner i) (-1) (-1))
          + s.newWeights 1 i * f (nb (s.i_corner i) (-1) 0)
          + s.newWeights 2 i * f (nb (s.i_corner i) (-1) 1)
          + s.newWeights 3 i * f (nb (s.i_corner i) (-1) 2)
          + s.newWeights 4 i * f (nb (s.i_corner i) 0 (-1))
          + s.newWeights 5 i * f (nb (s.i_corner i) 0 0)
          + s.newWeights 6 i * f (nb (s.i_corner i) 0 1)
          + s.newWeights 7 i * f (nb (s.i_corner i) 0 2)
          + s.newWeights 8 i * f (nb (s.i_corner i) 1 (-1))
          + s.newWeights 9 i * f (nb (s.i_corner i) 1 0)
          + s.newWeights 10 i * f (nb (s.i_corner i) 1 1)
          + s.newWeights 11 i * f (nb (s.i_corner i) 1 2)
          + s.newWeights 12 i * f (nb (s.i_corner i) 2 (-1))
          + s.newWeights 13 i * f (nb (s.i_corner i) 2 0)
          + s.newWeights 14 i * f (nb (s.i_corner i) 2 1)
          + s.newWeights 15 i * f (nb (s.i_corner i) 2 2) := by
  rfl

end BOUT

namespace BOUT

/-- A double sum over the 4x4 neighbourhood, written out. -/
theorem sum_grid2 (g : Fin 4 → Fin 4 → ℚ) :
    ∑ j : Fin 4, ∑ k : Fin 4, g j k
      = g 0 0 + g 0 1 + g 0 2 + g 0 3 + g 1 0 + g 1 1 + g 1 2 + g 1 3
          + g 2 0 + g 2 1 + g 2 2 + g 2 3 + g 3 0 + g 3 1 + g 3 2 + g 3 3 := by
  simp only [Fin.sum_univ_four, ← add_assoc]

/-- The sixteen weights sum to `(h00_x + h01_x) * (h00_z + h01_z)`. -/
theorem newWeightsAt_sum (a0 a1 a2 a3 b0 b1 b2 b3 : BoutReal) :
    ∑ w : Fin 16, newWeightsAt a0 a1 a2 a3 b0 b1 b2 b3 w = (a0 + a1) * (b0 + b1) := by
  obtain ⟨e0, e1, e2, e3, e4, e5, e6, e7, e8, e9, e10, e11, e12, e13, e14, e15⟩ :=
    newWeightsAt_values a0 a1 a2 a3 b0 b1 b2 b3
  rw [sum_fin16, e0, e1, e2, e3, e4, e5, e6, e7, e8, e9, e10, e11, e12, e13, e14, e15]
  ring

/-- The weights that `calcWeights` stores for a point are those accumulated from the
basis values stored for the same point. -/
theorem stored_newWeights (s r : XZHermiteSpline) (i : Ind3D) (co : CornerOffsets)
    (hread : r.read i = s.pointValues i co) (w : Fin 16) :
    r.newWeights w i
      = newWeightsAt (r.h00_x i) (r.h01_x i) (r.h10_x i) (r.h11_x i)
          (r.h00_z i) (r.h01_z i) (r.h10_z i) (r.h11_z i) w := by
  have e1 : r.h00_x i = h00 co.t_x := congrArg PointData.h00_x hread
  have e2 : r.h01_x i = h01 co.t_x := congrArg PointData.h01_x hread
  have e3 : r.h10_x i = h10 co.t_x := congrArg PointData.h10_x hread
  have e4 : r.h11_x i = h11 co.t_x := congrArg PointData.h11_x hread
  have e5 : r.h00_z i = h00 co.t_z := congrArg PointData.h00_z hread
  have e6 : r.h01_z i = h01 co.t_z := congrArg PointData.h01_z hread
  have e7 : r.h10_z i = h10 co.t_z := congrArg PointData.h10_z hread
  have e8 : r.h11_z i = h11 co.t_z := congrArg PointData.h11_z hread
  rw [e1, e2, e3, e4, e5, e6, e7, e8]
  exact congrFun (congrArg PointData.newWeights hread) w

end BOUT

/-! ## The claims on the sixteen weights and on `interpolate` -/

namespace BOUT

/-- C21: for every pair `(t_x, t_z)` the sixteen weights accumulated from the basis values
sum to exactly 1; hence `calcWeights` returns with `newWeights[0..15]` summing to 1 at
every point of the region. -/
theorem XZHermiteSpline.calcWeights_weights_sum_to_one (s : XZHermiteSpline)
    (delta_x delta_z : Field3D) (region : List Ind3D) :
    (∀ t_x t_z : BoutReal,
        ∑ w : Fin 16, newWeightsAt (h00 t_x) (h01 t_x) (h10 t_x) (h11 t_x)
          (h00 t_z) (h01 t_z) (h10 t_z) (h11 t_z) w = 1)
      ∧ ∃ r, s.calcWeights delta_x delta_z region = .ok r
          ∧ ∀ i ∈ region, ∑ w : Fin 16, r.newWeights w i = 1 := by
  have hsum : ∀ t : BoutReal, h00 t + h01 t = 1 := fun t => by
    simp only [h00, h01]; ring
  have hall : ∀ t_x t_z : BoutReal,
      ∑ w : Fin 16, newWeightsAt (h00 t_x) (h01 t_x) (h10 t_x) (h11 t_x)
        (h00 t_z) (h01 t_z) (h10 t_z) (h11 t_z) w = 1 := fun t_x t_z => by
    rw [newWeightsAt_sum, hsum, hsum, mul_one]
  refine ⟨hall, ?_⟩
  obtain ⟨r, hr, _, _, hin, _⟩ := calcWeights_ok delta_x delta_z region s
  refine ⟨r, hr, fun i hi => ?_⟩
  have hw : ∀ w : Fin 16, r.newWeights w i = _ :=
    fun w => congrFun (congrArg PointData.newWeights (hin i hi)) w
  simp only [hw]
  exact hall _ _

/-- Witness of C21 on the example region, at the clamped point `(2, 1, 0)`. -/
theorem XZHermiteSpline.calcWeights_weights_sum_to_one_witness :
    ∃ r, exampleSpline.calcWeights exampleDeltaX exampleDeltaZ exampleRegion3D = .ok r
      ∧ ∑ w : Fin 16, r.newWeights w ⟨2, 1, 0⟩ = 1 := by
  obtain ⟨_, r, hr, h⟩ := XZHermiteSpline.calcWeights_weights_sum_to_one exampleSpline
    exampleDeltaX exampleDeltaZ exampleRegion3D
  exact ⟨r, hr, h ⟨2, 1, 0⟩ (by simp [exampleRegion3D])⟩

end BOUT

namespace BOUT

/-- `interpolate` stores at `i.yp(y_offset)`, for every point `i` of the region, the value
of the loop body at `i`. -/
theorem interpolate_at (s : XZHermiteSpline) (nb : Int → Int → Int → Int) (f : FieldData)
    (region : List Ind3D) :
    ∀ f_interp : Field3D,
      (∀ i ∈ region, s.interpolate nb f f_interp region ⟨i.x, i.y + s.y_offset, i.z⟩
          = s.interpolateAt nb f i)
        ∧ (∀ q : Ind3D, (∀ i ∈ region, (⟨i.x, i.y + s.y_offset, i.z⟩ : Ind3D) ≠ q) →
            s.interpolate nb f f_interp region q = f_interp q) := by
  induction region with
  | nil =>
    intro f_interp
    exact ⟨by intro i hi; simp at hi, fun _ _ => rfl⟩
  | cons p rest ih =>
    intro f_interp
    obtain ⟨hin, hout⟩ :=
      ih (Field3D.set f_interp ⟨p.x, p.y + s.y_offset, p.z⟩ (s.interpolateAt nb f p))
    constructor
    · intro i hi
      by_cases hir : i ∈ rest
      · exact hin i hir
      · have hip : i = p := by
          rcases List.mem_cons.mp hi with h | h
          · exact h
          · exact absurd h hir
        subst hip
        have hne : ∀ j ∈ rest, (⟨j.x, j.y + s.y_offset, j.z⟩ : Ind3D)
            ≠ ⟨i.x, i.y + s.y_offset, i.z⟩ := by
          intro j hj e
          simp only [Ind3D.mk.injEq] at e
          have : j = i := by
            cases j; cases i
            simp only [Ind3D.mk.injEq] at *
            exact ⟨e.1, by omega, e.2.2⟩
          exact hir (this ▸ hj)
        show s.interpolate nb f _ rest _ = _
        rw [hout _ hne]
        simp [Field3D.set]
    · intro q hq
      have hqp : (⟨p.x, p.y + s.y_offset, p.z⟩ : Ind3D) ≠ q := hq p (List.mem_cons_self _ _)
      show s.interpolate nb f _ rest q = _
      rw [hout q (fun i hi => hq i (List.mem_cons_of_mem _ hi))]
      simp [Field3D.set, Ne.symm hqp]

/-- C22: `calcWeights` returns, and at every point of the region whose corner is not
clamped (`xstart ≤ floor(delta_x) < xend`) the sixteen weights applied to the 4x4
neighbourhood of an affine field, `Σ_{j,k} newWeights[4*j + k] * f(i_corn + j - 1,
k_corner + k - 1)` with `f(x, z) = a*x + b*z + c`, give exactly
`a*delta_x + b*delta_z + c`; so does `interpolate` on a field that takes these values at
the sixteen neighbours of the corner. -/
theorem XZHermiteSpline.calcWeights_affine_exact (s : XZHermiteSpline)
    (delta_x delta_z : Field3D) (region : List Ind3D) (a b c : BoutReal) :
    ∃ r, s.calcWeights delta_x delta_z region = .ok r
      ∧ ∀ i ∈ region, s.localmesh.xstart ≤ ⌊delta_x i⌋ → ⌊delta_x i⌋ < s.xendGlobal →
          (∑ j : Fin 4, ∑ k : Fin 4,
              r.newWeights (weightIndex j k) i
                * (a * ((⌊delta_x i⌋ + (j.val : Int) - 1 : Int) : ℚ)
                    + b * ((⌊delta_z i⌋ + (k.val : Int) - 1 : Int) : ℚ) + c)
              = a * delta_x i + b * delta_z i + c)
            ∧ ∀ (nb : Int → Int → Int → Int) (f : FieldData) (f_interp : Field3D),
                (∀ j k : Fin 4,
                  f (nb (r.i_corner i) ((j.val : Int) - 1) ((k.val : Int) - 1))
                    = a * ((⌊delta_x i⌋ + (j.val : Int) - 1 : Int) : ℚ)
                        + b * ((⌊delta_z i⌋ + (k.val : Int) - 1 : Int) : ℚ) + c) →
                r.interpolateAt nb f i = a * delta_x i + b * delta_z i + c
                  ∧ r.interpolate nb f f_interp region ⟨i.x, i.y + r.y_offset, i.z⟩
                      = a * delta_x i + b * delta_z i + c := by
  obtain ⟨r, hr, _, _, hin, _⟩ := calcWeights_ok delta_x delta_z region s
  refine ⟨r, hr, fun i hi h0 h1 => ?_⟩
  have hread := hin i hi
  rw [cornerOffsets_unclamped s (delta_x i) (delta_z i) h0 h1] at hread
  have hw : ∀ w : Fin 16, r.newWeights w i
      = newWeightsAt (h00 (delta_x i - (⌊delta_x i⌋ : ℚ)))
          (h01 (delta_x i - (⌊delta_x i⌋ : ℚ))) (h10 (delta_x i - (⌊delta_x i⌋ : ℚ)))
          (h11 (delta_x i - (⌊delta_x i⌋ : ℚ))) (h00 (delta_z i - (⌊delta_z i⌋ : ℚ)))
          (h01 (delta_z i - (⌊delta_z i⌋ : ℚ))) (h10 (delta_z i - (⌊delta_z i⌋ : ℚ)))
          (h11 (delta_z i - (⌊delta_z i⌋ : ℚ))) w :=
    fun w => congrFun (congrArg PointData.newWeights hread) w
  obtain ⟨e0, e1, e2, e3, e4, e5, e6, e7, e8, e9, e10, e11, e12, e13, e14, e15⟩ :=
    newWeightsAt_values (h00 (delta_x i - (⌊delta_x i⌋ : ℚ)))
      (h01 (delta_x i - (⌊delta_x i⌋ : ℚ))) (h10 (delta_x i - (⌊delta_x i⌋ : ℚ)))
      (h11 (delta_x i - (⌊delta_x i⌋ : ℚ))) (h00 (delta_z i - (⌊delta_z i⌋ : ℚ)))
      (h01 (delta_z i - (⌊delta_z i⌋ : ℚ))) (h10 (delta_z i - (⌊delta_z i⌋ : ℚ)))
      (h11 (delta_z i - (⌊delta_z i⌋ : ℚ)))
  have f0 : ((0 : Fin 4).val : Int) = 0 := rfl
  have f1 : ((1 : Fin 4).val : Int) = 1 := rfl
  have f2 : ((2 : Fin 4).val : Int) = 2 := rfl
  have f3 : ((3 : Fin 4).val : Int) = 3 := rfl
  have key : ∀ g : Fin 4 → Fin 4 → ℚ,
      (∀ j k : Fin 4, g j k
        = a * ((⌊delta_x i⌋ + (j.val : Int) - 1 : Int) : ℚ)
            + b * ((⌊delta_z i⌋ + (k.val : Int) - 1 : Int) : ℚ) + c) →
      r.newWeights 0 i * g 0 0 + r.newWeights 1 i * g 0 1 + r.newWeights 2 i * g 0 2
        + r.newWeights 3 i * g 0 3 + r.newWeights 4 i * g 1 0 + r.newWeights 5 i * g 1 1
        + r.newWeights 6 i * g 1 2 + r.newWeights 7 i * g 1 3 + r.newWeights 8 i * g 2 0
        + r.newWeights 9 i * g 2 1 + r.newWeights 10 i * g 2 2 + r.newWeights 11 i * g 2 3
        + r.newWeights 12 i * g 3 0 + r.newWeights 13 i * g 3 1 + r.newWeights 14 i * g 3 2
        + r.newWeights 15 i * g 3 3
        = a * delta_x i + b * delta_z i + c := by
    intro g hg
    rw [hg 0 0, hg 0 1, hg 0 2, hg 0 3, hg 1 0, hg 1 1, hg 1 2, hg 1 3, hg 2 0, hg 2 1,
      hg 2 2, hg 2 3, hg 3 0, hg 3 1, hg 3 2, hg 3 3,
      hw 0, hw 1, hw 2, hw 3, hw 4, hw 5, hw 6, hw 7, hw 8, hw 9, hw 10, hw 11, hw 12,
      hw 13, hw 14, hw 15,
      e0, e1, e2, e3, e4, e5, e6, e7, e8, e9, e10, e11, e12, e13, e14, e15, f0, f1, f2, f3]
    simp only [h00, h01, h10, h11]
    push_cast
    ring
  constructor
  · rw [sum_grid2]
    exact key (fun j k => a * ((⌊delta_x i⌋ + (j.val : Int) - 1 : Int) : ℚ)
        + b * ((⌊delta_z i⌋ + (k.val : Int) - 1 : Int) : ℚ) + c) (fun _ _ => rfl)
  · intro nb f f_interp hf
    have hval : r.interpolateAt nb f i = a * delta_x i + b * delta_z i + c := by
      rw [interpolateAt_eq, zero_add]
      have hk := key
        (fun j k => f (nb (r.i_corner i) ((j.val : Int) - 1) ((k.val : Int) - 1))) hf
      simp only [f0, f1, f2, f3, Int.reduceSub, zero_sub, sub_self] at hk
      exact hk
    exact ⟨hval, by rw [(interpolate_at r nb f region f_interp).1 i hi, hval]⟩

end BOUT

namespace BOUT

/-- The compound corner index stored for the point `(1, 1, 0)` of the example. -/
theorem example_corner_index (r : XZHermiteSpline)
    (hr : exampleSpline.calcWeights exampleDeltaX exampleDeltaZ exampleRegion3D = .ok r) :
    r.i_corner ⟨1, 1, 0⟩ = 55 := by
  obtain ⟨r2, hr2, _, _, hin, _⟩ :=
    calcWeights_ok exampleDeltaX exampleDeltaZ exampleRegion3D exampleSpline
  rw [hr] at hr2
  simp only [Except.ok.injEq] at hr2
  subst hr2
  obtain ⟨f1, _, _, fz⟩ := example_floors
  obtain ⟨x1, x2, _, _⟩ := example_xend
  have hco := cornerOffsets_unclamped exampleSpline (exampleDeltaX ⟨1, 1, 0⟩)
    (exampleDeltaZ ⟨1, 1, 0⟩) (by rw [x2, f1]; decide) (by rw [x1, f1]; decide)
  have hic : r.i_corner ⟨1, 1, 0⟩ = _ :=
    congrArg PointData.i_corner (hin ⟨1, 1, 0⟩ (by simp [exampleRegion3D]))
  rw [hic, hco, f1, fz]
  rfl

/-- Witness of C22 at the point `(1, 1, 0)`, displaced by `(5/2, -3/4)`, for the field
`3*x + 5*z + 7`: the interpolated value is `3 * 5/2 + 5 * (-3/4) + 7`. -/
theorem XZHermiteSpline.calcWeights_affine_exact_witness :
    exampleSpline.localmesh.xstart ≤ ⌊exampleDeltaX ⟨1, 1, 0⟩⌋
      ∧ ⌊exampleDeltaX ⟨1, 1, 0⟩⌋ < exampleSpline.xendGlobal
      ∧ ∃ r, exampleSpline.calcWeights exampleDeltaX exampleDeltaZ exampleRegion3D = .ok r
          ∧ r.interpolateAt exampleNb exampleAffineField ⟨1, 1, 0⟩
              = 3 * exampleDeltaX ⟨1, 1, 0⟩ + 5 * exampleDeltaZ ⟨1, 1, 0⟩ + 7 := by
  obtain ⟨f1, _, _, fz⟩ := example_floors
  have h0 : exampleSpline.localmesh.xstart ≤ ⌊exampleDeltaX ⟨1, 1, 0⟩⌋ := by
    rw [f1]; decide
  have h1 : ⌊exampleDeltaX ⟨1, 1, 0⟩⌋ < exampleSpline.xendGlobal := by rw [f1]; decide
  obtain ⟨r, hr, h⟩ := XZHermiteSpline.calcWeights_affine_exact exampleSpline
    exampleDeltaX exampleDeltaZ exampleRegion3D 3 5 7
  obtain ⟨_, hint⟩ := h ⟨1, 1, 0⟩ (by simp [exampleRegion3D]) h0 h1
  refine ⟨h0, h1, r, hr, (hint exampleNb exampleAffineField (fun _ => 0) ?_).1⟩
  intro j k
  rw [example_corner_index r hr, f1, fz]
  fin_cases j <;> fin_cases k <;>
    norm_num [exampleAffineField, exampleNb]

/-- C23: `calcWeights` returns, and at every point of the region the two modes of
`interpolate` agree: for every field `f`, the sixteen-term weighted sum of the
neighbour values (weight `4*(dx+1) + (dz+1)` for the x offset `dx` and z offset `dz`
in `-1..2`) equals the basis-mode value
`f_z*h00_z + f_zp1*h01_z + fz_z*h10_z + fz_zp1*h11_z` in which `fx`, `fz`, `fxz` are the
second-order central differences, `fxz` being the z difference of `fx`. -/
theorem XZHermiteSpline.interpolate_modes_agree (s : XZHermiteSpline)
    (delta_x delta_z : Field3D) (region : List Ind3D) :
    ∃ r, s.calcWeights delta_x delta_z region = .ok r
      ∧ ∀ i ∈ region, ∀ (nb : Int → Int → Int → Int) (f fx fz fxz : FieldData),
          nb (r.i_corner i) 0 0 = r.i_corner i →
          (∀ p q : Int, fx (nb (r.i_corner i) p q)
            = (f (nb (r.i_corner i) (p + 1) q) - f (nb (r.i_corner i) (p - 1) q)) / 2) →
          (∀ p q : Int, fz (nb (r.i_corner i) p q)
            = (f (nb (r.i_corner i) p (q + 1)) - f (nb (r.i_corner i) p (q - 1))) / 2) →
          (∀ p q : Int, fxz (nb (r.i_corner i) p q)
            = (fx (nb (r.i_corner i) p (q + 1)) - fx (nb (r.i_corner i) p (q - 1))) / 2) →
          r.interpolateAt nb f i = r.interpolateBasisAt nb f fx fz fxz i := by
  obtain ⟨r, hr, _, _, hin, _⟩ := calcWeights_ok delta_x delta_z region s
  refine ⟨r, hr, fun i hi nb f fx fz fxz hnb hfx hfz hfxz => ?_⟩
  have hw := stored_newWeights s r i _ (hin i hi)
  obtain ⟨e0, e1, e2, e3, e4, e5, e6, e7, e8, e9, e10, e11, e12, e13, e14, e15⟩ :=
    newWeightsAt_values (r.h00_x i) (r.h01_x i) (r.h10_x i) (r.h11_x i)
      (r.h00_z i) (r.h01_z i) (r.h10_z i) (r.h11_z i)
  -- the derivative values that the basis mode reads, in terms of the field
  have x00 := hfx 0 0
  have x10 := hfx 1 0
  have x01 := hfx 0 1
  have x11 := hfx 1 1
  have x0m := hfx 0 (-1)
  have x1m := hfx 1 (-1)
  have x02 := hfx 0 2
  have x12 := hfx 1 2
  have z00 := hfz 0 0
  have z10 := hfz 1 0
  have z01 := hfz 0 1
  have z11 := hfz 1 1
  have c00 := hfxz 0 0
  have c10 := hfxz 1 0
  have c01 := hfxz 0 1
  have c11 := hfxz 1 1
  simp only [zero_add, zero_sub, Int.reduceAdd, Int.reduceSub, Int.reduceNeg, sub_self,
    hnb] at x00 x10 x01 x11 x0m x1m x02 x12 z00 z10 z01 z11 c00 c10 c01 c11
  rw [x0m, x01] at c00
  rw [x1m, x11] at c10
  rw [x00, x02] at c01
  rw [x10, x12] at c11
  rw [interpolateAt_eq, hnb]
  unfold XZHermiteSpline.interpolateBasisAt
  simp only []
  rw [x00, x10, x01, x11, z00, z10, z01, z11, c00, c10, c01, c11,
    hw 0, hw 1, hw 2, hw 3, hw 4, hw 5, hw 6, hw 7, hw 8, hw 9, hw 10, hw 11, hw 12,
    hw 13, hw 14, hw 15,
    e0, e1, e2, e3, e4, e5, e6, e7, e8, e9, e10, e11, e12, e13, e14, e15]
  ring

end BOUT

namespace BOUT

/-- Witness of C23 at the point `(1, 1, 0)` of the example, for the field `ind ↦ ind^2` with
its central differences on the flat index. -/
theorem XZHermiteSpline.interpolate_modes_agree_witness :
    ∃ r, exampleSpline.calcWeights exampleDeltaX exampleDeltaZ exampleRegion3D = .ok r
      ∧ r.interpolateAt exampleNb exampleField ⟨1, 1, 0⟩
          = r.interpolateBasisAt exampleNb exampleField (centralX exampleField)
              (centralZ exampleField) (centralZ (centralX exampleField)) ⟨1, 1, 0⟩ := by
  obtain ⟨r, hr, h⟩ := XZHermiteSpline.interpolate_modes_agree exampleSpline
    exampleDeltaX exampleDeltaZ exampleRegion3D
  refine ⟨r, hr, h ⟨1, 1, 0⟩ (by simp [exampleRegion3D]) exampleNb exampleField _ _ _
    ?_ ?_ ?_ ?_⟩
  · simp [exampleNb]
  · intro p q
    have e1 : exampleNb (r.i_corner ⟨1, 1, 0⟩) (p + 1) q
        = exampleNb (r.i_corner ⟨1, 1, 0⟩) p q + 6 * 4 := by unfold exampleNb; ring
    have e2 : exampleNb (r.i_corner ⟨1, 1, 0⟩) (p - 1) q
        = exampleNb (r.i_corner ⟨1, 1, 0⟩) p q - 6 * 4 := by unfold exampleNb; ring
    rw [e1, e2]
    rfl
  · intro p q
    have e1 : exampleNb (r.i_corner ⟨1, 1, 0⟩) p (q + 1)
        = exampleNb (r.i_corner ⟨1, 1, 0⟩) p q + 1 := by unfold exampleNb; ring
    have e2 : exampleNb (r.i_corner ⟨1, 1, 0⟩) p (q - 1)
        = exampleNb (r.i_corner ⟨1, 1, 0⟩) p q - 1 := by unfold exampleNb; ring
    rw [e1, e2]
    rfl
  · intro p q
    have e1 : exampleNb (r.i_corner ⟨1, 1, 0⟩) p (q + 1)
        = exampleNb (r.i_corner ⟨1, 1, 0⟩) p q + 1 := by unfold exampleNb; ring
    have e2 : exampleNb (r.i_corner ⟨1, 1, 0⟩) p (q - 1)
        = exampleNb (r.i_corner ⟨1, 1, 0⟩) p q - 1 := by unfold exampleNb; ring
    rw [e1, e2]
    rfl

end BOUT

/-! ## Lemmas on `getWeightsForYApproximation` -/

namespace BOUT

/-- The C++ idiom `((a % n) + n) % n` with truncating `%` is the mathematical residue. -/
theorem tmod_tmod_add (a n : Int) (hn : 1 ≤ n) :
    Int.tmod (Int.tmod a n + n) n = a % n := by
  have h1 := Int.tmod_add_tdiv a n
  have hcong : (Int.tmod a n + n) % n = a % n := by
    rw [Int.add_emod_self]
    conv_rhs => rw [← h1]
    rw [Int.add_mul_emod_self_left]
  have hlo : 0 ≤ Int.tmod a n + n := by
    rcases le_or_lt 0 a with h | h
    · have := Int.tmod_nonneg n h
      omega
    · have h2 : (-a).tdiv n = -(a.tdiv n) := Int.neg_tdiv a n
      have h3 : (-a).tdiv n = (-a) / n := Int.tdiv_eq_ediv (by omega) (by omega)
      have h4 := Int.emod_add_ediv (-a) n
      have h5 := Int.emod_lt_of_pos (-a) (show (0 : Int) < n by omega)
      have h6 : a.tdiv n = -((-a) / n) := by omega
      rw [h6, mul_neg] at h1
      linarith
  rw [Int.tmod_eq_emod hlo (by omega), hcong]

/-- The residue of the predecessor, by cases on the residue. -/
theorem emod_pred (a n : Int) (hn : 1 ≤ n) :
    (a - 1) % n = if a % n > 0 then a % n - 1 else n - 1 := by
  have hpos : (0 : Int) < n := by omega
  have h0 := Int.emod_nonneg a (ne_of_gt hpos)
  have h1 := Int.emod_lt_of_pos a hpos
  have hd := Int.ediv_add_emod a n
  split_ifs with h
  · have e : a - 1 = (a / n) * n + (a % n - 1) := by linarith [mul_comm n (a / n)]
    rw [e]
    exact (digit_ediv_emod (a / n) n (a % n - 1) (by omega) (by omega)).2
  · have hz : a % n = 0 := by omega
    have e : a - 1 = (a / n - 1) * n + (n - 1) := by
      have : (a / n - 1) * n = n * (a / n) - n := by ring
      rw [this]
      omega
    rw [e]
    exact (digit_ediv_emod (a / n - 1) n (n - 1) (by omega) (by omega)).2

/-- The four entries that `getWeightsForYApproximation` returns, in terms of the residue
`k_c mod ncz`. -/
theorem getWeights_eq (s : XZHermiteSpline) (i j k yoffset : Int)
    (hn : 1 ≤ s.localmesh.LocalNz) :
    s.getWeightsForYApproximation i j k yoffset
      = [ { i := i, j := j + yoffset,
            k := (s.k_corner ⟨i, j, k⟩ - 1) % s.localmesh.LocalNz,
            weight := -(s.h10_z ⟨i, j, k⟩) / 2 },
          { i := i, j := j + yoffset, k := s.k_corner ⟨i, j, k⟩ % s.localmesh.LocalNz,
            weight := s.h00_z ⟨i, j, k⟩ - s.h11_z ⟨i, j, k⟩ / 2 },
          { i := i, j := j + yoffset, k := s.k_corner ⟨i, j, k⟩ % s.localmesh.LocalNz + 1,
            weight := s.h01_z ⟨i, j, k⟩ + s.h10_z ⟨i, j, k⟩ / 2 },
          { i := i, j := j + yoffset,
            k := if s.k_corner ⟨i, j, k⟩ % s.localmesh.LocalNz + 1 = s.localmesh.LocalNz
                 then 0 else s.k_corner ⟨i, j, k⟩ % s.localmesh.LocalNz + 1 + 1,
            weight := s.h11_z ⟨i, j, k⟩ / 2 } ] := by
  have h1 := Int.emod_lt_of_pos (s.k_corner ⟨i, j, k⟩)
    (show (0 : Int) < s.localmesh.LocalNz by omega)
  have hne : ¬ (s.k_corner ⟨i, j, k⟩ % s.localmesh.LocalNz = s.localmesh.LocalNz) := by
    omega
  have w0 : -0.5 * s.h10_z ⟨i, j, k⟩ = -(s.h10_z ⟨i, j, k⟩) / 2 := by norm_num; ring
  have w1 : s.h00_z ⟨i, j, k⟩ - 0.5 * s.h11_z ⟨i, j, k⟩
      = s.h00_z ⟨i, j, k⟩ - s.h11_z ⟨i, j, k⟩ / 2 := by norm_num; ring
  have w2 : s.h01_z ⟨i, j, k⟩ + 0.5 * s.h10_z ⟨i, j, k⟩
      = s.h01_z ⟨i, j, k⟩ + s.h10_z ⟨i, j, k⟩ / 2 := by norm_num; ring
  have w3 : 0.5 * s.h11_z ⟨i, j, k⟩ = s.h11_z ⟨i, j, k⟩ / 2 := by norm_num; ring
  simp only [XZHermiteSpline.getWeightsForYApproximation, tmod_tmod_add _ _ hn,
    emod_pred _ _ hn, if_neg hne, w0, w1, w2, w3]

/-- The four z positions that `getWeightsForYApproximation` returns. -/
theorem getWeights_positions (s : XZHermiteSpline) (i j k yoffset : Int)
    (hn : 1 ≤ s.localmesh.LocalNz) :
    (s.getWeightsForYApproximation i j k yoffset).map PositionsAndWeights.k
      = [ (s.k_corner ⟨i, j, k⟩ - 1) % s.localmesh.LocalNz,
          s.k_corner ⟨i, j, k⟩ % s.localmesh.LocalNz,
          s.k_corner ⟨i, j, k⟩ % s.localmesh.LocalNz + 1,
          if s.k_corner ⟨i, j, k⟩ % s.localmesh.LocalNz + 1 = s.localmesh.LocalNz then 0
          else s.k_corner ⟨i, j, k⟩ % s.localmesh.LocalNz + 1 + 1 ] := by
  rw [getWeights_eq s i j k yoffset hn]
  rfl

end BOUT

/-! ## The claims on `getWeightsForYApproximation`, the stored corner and `applyToComponents` -/

namespace BOUT

/-- C24 (counterexample): with `k_corner = 0` and `LocalNz = 4` the first z position
returned by `getWeightsForYApproximation` is `3`, not `k_c - 1 = -1`. -/
theorem XZHermiteSpline.getWeightsForYApproximation_first_position_wraps :
    (zeroCornerSpline.getWeightsForYApproximation 1 1 0 1).map PositionsAndWeights.k
        = [3, 0, 1, 2]
      ∧ zeroCornerSpline.k_corner ⟨1, 1, 0⟩ - 1 = -1 := by
  constructor
  · rw [getWeights_positions _ _ _ _ _ (by decide)]
    decide
  · rfl

/-- C24 (amended): `getWeightsForYApproximation` returns exactly four entries, each with x
position `i` and y position `j + yoffset`, whose weights are, in order, `-h10_z/2`,
`h00_z - h11_z/2`, `h01_z + h10_z/2` and `h11_z/2` evaluated at `(i, j, k)`; with
`ncz = LocalNz >= 1` and `k_c = k_corner(i, j, k)` the first two are attached to the z
positions `(k_c - 1) mod ncz` and `k_c mod ncz`, and when `1 <= k_c <= ncz - 3` the four z
positions are `k_c - 1`, `k_c`, `k_c + 1`, `k_c + 2`. -/
theorem XZHermiteSpline.getWeightsForYApproximation_entries (s : XZHermiteSpline)
    (i j k yoffset : Int) (hn : 1 ≤ s.localmesh.LocalNz) :
    ∃ k0 k1 k2 k3 : Int,
      s.getWeightsForYApproximation i j k yoffset
          = [ { i := i, j := j + yoffset, k := k0, weight := -(s.h10_z ⟨i, j, k⟩) / 2 },
              { i := i, j := j + yoffset, k := k1,
                weight := s.h00_z ⟨i, j, k⟩ - s.h11_z ⟨i, j, k⟩ / 2 },
              { i := i, j := j + yoffset, k := k2,
                weight := s.h01_z ⟨i, j, k⟩ + s.h10_z ⟨i, j, k⟩ / 2 },
              { i := i, j := j + yoffset, k := k3, weight := s.h11_z ⟨i, j, k⟩ / 2 } ]
        ∧ k0 = (s.k_corner ⟨i, j, k⟩ - 1) % s.localmesh.LocalNz
        ∧ k1 = s.k_corner ⟨i, j, k⟩ % s.localmesh.LocalNz
        ∧ (1 ≤ s.k_corner ⟨i, j, k⟩ → s.k_corner ⟨i, j, k⟩ ≤ s.localmesh.LocalNz - 3 →
            k0 = s.k_corner ⟨i, j, k⟩ - 1 ∧ k1 = s.k_corner ⟨i, j, k⟩
              ∧ k2 = s.k_corner ⟨i, j, k⟩ + 1 ∧ k3 = s.k_corner ⟨i, j, k⟩ + 2) := by
  refine ⟨_, _, _, _, getWeights_eq s i j k yoffset hn, rfl, rfl, ?_⟩
  intro hlo hhi
  have e : s.k_corner ⟨i, j, k⟩ % s.localmesh.LocalNz = s.k_corner ⟨i, j, k⟩ :=
    Int.emod_eq_of_lt (by omega) (by omega)
  have e1 : (s.k_corner ⟨i, j, k⟩ - 1) % s.localmesh.LocalNz = s.k_corner ⟨i, j, k⟩ - 1 :=
    Int.emod_eq_of_lt (by omega) (by omega)
  rw [e, e1]
  refine ⟨rfl, rfl, rfl, ?_⟩
  rw [if_neg (by omega)]
  ring

/-- Witness of the amended C24 on the example spline with `k_corner = 0`, `LocalNz = 4`. -/
theorem XZHermiteSpline.getWeightsForYApproximation_entries_witness :
    (1 : Int) ≤ zeroCornerSpline.localmesh.LocalNz
      ∧ ∃ k0 k1 k2 k3 : Int,
          zeroCornerSpline.getWeightsForYApproximation 1 1 0 1
              = [ { i := 1, j := 1 + 1, k := k0,
                    weight := -(zeroCornerSpline.h10_z ⟨1, 1, 0⟩) / 2 },
                  { i := 1, j := 1 + 1, k := k1,
                    weight := zeroCornerSpline.h00_z ⟨1, 1, 0⟩
                      - zeroCornerSpline.h11_z ⟨1, 1, 0⟩ / 2 },
                  { i := 1, j := 1 + 1, k := k2,
                    weight := zeroCornerSpline.h01_z ⟨1, 1, 0⟩
                      + zeroCornerSpline.h10_z ⟨1, 1, 0⟩ / 2 },
                  { i := 1, j := 1 + 1, k := k3,
                    weight := zeroCornerSpline.h11_z ⟨1, 1, 0⟩ / 2 } ]
            ∧ k0 = 3 ∧ k1 = 0 := by
  refine ⟨by decide, ?_⟩
  obtain ⟨k0, k1, k2, k3, h, h0, h1, _⟩ :=
    XZHermiteSpline.getWeightsForYApproximation_entries zeroCornerSpline 1 1 0 1 (by decide)
  exact ⟨k0, k1, k2, k3, h, h0.trans (by decide), h1.trans (by decide)⟩

/-- C25 (divergence): with `k_corner = -1` and `LocalNz = 4` the z positions returned by
`getWeightsForYApproximation` are `2, 3, 4, 0`; the third is `ncz` itself, outside
`[0, ncz)`, where the residues are `2, 3, 0, 1`. -/
theorem XZHermiteSpline.getWeightsForYApproximation_position_reaches_ncz :
    exampleSpline.localmesh.LocalNz = 4
      ∧ exampleSpline.k_corner ⟨1, 1, 0⟩ = -1
      ∧ (exampleSpline.getWeightsForYApproximation 1 1 0 1).map PositionsAndWeights.k
          = [2, 3, 4, 0]
      ∧ [((-1 : Int) - 1) % 4, (-1 : Int) % 4, ((-1 : Int) + 1) % 4, ((-1 : Int) + 2) % 4]
          = [2, 3, 0, 1] := by
  refine ⟨rfl, rfl, ?_, by decide⟩
  rw [getWeights_positions _ _ _ _ _ (by decide)]
  decide

/-- C27 (divergence): for the displacement `(5/2, -3/4)` at the point `(1, 1, 0)` of the
example mesh (`ny = 6`, `nz = 4`, `y_offset = 1`) `calcWeights` stores the compound index
`(2*6 + 2)*4 - 1 = 55`, which decodes to `(2, 1, 3)`: the row is `1`, not
`y + y_offset = 2`. -/
theorem XZHermiteSpline.calcWeights_corner_index_borrows_from_row :
    ⌊exampleDeltaZ ⟨1, 1, 0⟩⌋ = -1
      ∧ ∃ r, exampleSpline.calcWeights exampleDeltaX exampleDeltaZ exampleRegion3D = .ok r
          ∧ r.i_corner ⟨1, 1, 0⟩ = 55
          ∧ decodeCompound r.localmesh.LocalNy r.localmesh.LocalNz (r.i_corner ⟨1, 1, 0⟩)
              = ⟨2, 1, 3⟩
          ∧ (1 : Int) + r.y_offset = 2 := by
  obtain ⟨_, _, _, fz⟩ := example_floors
  obtain ⟨r, hr, hm, hy, _, _⟩ :=
    calcWeights_ok exampleDeltaX exampleDeltaZ exampleRegion3D exampleSpline
  refine ⟨fz _, r, hr, example_corner_index r hr, ?_, ?_⟩
  · rw [example_corner_index r hr, hm]
    decide
  · rw [hy]
    rfl

/-- C28: `applyToComponents(f)` returns the tensor whose components are `f(g11)`,
`f(g22)`, `f(g33)`, `f(g12)`, `f(g13)`, `f(g23)` in the matching slots, the receiver being
an argument that the function does not change; with `f` the identity the result is the
receiver. -/
theorem MetricTensor.applyToComponents_components {F : Type} (self : MetricTensor F)
    (function : F → F) :
    (self.applyToComponents function).g11_ = function self.g11_
      ∧ (self.applyToComponents function).g22_ = function self.g22_
      ∧ (self.applyToComponents function).g33_ = function self.g33_
      ∧ (self.applyToComponents function).g12_ = function self.g12_
      ∧ (self.applyToComponents function).g13_ = function self.g13_
      ∧ (self.applyToComponents function).g23_ = function self.g23_
      ∧ self.applyToComponents id = self := by
  refine ⟨rfl, rfl, rfl, rfl, rfl, rfl, rfl⟩

end BOUT

/-! ## Lemmas on the row assembly -/

namespace BOUT

/-- After the two clamping steps the x corner lies between `xstart` and `xend - 1`. -/
theorem cornerOffsets_i_corn_bounds (s : XZHermiteSpline) (dx dz : BoutReal)
    (h : s.localmesh.xstart ≤ s.xendGlobal - 1) :
    s.localmesh.xstart ≤ (s.cornerOffsets dx dz).i_corn
      ∧ (s.cornerOffsets dx dz).i_corn ≤ s.xendGlobal - 1 := by
  simp only [XZHermiteSpline.cornerOffsets]
  split_ifs <;> constructor <;> omega

/-- On a well-formed decomposition, for an x index of the mesh and with enough fuel,
`fromMeshToGlobal` returns the layout of a valid address whose local x and x process
index recompose `ix` and whose local z is the residue of `iz`. -/
theorem fromMeshToGlobal_address (CHECK fuel : Nat) (c : IndConverter) (ix iy iz : Int)
    (hc : c.wellFormed) (hx0 : 0 ≤ ix)
    (hx1 : ix < c.nxpe * (c.mesh.LocalNx - c.mesh.xstart * 2) + 2 * c.mesh.xstart)
    (hf : ((iy - c.mesh.ystart) / (c.mesh.LocalNy - c.mesh.ystart * 2)
            + c.mesh.YProcIndex).natAbs ≤ fuel) :
    ∃ t : LocalAddress, c.validAddress t
      ∧ c.fromMeshToGlobal CHECK fuel ix iy iz
          = some (.ok (((t.x * c.mesh.LocalNy + t.y) * c.mesh.LocalNz + t.z)
              + c.mesh.LocalNx * c.mesh.LocalNy * c.mesh.LocalNz
                * ((t.pey * c.nxpe + t.pex) * 1 + t.pez)))
      ∧ t.x + t.pex * (c.mesh.LocalNx - c.mesh.xstart * 2) = ix
      ∧ t.z = iz % c.mesh.LocalNz := by
  have hval := resolved_address_valid c ix iy iz hc hx0 hx1
  obtain ⟨hlnx, hlny, hNz, hnx, hny, _, _, _, _⟩ := hc
  obtain ⟨a, ha, hav, _, _⟩ := fromLocalToGlobal_of_valid CHECK c _ hval
  refine ⟨_, hval, ?_, ?_, ?_⟩
  · rw [fromMeshToGlobal_eq CHECK fuel c ix iy iz hlnx hlny hNz hnx hny hf, ← hav]
    exact congrArg some ha
  · simp only [sub_add_cancel]
  · simp only []
    rw [Int.emod_def, mul_comm]

/-- The layout is injective on valid addresses. -/
theorem layout_injective (c : IndConverter) (t u : LocalAddress) (ht : c.validAddress t)
    (hu : c.validAddress u)
    (h : ((t.x * c.mesh.LocalNy + t.y) * c.mesh.LocalNz + t.z)
          + c.mesh.LocalNx * c.mesh.LocalNy * c.mesh.LocalNz
            * ((t.pey * c.nxpe + t.pex) * 1 + t.pez)
        = ((u.x * c.mesh.LocalNy + u.y) * c.mesh.LocalNz + u.z)
          + c.mesh.LocalNx * c.mesh.LocalNy * c.mesh.LocalNz
            * ((u.pey * c.nxpe + u.pex) * 1 + u.pez)) :
    t = u := by
  rw [← decode_layout c t ht, h, decode_layout c u hu]

/-- Two integers less than `n` apart with equal residues modulo `n` are equal. -/
theorem eq_of_emod_eq_of_close (a b n : Int) (hn : 1 ≤ n) (h : a % n = b % n)
    (h1 : a - b < n) (h2 : b - a < n) : a = b := by
  have ha := Int.emod_add_ediv a n
  have hb := Int.emod_add_ediv b n
  have hd : a - b = n * (a / n - b / n) := by rw [mul_sub]; omega
  generalize a / n - b / n = d at hd
  rcases lt_trichotomy d 0 with hneg | hz | hpos
  · have : n * d ≤ n * (-1) := Int.mul_le_mul_of_nonneg_left (by omega) (by omega)
    omega
  · rw [hz, mul_zero] at hd
    omega
  · have : n * 1 ≤ n * d := Int.mul_le_mul_of_nonneg_left (by omega) (by omega)
    omega

/-- The x indices of the stencil columns are indices of the mesh. -/
theorem stencil_x_bounds (s : XZHermiteSpline) (dx dz : BoutReal) (j : Fin 4)
    (hxs : 1 ≤ s.localmesh.xstart)
    (hxe : s.localmesh.xend = s.localmesh.LocalNx - s.localmesh.xstart - 1)
    (h2 : 2 ≤ (s.localmesh.xend - s.localmesh.xstart + 1) * s.localmesh.NXPE) :
    0 ≤ (s.cornerOffsets dx dz).i_corn - 1 + (j.val : Int)
      ∧ (s.cornerOffsets dx dz).i_corn - 1 + (j.val : Int)
          < s.localmesh.NXPE * (s.localmesh.LocalNx - s.localmesh.xstart * 2)
              + 2 * s.localmesh.xstart := by
  have hx : s.xendGlobal = (s.localmesh.xend - s.localmesh.xstart + 1) * s.localmesh.NXPE
      + s.localmesh.xstart - 1 := rfl
  obtain ⟨b0, b1⟩ := cornerOffsets_i_corn_bounds s dx dz (by omega)
  have e : s.localmesh.NXPE * (s.localmesh.LocalNx - s.localmesh.xstart * 2)
      = (s.localmesh.xend - s.localmesh.xstart + 1) * s.localmesh.NXPE := by
    rw [hxe]; ring
  have hj := j.isLt
  constructor <;> omega

end BOUT

/-! ## The claims on the row assembly, the range check and the two translators -/

namespace BOUT

/-- C26: on a well-formed decomposition with `LocalNz >= 4`, at least one x guard cell
(`xstart >= 1`), `xend = LocalNx - xstart - 1` and at least two interior x columns in
total, and with enough fuel for the y wrap, the sixteen column addresses
`fromMeshToGlobal(i_corn - 1 + j, y + y_offset, k_corner - 1 + k)`, `j, k` in `0..3`, of
the row of a point are returned without a failed assertion, each lies in
`[0, nxpe*nype*LocalNx*LocalNy*LocalNz)`, and they are pairwise distinct. -/
theorem XZHermiteSpline.petscColumn_distinct_in_range (CHECK fuel : Nat)
    (s : XZHermiteSpline) (delta_x delta_z : Field3D) (i : Ind3D)
    (hc : IndConverter.wellFormed { mesh := s.localmesh })
    (hz : 4 ≤ s.localmesh.LocalNz) (hxs : 1 ≤ s.localmesh.xstart)
    (hxe : s.localmesh.xend = s.localmesh.LocalNx - s.localmesh.xstart - 1)
    (h2 : 2 ≤ (s.localmesh.xend - s.localmesh.xstart + 1) * s.localmesh.NXPE)
    (hf : (IndConverter.peyOffsetOf { mesh := s.localmesh } (i.y + s.y_offset)
            + s.localmesh.YProcIndex).natAbs ≤ fuel) :
    (∀ j k : Fin 4, ∃ a,
        s.petscColumn CHECK fuel i (s.cornerOffsets (delta_x i) (delta_z i)) j k
            = some (.ok a)
          ∧ 0 ≤ a
          ∧ a < s.localmesh.NXPE * s.localmesh.NYPE * s.localmesh.LocalNx
                * s.localmesh.LocalNy * s.localmesh.LocalNz)
      ∧ ∀ j k j2 k2 : Fin 4,
          s.petscColumn CHECK fuel i (s.cornerOffsets (delta_x i) (delta_z i)) j k
              = s.petscColumn CHECK fuel i (s.cornerOffsets (delta_x i) (delta_z i)) j2 k2 →
            j = j2 ∧ k = k2 := by
  have addr : ∀ j k : Fin 4, ∃ t : LocalAddress,
      IndConverter.validAddress { mesh := s.localmesh } t
        ∧ s.petscColumn CHECK fuel i (s.cornerOffsets (delta_x i) (delta_z i)) j k
            = some (.ok (((t.x * s.localmesh.LocalNy + t.y) * s.localmesh.LocalNz + t.z)
                + s.localmesh.LocalNx * s.localmesh.LocalNy * s.localmesh.LocalNz
                  * ((t.pey * s.localmesh.NXPE + t.pex) * 1 + t.pez)))
        ∧ t.x + t.pex * (s.localmesh.LocalNx - s.localmesh.xstart * 2)
            = (s.cornerOffsets (delta_x i) (delta_z i)).i_corn - 1 + (j.val : Int)
        ∧ t.z = ((s.cornerOffsets (delta_x i) (delta_z i)).k_corner - 1 + (k.val : Int))
                  % s.localmesh.LocalNz := by
    intro j k
    obtain ⟨b0, b1⟩ := stencil_x_bounds s (delta_x i) (delta_z i) j hxs hxe h2
    exact fromMeshToGlobal_address CHECK fuel { mesh := s.localmesh } _ _ _ hc b0 b1 hf
  constructor
  · intro j k
    obtain ⟨t, ht, he, _, _⟩ := addr j k
    obtain ⟨a, _, hav, h0, h1⟩ :=
      fromLocalToGlobal_of_valid CHECK { mesh := s.localmesh } t ht
    exact ⟨_, he, hav ▸ h0, hav ▸ h1⟩
  · intro j k j2 k2 h
    obtain ⟨t, ht, he, hx, hzt⟩ := addr j k
    obtain ⟨u, hu, he2, hx2, hzu⟩ := addr j2 k2
    rw [he, he2] at h
    simp only [Option.some.injEq, Except.ok.injEq] at h
    have htu := layout_injective { mesh := s.localmesh } t u ht hu h
    subst htu
    have hj := j.isLt
    have hj2 := j2.isLt
    have hk := k.isLt
    have hk2 := k2.isLt
    constructor
    · apply Fin.ext
      have := hx.symm.trans hx2
      omega
    · apply Fin.ext
      have := eq_of_emod_eq_of_close _ _ s.localmesh.LocalNz (by omega)
        (hzt.symm.trans hzu) (by omega) (by omega)
      omega

/-- Witness of C26 on the 2x2 decomposition (`LocalNz = 4`, `xstart = 1`, `xend = 4`) at
the point `(1, 1, 0)` displaced by `(5/2, -3/4)`. -/
theorem XZHermiteSpline.petscColumn_distinct_in_range_witness :
    IndConverter.wellFormed { mesh := exampleSpline.localmesh }
      ∧ (4 : Int) ≤ exampleSpline.localmesh.LocalNz
      ∧ (1 : Int) ≤ exampleSpline.localmesh.xstart
      ∧ (∀ j k : Fin 4, ∃ a,
          exampleSpline.petscColumn 3 2 ⟨1, 1, 0⟩
              (exampleSpline.cornerOffsets (exampleDeltaX ⟨1, 1, 0⟩)
                (exampleDeltaZ ⟨1, 1, 0⟩)) j k = some (.ok a)
            ∧ 0 ≤ a
            ∧ a < exampleSpline.localmesh.NXPE * exampleSpline.localmesh.NYPE
                  * exampleSpline.localmesh.LocalNx * exampleSpline.localmesh.LocalNy
                  * exampleSpline.localmesh.LocalNz)
      ∧ ∀ j k j2 k2 : Fin 4,
          exampleSpline.petscColumn 3 2 ⟨1, 1, 0⟩
              (exampleSpline.cornerOffsets (exampleDeltaX ⟨1, 1, 0⟩)
                (exampleDeltaZ ⟨1, 1, 0⟩)) j k
            = exampleSpline.petscColumn 3 2 ⟨1, 1, 0⟩
              (exampleSpline.cornerOffsets (exampleDeltaX ⟨1, 1, 0⟩)
                (exampleDeltaZ ⟨1, 1, 0⟩)) j2 k2 →
          j = j2 ∧ k = k2 := by
  have hc : IndConverter.wellFormed { mesh := exampleSpline.localmesh } := by
    unfold IndConverter.wellFormed; decide
  have h := XZHermiteSpline.petscColumn_distinct_in_range 3 2 exampleSpline
    exampleDeltaX exampleDeltaZ ⟨1, 1, 0⟩ hc (by decide) (by decide) (by decide)
    (by decide) (by decide)
  exact ⟨hc, by decide, by decide, h.1, h.2⟩

/-- C29: the offsets that `calcWeights` tests, `t = delta - floor(delta)` after the x
clamping, lie in `[0, 1]` for every pair of displacements, so no iteration raises and
`calcWeights` returns for every region. -/
theorem XZHermiteSpline.calcWeights_never_raises (s : XZHermiteSpline)
    (delta_x delta_z : Field3D) (region : List Ind3D) :
    (∀ i : Ind3D,
        0 ≤ (s.cornerOffsets (delta_x i) (delta_z i)).t_x
          ∧ (s.cornerOffsets (delta_x i) (delta_z i)).t_x ≤ 1
          ∧ 0 ≤ (s.cornerOffsets (delta_x i) (delta_z i)).t_z
          ∧ (s.cornerOffsets (delta_x i) (delta_z i)).t_z ≤ 1
          ∧ ∀ e, s.calcWeightsAt delta_x delta_z i ≠ .error e)
      ∧ (∃ r, s.calcWeights delta_x delta_z region = .ok r)
      ∧ ∀ e, s.calcWeights delta_x delta_z region ≠ .error e := by
  obtain ⟨r, hr, _⟩ := calcWeights_ok delta_x delta_z region s
  refine ⟨fun i => ?_, ⟨r, hr⟩, fun e he => ?_⟩
  · obtain ⟨a, b, c, d⟩ := cornerOffsets_range s (delta_x i) (delta_z i)
    refine ⟨a, b, c, le_of_lt d, fun e he => ?_⟩
    rw [calcWeightsAt_eq_ok] at he
    cases he
  · rw [hr] at he
    cases he

/-- C30: on the process with x index `px` in `[0, nxpe)` and y index in `[0, nype)`, for
every local interior point (`xstart <= x < xstart + lnx`, `ystart <= y < ystart + lny`,
`0 <= z < LocalNz`) and with enough fuel for the y wrap, `fromMeshToGlobal(x + px*lnx, y,
z)` is the three-argument `fromLocalToGlobal(x, y, z)`. -/
theorem IndConverter.fromMeshToGlobal_agrees_on_interior (CHECK fuel : Nat)
    (c : IndConverter) (x y z : Int)
    (hpx0 : 0 ≤ c.mesh.XProcIndex) (hpx1 : c.mesh.XProcIndex < c.nxpe)
    (hpy0 : 0 ≤ c.mesh.YProcIndex) (hpy1 : c.mesh.YProcIndex < c.nype)
    (hx0 : c.mesh.xstart ≤ x)
    (hx1 : x < c.mesh.xstart + (c.mesh.LocalNx - c.mesh.xstart * 2))
    (hy0 : c.mesh.ystart ≤ y)
    (hy1 : y < c.mesh.ystart + (c.mesh.LocalNy - c.mesh.ystart * 2))
    (hz0 : 0 ≤ z) (hz1 : z < c.mesh.LocalNz)
    (hf : c.mesh.YProcIndex.natAbs ≤ fuel) :
    c.fromMeshToGlobal CHECK fuel
        (x + c.mesh.XProcIndex * (c.mesh.LocalNx - c.mesh.xstart * 2)) y z
      = some (c.fromLocalToGlobal3 CHECK x y z) := by
  have ex : (x + c.mesh.XProcIndex * (c.mesh.LocalNx - c.mesh.xstart * 2) - c.mesh.xstart)
      / (c.mesh.LocalNx - c.mesh.xstart * 2) = c.mesh.XProcIndex := by
    have e : x + c.mesh.XProcIndex * (c.mesh.LocalNx - c.mesh.xstart * 2) - c.mesh.xstart
        = c.mesh.XProcIndex * (c.mesh.LocalNx - c.mesh.xstart * 2)
          + (x - c.mesh.xstart) := by ring
    rw [e]
    exact (digit_ediv_emod _ _ _ (by omega) (by omega)).1
  have ey : (y - c.mesh.ystart) / (c.mesh.LocalNy - c.mesh.ystart * 2) = 0 :=
    Int.ediv_eq_zero_of_lt (by omega) (by omega)
  have ez : z / c.mesh.LocalNz = 0 := Int.ediv_eq_zero_of_lt hz0 hz1
  have em : max 0 (min (c.nxpe - 1) c.mesh.XProcIndex) = c.mesh.XProcIndex := by
    simp only [max_def, min_def]; split_ifs <;> omega
  rw [fromMeshToGlobal_eq CHECK fuel c _ y z (by omega) (by omega) (by omega) (by omega)
    (by omega) (by rw [ey, zero_add]; exact hf)]
  rw [ex, ey, ez, em, zero_mul, zero_mul, sub_zero, sub_zero, zero_add, add_sub_cancel_right,
    Int.emod_eq_of_lt hpy0 hpy1]
  rfl

/-- Witness of C30 on the 2x2 decomposition, on the process `(1, 0)`, at the local point
`(2, 3, 1)`: both translators return the address `205`. -/
theorem IndConverter.fromMeshToGlobal_agrees_on_interior_witness :
    exampleConverter.fromMeshToGlobal 3 1 (2 + 1 * 4) 3 1
        = some (exampleConverter.fromLocalToGlobal3 3 2 3 1)
      ∧ exampleConverter.fromLocalToGlobal3 3 2 3 1 = .ok 205 :=
  ⟨IndConverter.fromMeshToGlobal_agrees_on_interior 3 1 exampleConverter 2 3 1
      (by decide) (by decide) (by decide) (by decide) (by decide) (by decide) (by decide)
      (by decide) (by decide) (by decide) (by decide), by rfl⟩

end BOUT

/-! ## Periodicity of `fromMeshToGlobal`, grid-aligned displacements, interior corners -/

namespace BOUT

/-- With no derivative terms (`h10 = h11 = 0` on both axes) the sixteen weights vanish
outside the 2x2 block of indices `5, 6, 9, 10`. -/
theorem newWeightsAt_aligned (a0 a1 b0 b1 : BoutReal) :
    newWeightsAt a0 a1 0 0 b0 b1 0 0 0 = 0
      ∧ newWeightsAt a0 a1 0 0 b0 b1 0 0 1 = 0
      ∧ newWeightsAt a0 a1 0 0 b0 b1 0 0 2 = 0
      ∧ newWeightsAt a0 a1 0 0 b0 b1 0 0 3 = 0
      ∧ newWeightsAt a0 a1 0 0 b0 b1 0 0 4 = 0
      ∧ newWeightsAt a0 a1 0 0 b0 b1 0 0 5 = a0 * b0
      ∧ newWeightsAt a0 a1 0 0 b0 b1 0 0 6 = a0 * b1
      ∧ newWeightsAt a0 a1 0 0 b0 b1 0 0 7 = 0
      ∧ newWeightsAt a0 a1 0 0 b0 b1 0 0 8 = 0
      ∧ newWeightsAt a0 a1 0 0 b0 b1 0 0 9 = a1 * b0
      ∧ newWeightsAt a0 a1 0 0 b0 b1 0 0 10 = a1 * b1
      ∧ newWeightsAt a0 a1 0 0 b0 b1 0 0 11 = 0
      ∧ newWeightsAt a0 a1 0 0 b0 b1 0 0 12 = 0
      ∧ newWeightsAt a0 a1 0 0 b0 b1 0 0 13 = 0
      ∧ newWeightsAt a0 a1 0 0 b0 b1 0 0 14 = 0
      ∧ newWeightsAt a0 a1 0 0 b0 b1 0 0 15 = 0 := by
  obtain ⟨e0, e1, e2, e3, e4, e5, e6, e7, e8, e9, e10, e11, e12, e13, e14, e15⟩ :=
    newWeightsAt_values a0 a1 0 0 b0 b1 0 0
  rw [e0, e1, e2, e3, e4, e5, e6, e7, e8, e9, e10, e11, e12, e13, e14, e15]
  refine ⟨?_, ?_, ?_, ?_, ?_, ?_, ?_, ?_, ?_, ?_, ?_, ?_, ?_, ?_, ?_, ?_⟩ <;> ring

/-- The values of the four basis polynomials at `t = 0` and at `t = 1`. -/
theorem basis_at_grid :
    (h00 0 = 1 ∧ h01 0 = 0 ∧ h10 0 = 0 ∧ h11 0 = 0)
      ∧ (h00 1 = 0 ∧ h01 1 = 1 ∧ h10 1 = 0 ∧ h11 1 = 0) := by
  simp only [h00, h01, h10, h11]
  norm_num

/-- The value of the loop body of `interpolate` when the stored weights are those of
vanishing derivative terms. -/
theorem interpolateAt_aligned (r : XZHermiteSpline) (nb : Int → Int → Int → Int)
    (f : FieldData) (i : Ind3D) (a0 a1 b0 b1 : BoutReal)
    (hw : ∀ w : Fin 16, r.newWeights w i = newWeightsAt a0 a1 0 0 b0 b1 0 0 w) :
    r.interpolateAt nb f i
      = a0 * b0 * f (nb (r.i_corner i) 0 0) + a0 * b1 * f (nb (r.i_corner i) 0 1)
          + a1 * b0 * f (nb (r.i_corner i) 1 0) + a1 * b1 * f (nb (r.i_corner i) 1 1) := by
  obtain ⟨e0, e1, e2, e3, e4, e5, e6, e7, e8, e9, e10, e11, e12, e13, e14, e15⟩ :=
    newWeightsAt_aligned a0 a1 b0 b1
  rw [interpolateAt_eq, hw 0, hw 1, hw 2, hw 3, hw 4, hw 5, hw 6, hw 7, hw 8, hw 9, hw 10,
    hw 11, hw 12, hw 13, hw 14, hw 15,
    e0, e1, e2, e3, e4, e5, e6, e7, e8, e9, e10, e11, e12, e13, e14, e15]
  ring

/-- C31: on a decomposition with `lnx, lny, LocalNz, nxpe, nype >= 1` and with enough
fuel for the y wrap of both calls, `fromMeshToGlobal(ix, iy + nype*lny, iz)` and
`fromMeshToGlobal(ix, iy, iz + LocalNz)` are `fromMeshToGlobal(ix, iy, iz)`, for every
`ix`, `iy`, `iz`, and the call returns; and for every decomposition with `nype >= 1`
and every argument there is a fuel with which the two wrapping loops finish. -/
theorem IndConverter.fromMeshToGlobal_periodic (CHECK fuel : Nat) (c : IndConverter)
    (ix iy iz : Int)
    (hlnx : 1 ≤ c.mesh.LocalNx - c.mesh.xstart * 2)
    (hlny : 1 ≤ c.mesh.LocalNy - c.mesh.ystart * 2)
    (hNz : 1 ≤ c.mesh.LocalNz) (hnx : 1 ≤ c.nxpe) (hny : 1 ≤ c.nype)
    (hf : (c.peyOffsetOf iy + c.mesh.YProcIndex).natAbs ≤ fuel)
    (hf2 : (c.peyOffsetOf iy + c.nype + c.mesh.YProcIndex).natAbs ≤ fuel) :
    c.fromMeshToGlobal CHECK fuel ix (iy + c.nype * (c.mesh.LocalNy - c.mesh.ystart * 2)) iz
        = c.fromMeshToGlobal CHECK fuel ix iy iz
      ∧ c.fromMeshToGlobal CHECK fuel ix iy (iz + c.mesh.LocalNz)
          = c.fromMeshToGlobal CHECK fuel ix iy iz
      ∧ (∃ r, c.fromMeshToGlobal CHECK fuel ix iy iz = some r)
      ∧ ∀ (d : IndConverter) (jx jy jz : Int), 1 ≤ d.nype →
          ∃ n r, d.fromMeshToGlobal CHECK n jx jy jz = some r := by
  simp only [IndConverter.peyOffsetOf] at hf hf2
  have hq : (iy + c.nype * (c.mesh.LocalNy - c.mesh.ystart * 2) - c.mesh.ystart)
      / (c.mesh.LocalNy - c.mesh.ystart * 2)
      = (iy - c.mesh.ystart) / (c.mesh.LocalNy - c.mesh.ystart * 2) + c.nype := by
    have e : iy + c.nype * (c.mesh.LocalNy - c.mesh.ystart * 2) - c.mesh.ystart
        = (iy - c.mesh.ystart) + c.nype * (c.mesh.LocalNy - c.mesh.ystart * 2) := by ring
    rw [e, Int.add_mul_ediv_right _ _ (by omega)]
  have hz : (iz + c.mesh.LocalNz) / c.mesh.LocalNz = iz / c.mesh.LocalNz + 1 := by
    have := Int.add_mul_ediv_right iz 1 (show c.mesh.LocalNz ≠ 0 by omega)
    rwa [one_mul] at this
  refine ⟨?_, ?_, ?_, ?_⟩
  · rw [fromMeshToGlobal_eq CHECK fuel c ix _ iz hlnx hlny hNz hnx hny (by rw [hq]; exact hf2),
      fromMeshToGlobal_eq CHECK fuel c ix iy iz hlnx hlny hNz hnx hny hf, hq]
    have e1 : iy + c.nype * (c.mesh.LocalNy - c.mesh.ystart * 2)
        - ((iy - c.mesh.ystart) / (c.mesh.LocalNy - c.mesh.ystart * 2) + c.nype)
          * (c.mesh.LocalNy - c.mesh.ystart * 2)
        = iy - (iy - c.mesh.ystart) / (c.mesh.LocalNy - c.mesh.ystart * 2)
          * (c.mesh.LocalNy - c.mesh.ystart * 2) := by ring
    have e2 : ((iy - c.mesh.ystart) / (c.mesh.LocalNy - c.mesh.ystart * 2) + c.nype
          + c.mesh.YProcIndex) % c.nype
        = ((iy - c.mesh.ystart) / (c.mesh.LocalNy - c.mesh.ystart * 2)
          + c.mesh.YProcIndex) % c.nype := by
      rw [add_right_comm, Int.add_emod_self]
    rw [e1, e2]
  · rw [fromMeshToGlobal_eq CHECK fuel c ix iy _ hlnx hlny hNz hnx hny hf,
      fromMeshToGlobal_eq CHECK fuel c ix iy iz hlnx hlny hNz hnx hny hf, hz]
    have e1 : iz + c.mesh.LocalNz - (iz / c.mesh.LocalNz + 1) * c.mesh.LocalNz
        = iz - iz / c.mesh.LocalNz * c.mesh.LocalNz := by ring
    rw [e1]
  · exact ⟨_, fromMeshToGlobal_eq CHECK fuel c ix iy iz hlnx hlny hNz hnx hny hf⟩
  · intro d jx jy jz hd
    obtain ⟨p1, hb, ha⟩ := wrap_eq_emod d.nype hd
      ((IndConverter.divToNeg (jy - d.mesh.ystart) (d.mesh.LocalNy - d.mesh.ystart * 2)
        + d.mesh.YProcIndex).natAbs)
      (IndConverter.divToNeg (jy - d.mesh.ystart) (d.mesh.LocalNy - d.mesh.ystart * 2)
        + d.mesh.YProcIndex) le_rfl
    refine ⟨(IndConverter.divToNeg (jy - d.mesh.ystart)
      (d.mesh.LocalNy - d.mesh.ystart * 2) + d.mesh.YProcIndex).natAbs, ?_⟩
    unfold IndConverter.fromMeshToGlobal
    simp only [hb, ha]
    exact ⟨_, rfl⟩

/-- Witness of C31 on the 2x2 decomposition (`lny = 4`, `LocalNz = 4`): the address of
`(6, -3, 9)` is also that of `(6, -3 + 2*4, 9)` and of `(6, -3, 9 + 4)`. -/
theorem IndConverter.fromMeshToGlobal_periodic_witness :
    exampleConverter.fromMeshToGlobal 3 5 6 (-3 + 2 * 4) 9
        = exampleConverter.fromMeshToGlobal 3 5 6 (-3) 9
      ∧ exampleConverter.fromMeshToGlobal 3 5 6 (-3) (9 + 4)
        = exampleConverter.fromMeshToGlobal 3 5 6 (-3) 9
      ∧ exampleConverter.fromMeshToGlobal 3 5 6 (-3) 9 = some (.ok 485) := by
  have h := IndConverter.fromMeshToGlobal_periodic 3 5 exampleConverter 6 (-3) 9
    (by decide) (by decide) (by decide) (by decide) (by decide) (by decide) (by decide)
  exact ⟨h.1, h.2.1, by rfl⟩

/-- C32: for `t_x`, `t_z` each in `{0, 1}` exactly one of the sixteen weights is `1` and
the other fifteen are `0`, the unit weight being at index `5` for `(0, 0)`, `9` for
`(1, 0)`, `6` for `(0, 1)` and `10` for `(1, 1)`; hence, after `calcWeights`, at a region
point with such offsets the value that `interpolate` computes is the field value at the
corner shifted by `(t_x, t_z)`, and at the clamped upper boundary with `t_z = 0` it is
the field value at column `i_corn + 1`. -/
theorem XZHermiteSpline.calcWeights_grid_aligned (s : XZHermiteSpline)
    (delta_x delta_z : Field3D) (region : List Ind3D) :
    (∀ w : Fin 16,
        newWeightsAt (h00 0) (h01 0) (h10 0) (h11 0) (h00 0) (h01 0) (h10 0) (h11 0) w
            = (if w = 5 then 1 else 0)
          ∧ newWeightsAt (h00 1) (h01 1) (h10 1) (h11 1) (h00 0) (h01 0) (h10 0) (h11 0) w
            = (if w = 9 then 1 else 0)
          ∧ newWeightsAt (h00 0) (h01 0) (h10 0) (h11 0) (h00 1) (h01 1) (h10 1) (h11 1) w
            = (if w = 6 then 1 else 0)
          ∧ newWeightsAt (h00 1) (h01 1) (h10 1) (h11 1) (h00 1) (h01 1) (h10 1) (h11 1) w
            = (if w = 10 then 1 else 0))
      ∧ ∃ r, s.calcWeights delta_x delta_z region = .ok r
          ∧ ∀ i ∈ region, ∀ (nb : Int → Int → Int → Int) (f : FieldData),
              ((s.cornerOffsets (delta_x i) (delta_z i)).t_x = 0 →
                (s.cornerOffsets (delta_x i) (delta_z i)).t_z = 0 →
                r.interpolateAt nb f i = f (nb (r.i_corner i) 0 0))
              ∧ ((s.cornerOffsets (delta_x i) (delta_z i)).t_x = 1 →
                (s.cornerOffsets (delta_x i) (delta_z i)).t_z = 0 →
                r.interpolateAt nb f i = f (nb (r.i_corner i) 1 0))
              ∧ ((s.cornerOffsets (delta_x i) (delta_z i)).t_x = 0 →
                (s.cornerOffsets (delta_x i) (delta_z i)).t_z = 1 →
                r.interpolateAt nb f i = f (nb (r.i_corner i) 0 1))
              ∧ ((s.cornerOffsets (delta_x i) (delta_z i)).t_x = 1 →
                (s.cornerOffsets (delta_x i) (delta_z i)).t_z = 1 →
                r.interpolateAt nb f i = f (nb (r.i_corner i) 1 1))
              ∧ (s.localmesh.xstart ≤ s.xendGlobal - 1 → s.xendGlobal ≤ ⌊delta_x i⌋ →
                (s.cornerOffsets (delta_x i) (delta_z i)).t_z = 0 →
                (s.cornerOffsets (delta_x i) (delta_z i)).i_corn = s.xendGlobal - 1
                  ∧ r.interpolateAt nb f i = f (nb (r.i_corner i) 1 0)) := by
  obtain ⟨⟨g0, g1, g2, g3⟩, ⟨u0, u1, u2, u3⟩⟩ := basis_at_grid
  constructor
  · intro w
    rw [g0, g1, g2, g3, u0, u1, u2, u3]
    obtain ⟨e0, e1, e2, e3, e4, e5, e6, e7, e8, e9, e10, e11, e12, e13, e14, e15⟩ :=
      newWeightsAt_aligned 1 0 1 0
    obtain ⟨a0, a1, a2, a3, a4, a5, a6, a7, a8, a9, a10, a11, a12, a13, a14, a15⟩ :=
      newWeightsAt_aligned 0 1 1 0
    obtain ⟨b0, b1, b2, b3, b4, b5, b6, b7, b8, b9, b10, b11, b12, b13, b14, b15⟩ :=
      newWeightsAt_aligned 1 0 0 1
    obtain ⟨c0, c1, c2, c3, c4, c5, c6, c7, c8, c9, c10, c11, c12, c13, c14, c15⟩ :=
      newWeightsAt_aligned 0 1 0 1
    simp only [mul_one, mul_zero] at e5 e6 e9 e10 a5 a6 a9 a10 b5 b6 b9 b10 c5 c6 c9 c10
    fin_cases w
    · exact ⟨e0.trans (if_neg (by decide)).symm, a0.trans (if_neg (by decide)).symm,
        b0.trans (if_neg (by decide)).symm, c0.trans (if_neg (by decide)).symm⟩
    · exact ⟨e1.trans (if_neg (by decide)).symm, a1.trans (if_neg (by decide)).symm,
        b1.trans (if_neg (by decide)).symm, c1.trans (if_neg (by decide)).symm⟩
    · exact ⟨e2.trans (if_neg (by decide)).symm, a2.trans (if_neg (by decide)).symm,
        b2.trans (if_neg (by decide)).symm, c2.trans (if_neg (by decide)).symm⟩
    · exact ⟨e3.trans (if_neg (by decide)).symm, a3.trans (if_neg (by decide)).symm,
        b3.trans (if_neg (by decide)).symm, c3.trans (if_neg (by decide)).symm⟩
    · exact ⟨e4.trans (if_neg (by decide)).symm, a4.trans (if_neg (by decide)).symm,
        b4.trans (if_neg (by decide)).symm, c4.trans (if_neg (by decide)).symm⟩
    · exact ⟨e5.trans (if_pos (by decide)).symm, a5.trans (if_neg (by decide)).symm,
        b5.trans (if_neg (by decide)).symm, c5.trans (if_neg (by decide)).symm⟩
    · exact ⟨e6.trans (if_neg (by decide)).symm, a6.trans (if_neg (by decide)).symm,
        b6.trans (if_pos (by decide)).symm, c6.trans (if_neg (by decide)).symm⟩
    · exact ⟨e7.trans (if_neg (by decide)).symm, a7.trans (if_neg (by decide)).symm,
        b7.trans (if_neg (by decide)).symm, c7.trans (if_neg (by decide)).symm⟩
    · exact ⟨e8.trans (if_neg (by decide)).symm, a8.trans (if_neg (by decide)).symm,
        b8.trans (if_neg (by decide)).symm, c8.trans (if_neg (by decide)).symm⟩
    · exact ⟨e9.trans (if_neg (by decide)).symm, a9.trans (if_pos (by decide)).symm,
        b9.trans (if_neg (by decide)).symm, c9.trans (if_neg (by decide)).symm⟩
    · exact ⟨e10.trans (if_neg (by decide)).symm, a10.trans (if_neg (by decide)).symm,
        b10.trans (if_neg (by decide)).symm, c10.trans (if_pos (by decide)).symm⟩
    · exact ⟨e11.trans (if_neg (by decide)).symm, a11.trans (if_neg (by decide)).symm,
        b11.trans (if_neg (by decide)).symm, c11.trans (if_neg (by decide)).symm⟩
    · exact ⟨e12.trans (if_neg (by decide)).symm, a12.trans (if_neg (by decide)).symm,
        b12.trans (if_neg (by decide)).symm, c12.trans (if_neg (by decide)).symm⟩
    · exact ⟨e13.trans (if_neg (by decide)).symm, a13.trans (if_neg (by decide)).symm,
        b13.trans (if_neg (by decide)).symm, c13.trans (if_neg (by decide)).symm⟩
    · exact ⟨e14.trans (if_neg (by decide)).symm, a14.trans (if_neg (by decide)).symm,
        b14.trans (if_neg (by decide)).symm, c14.trans (if_neg (by decide)).symm⟩
    · exact ⟨e15.trans (if_neg (by decide)).symm, a15.trans (if_neg (by decide)).symm,
        b15.trans (if_neg (by decide)).symm, c15.trans (if_neg (by decide)).symm⟩
  · obtain ⟨r, hr, _, _, hin, _⟩ := calcWeights_ok delta_x delta_z region s
    refine ⟨r, hr, fun i hi nb f => ?_⟩
    have hw : ∀ w : Fin 16, r.newWeights w i = _ :=
      fun w => congrFun (congrArg PointData.newWeights (hin i hi)) w
    simp only [XZHermiteSpline.pointValues] at hw
    have key : ∀ tx tz : BoutReal, ∀ (a0 a1 b0 b1 : BoutReal),
        (s.cornerOffsets (delta_x i) (delta_z i)).t_x = tx →
        (s.cornerOffsets (delta_x i) (delta_z i)).t_z = tz →
        h00 tx = a0 → h01 tx = a1 → h10 tx = 0 → h11 tx = 0 →
        h00 tz = b0 → h01 tz = b1 → h10 tz = 0 → h11 tz = 0 →
        r.interpolateAt nb f i
          = a0 * b0 * f (nb (r.i_corner i) 0 0) + a0 * b1 * f (nb (r.i_corner i) 0 1)
            + a1 * b0 * f (nb (r.i_corner i) 1 0)
            + a1 * b1 * f (nb (r.i_corner i) 1 1) := by
      intro tx tz a0 a1 b0 b1 htx htz p0 p1 p2 p3 q0 q1 q2 q3
      apply interpolateAt_aligned
      intro w
      rw [hw w, htx, htz, p0, p1, p2, p3, q0, q1, q2, q3]
    refine ⟨fun hx hz => ?_, fun hx hz => ?_, fun hx hz => ?_, fun hx hz => ?_,
      fun hm h1 hz => ?_⟩
    · rw [key 0 0 1 0 1 0 hx hz g0 g1 g2 g3 g0 g1 g2 g3]; ring
    · rw [key 1 0 0 1 1 0 hx hz u0 u1 u2 u3 g0 g1 g2 g3]; ring
    · rw [key 0 1 1 0 0 1 hx hz g0 g1 g2 g3 u0 u1 u2 u3]; ring
    · rw [key 1 1 0 1 0 1 hx hz u0 u1 u2 u3 u0 u1 u2 u3]; ring
    · have hco := cornerOffsets_upper s (delta_x i) (delta_z i) hm h1
      have hx : (s.cornerOffsets (delta_x i) (delta_z i)).t_x = 1 := by rw [hco]
      have hic : (s.cornerOffsets (delta_x i) (delta_z i)).i_corn = s.xendGlobal - 1 := by
        rw [hco]
      refine ⟨hic, ?_⟩
      rw [key 1 0 0 1 1 0 hx hz u0 u1 u2 u3 g0 g1 g2 g3]; ring

/-- Witness of C32 at the point `(2, 1, 0)` of the example, displaced by `(19/2, 2)`: the
corner is clamped to `xend - 1 = 7` with `t_x = 1`, `t_z = 0`, and the value computed is
the field value one column up from the corner. -/
theorem XZHermiteSpline.calcWeights_grid_aligned_witness :
    exampleSpline.localmesh.xstart ≤ exampleSpline.xendGlobal - 1
      ∧ exampleSpline.xendGlobal ≤ ⌊exampleDeltaX ⟨2, 1, 0⟩⌋
      ∧ (exampleSpline.cornerOffsets (exampleDeltaX ⟨2, 1, 0⟩) (alignedDeltaZ ⟨2, 1, 0⟩)).t_z
          = 0
      ∧ ∃ r, exampleSpline.calcWeights exampleDeltaX alignedDeltaZ exampleRegion3D = .ok r
          ∧ r.interpolateAt exampleNb exampleField ⟨2, 1, 0⟩
              = exampleField (exampleNb (r.i_corner ⟨2, 1, 0⟩) 1 0) := by
  obtain ⟨_, f2, _, _⟩ := example_floors
  have hm : exampleSpline.localmesh.xstart ≤ exampleSpline.xendGlobal - 1 := by decide
  have h1 : exampleSpline.xendGlobal ≤ ⌊exampleDeltaX ⟨2, 1, 0⟩⌋ := by rw [f2]; decide
  have hz : (exampleSpline.cornerOffsets (exampleDeltaX ⟨2, 1, 0⟩)
      (alignedDeltaZ ⟨2, 1, 0⟩)).t_z = 0 := by
    rw [cornerOffsets_upper _ _ _ hm h1]
    simp [alignedDeltaZ]
  obtain ⟨_, r, hr, h⟩ := XZHermiteSpline.calcWeights_grid_aligned exampleSpline
    exampleDeltaX alignedDeltaZ exampleRegion3D
  exact ⟨hm, h1, hz, r, hr,
    ((h ⟨2, 1, 0⟩ (by simp [exampleRegion3D]) exampleNb exampleField).2.2.2.2 hm h1 hz).2⟩

/-- C33: on a mesh with `xstart <= xend - 1`, `calcWeights` returns and for every point
of the region, whatever `delta_x` is, the corner x index from which the stored values
are computed satisfies `xstart <= i_corn <= xend - 1`; so the columns `i_corn` and
`i_corn + 1` lie in `[xstart, xend]` and so does the position `i_corn + t_x`. -/
theorem XZHermiteSpline.calcWeights_corner_interior (s : XZHermiteSpline)
    (delta_x delta_z : Field3D) (region : List Ind3D)
    (hm : s.localmesh.xstart ≤ s.xendGlobal - 1) :
    ∃ r, s.calcWeights delta_x delta_z region = .ok r
      ∧ ∀ i ∈ region,
          r.i_corner i
              = (((s.cornerOffsets (delta_x i) (delta_z i)).i_corn * s.localmesh.LocalNy)
                  + (i.y + s.y_offset)) * s.localmesh.LocalNz
                + (s.cornerOffsets (delta_x i) (delta_z i)).k_corner
            ∧ s.localmesh.xstart ≤ (s.cornerOffsets (delta_x i) (delta_z i)).i_corn
            ∧ (s.cornerOffsets (delta_x i) (delta_z i)).i_corn ≤ s.xendGlobal - 1
            ∧ s.localmesh.xstart ≤ (s.cornerOffsets (delta_x i) (delta_z i)).i_corn + 1
            ∧ (s.cornerOffsets (delta_x i) (delta_z i)).i_corn + 1 ≤ s.xendGlobal
            ∧ ((s.localmesh.xstart : Int) : ℚ)
                ≤ (((s.cornerOffsets (delta_x i) (delta_z i)).i_corn : Int) : ℚ)
                  + (s.cornerOffsets (delta_x i) (delta_z i)).t_x
            ∧ (((s.cornerOffsets (delta_x i) (delta_z i)).i_corn : Int) : ℚ)
                  + (s.cornerOffsets (delta_x i) (delta_z i)).t_x
                ≤ ((s.xendGlobal : Int) : ℚ) := by
  obtain ⟨r, hr, _, _, hin, _⟩ := calcWeights_ok delta_x delta_z region s
  refine ⟨r, hr, fun i hi => ?_⟩
  obtain ⟨b0, b1⟩ := cornerOffsets_i_corn_bounds s (delta_x i) (delta_z i) hm
  obtain ⟨t0, t1, _, _⟩ := cornerOffsets_range s (delta_x i) (delta_z i)
  have hic : r.i_corner i = _ := congrArg PointData.i_corner (hin i hi)
  have c0 : ((s.localmesh.xstart : Int) : ℚ)
      ≤ (((s.cornerOffsets (delta_x i) (delta_z i)).i_corn : Int) : ℚ) := by
    exact_mod_cast b0
  have c1 : (((s.cornerOffsets (delta_x i) (delta_z i)).i_corn : Int) : ℚ)
      ≤ ((s.xendGlobal : Int) : ℚ) - 1 := by
    have : (s.cornerOffsets (delta_x i) (delta_z i)).i_corn ≤ s.xendGlobal - 1 := b1
    exact_mod_cast this
  refine ⟨hic, b0, b1, by omega, by omega, by linarith, by linarith⟩

/-- Witness of C33 on the example mesh (`xstart = 1`, `xend = 8`) at the point `(2, 1, 0)`,
displaced by `19/2` in x: the corner is `7`. -/
theorem XZHermiteSpline.calcWeights_corner_interior_witness :
    exampleSpline.localmesh.xstart ≤ exampleSpline.xendGlobal - 1
      ∧ ∃ r, exampleSpline.calcWeights exampleDeltaX exampleDeltaZ exampleRegion3D = .ok r
          ∧ exampleSpline.localmesh.xstart
              ≤ (exampleSpline.cornerOffsets (exampleDeltaX ⟨2, 1, 0⟩)
                  (exampleDeltaZ ⟨2, 1, 0⟩)).i_corn
          ∧ (exampleSpline.cornerOffsets (exampleDeltaX ⟨2, 1, 0⟩)
                  (exampleDeltaZ ⟨2, 1, 0⟩)).i_corn ≤ exampleSpline.xendGlobal - 1 := by
  have hm : exampleSpline.localmesh.xstart ≤ exampleSpline.xendGlobal - 1 := by decide
  obtain ⟨r, hr, h⟩ := XZHermiteSpline.calcWeights_corner_interior exampleSpline
    exampleDeltaX exampleDeltaZ exampleRegion3D hm
  obtain ⟨_, a, b, _⟩ := h ⟨2, 1, 0⟩ (by simp [exampleRegion3D])
  exact ⟨hm, r, hr, a, b⟩

end BOUT

/-! ## Lemmas on `LaplacePetscAmg::solve` -/

namespace BOUT

/-- A loop of no iteration. -/
theorem forLoop_zero {σ : Type} (body : Int → σ → σ) (init : σ) :
    forLoop 0 body init = init := rfl

/-- The last iteration of a loop. -/
theorem forLoop_succ {σ : Type} (n : Nat) (body : Int → σ → σ) (init : σ) :
    forLoop ((n : Int) + 1) body init = body (n : Int) (forLoop (n : Int) body init) := by
  have e1 : ((n : Int) + 1).toNat = n + 1 := by omega
  have e2 : (n : Int).toNat = n := by omega
  unfold forLoop
  rw [e1, e2, List.range_succ, List.foldl_append]
  rfl

/-- A loop of two iterations. -/
theorem forLoop_two {σ : Type} (body : Int → σ → σ) (init : σ) :
    forLoop 2 body init = body 1 (body 0 init) := rfl

/-- The Neumann branch of the outer guard block: every outer guard cell receives the value
that `val` has on entry to the block plus the interior value; `val` and the last
interior column are left as they are. -/
theorem outerGuard_neumann (self : LaplacePetscAmg) (m : InvertFlags)
    (sqrt : BoutReal → BoutReal) (mesh : Mesh) (yindex : Int) (x0 : FieldPerp)
    (st : SolveLocals) (hlast : mesh.lastX = true)
    (hflag : self.outer_boundary_flags &&& m.INVERT_AC_GRAD ≠ 0) :
    (self.outerGuard m sqrt mesh yindex x0 st).val = st.val
      ∧ (∀ z, (self.outerGuard m sqrt mesh yindex x0 st).result mesh.xend z
          = st.result mesh.xend z)
      ∧ ∀ k : Int, 0 ≤ k → k < self.Nz_local →
          (self.outerGuard m sqrt mesh yindex x0 st).result (mesh.xend + 1) (k + self.mzstart)
            = st.val + st.result mesh.xend (k + self.mzstart) := by
  have inv : ∀ n : Nat,
      (forLoop (n : Int) (fun k (st : SolveLocals) =>
          ({ st with
              tval := arraySet st.tval k
                (x0.data (mesh.xend + 1) (k + self.mzstart)
                  * sqrt (mesh.coordinates.g_11 mesh.xend yindex)
                  * mesh.coordinates.dx mesh.xend yindex),
              result := perpSet st.result (mesh.xend + 1) (k + self.mzstart)
                (st.val + st.result mesh.xend (k + self.mzstart)) } : SolveLocals)) st).val
          = st.val
        ∧ (∀ z, (forLoop (n : Int) (fun k (st : SolveLocals) =>
          ({ st with
              tval := arraySet st.tval k
                (x0.data (mesh.xend + 1) (k + self.mzstart)
                  * sqrt (mesh.coordinates.g_11 mesh.xend yindex)
                  * mesh.coordinates.dx mesh.xend yindex),
              result := perpSet st.result (mesh.xend + 1) (k + self.mzstart)
                (st.val + st.result mesh.xend (k + self.mzstart)) } : SolveLocals))
            st).result mesh.xend z = st.result mesh.xend z)
        ∧ ∀ k : Int, 0 ≤ k → k < (n : Int) →
          (forLoop (n : Int) (fun k (st : SolveLocals) =>
          ({ st with
              tval := arraySet st.tval k
                (x0.data (mesh.xend + 1) (k + self.mzstart)
                  * sqrt (mesh.coordinates.g_11 mesh.xend yindex)
                  * mesh.coordinates.dx mesh.xend yindex),
              result := perpSet st.result (mesh.xend + 1) (k + self.mzstart)
                (st.val + st.result mesh.xend (k + self.mzstart)) } : SolveLocals))
            st).result (mesh.xend + 1) (k + self.mzstart)
            = st.val + st.result mesh.xend (k + self.mzstart) := by
    intro n
    induction n with
    | zero =>
      refine ⟨rfl, fun _ => rfl, fun k h0 h1 => ?_⟩
      simp only [Nat.cast_zero] at h1
      omega
    | succ n ih =>
      obtain ⟨iv, ir, ig⟩ := ih
      rw [Nat.cast_succ, forLoop_succ]
      refine ⟨iv, fun z => ?_, fun k h0 h1 => ?_⟩
      · simp only [perpSet]
        rw [if_neg (by omega)]
        exact ir z
      · simp only [perpSet]
        by_cases hk : k = (n : Int)
        · subst hk
          rw [if_pos (by simp), iv, ir]
        · rw [if_neg (by omega)]
          exact ig k h0 (by omega)
  unfold LaplacePetscAmg.outerGuard
  simp only [hlast, if_true, hflag, ne_eq, not_false_eq_true]
  rcases le_or_lt 0 self.Nz_local with hN | hN
  · obtain ⟨n, hn⟩ := Int.eq_ofNat_of_zero_le hN
    rw [hn]
    obtain ⟨iv, ir, ig⟩ := inv n
    exact ⟨iv, ir, fun k h0 h1 => ig k h0 h1⟩
  · have e : forLoop self.Nz_local = forLoop (σ := SolveLocals) 0 := by
      funext body init
      unfold forLoop
      have : self.Nz_local.toNat = 0 := by omega
      rw [this]
      rfl
    rw [e]
    exact ⟨rfl, fun _ => rfl, fun k h0 h1 => by omega⟩

end BOUT

/-! ## The claims on `LaplacePetscAmg::solve` -/

namespace BOUT

/-- The square root of `1` in the library function used by the examples. -/
theorem sqrt_one_example : Rat.sqrt 1 = 1 := by
  have h := Rat.sqrt_eq 1
  rw [mul_one, abs_one] at h
  exact h

/-- On the example solver the copy loop leaves in `val` the last value it read. -/
theorem copyResult_example (st : SolveLocals) :
    (exampleLaplace.copyResult exampleMesh st).val = st.xs 3
      ∧ (exampleLaplace.copyResult exampleMesh st).result 3 0 = st.xs 2 := by
  constructor
  · rfl
  · simp [LaplacePetscAmg.copyResult, exampleLaplace, exampleMesh, forLoop_two, perpSet]

/-- C34 (divergence): on the example process at the last X with `INVERT_AC_GRAD` in
`outer_boundary_flags`, a solver that converges to `5` everywhere and `x0 = 3` in the
outer guard cells with unit geometry, `solve` returns a result whose guard-minus-interior
difference at `k = 0` is `5`, the value left in `val` by the copy loop, and not the
gradient value `x0 * sqrt(g_11) * dx = 3`. -/
theorem LaplacePetscAmg.solve_outer_gradient_uses_stale_val :
    exampleMesh.lastX = true
      ∧ exampleLaplace.outer_boundary_flags &&& exampleFlags.INVERT_AC_GRAD ≠ 0
      ∧ (∃ r, exampleLaplace.solve exampleFlags Rat.sqrt exampleMesh exampleRhs exampleX0
            0 (fun _ => 0) (fun _ _ => 0) = .ok r
          ∧ r.data (exampleMesh.xend + 1) (0 + exampleLaplace.mzstart)
              - r.data exampleMesh.xend (0 + exampleLaplace.mzstart) = 5)
      ∧ exampleX0.data (exampleMesh.xend + 1) (0 + exampleLaplace.mzstart)
          * Rat.sqrt (exampleMesh.coordinates.g_11 exampleMesh.xend exampleRhs.index)
          * exampleMesh.coordinates.dx exampleMesh.xend exampleRhs.index = 3 := by
  refine ⟨rfl, by decide, ?_, ?_⟩
  · have hreason : ∀ a b, exampleLaplace.ksp.KSPGetConvergedReason a b = 2 := fun _ _ => rfl
    have hxs : ∀ a b, exampleLaplace.ksp.KSPSolve a b = fun _ => 5 := fun _ _ => rfl
    unfold LaplacePetscAmg.solve
    simp only [hreason, hxs, show ¬ ((2 : Int) ≤ 0) by decide, if_false]
    refine ⟨_, rfl, ?_⟩
    simp only []
    obtain ⟨_, hx, hg⟩ := outerGuard_neumann exampleLaplace exampleFlags Rat.sqrt exampleMesh
      exampleRhs.index exampleX0
      (exampleLaplace.innerGuard exampleFlags Rat.sqrt exampleMesh exampleRhs.index exampleX0
        (exampleLaplace.copyResult exampleMesh
          { exampleLaplace.assemble exampleFlags Rat.sqrt exampleMesh exampleRhs exampleX0
              0 (fun _ => 0) (fun _ _ => 0) with xs := fun _ => 5 }))
      rfl (by decide)
    rw [hg 0 le_rfl (by decide), hx, add_sub_cancel_right]
    have hinner : ∀ st, exampleLaplace.innerGuard exampleFlags Rat.sqrt exampleMesh
        exampleRhs.index exampleX0 st = st := fun _ => rfl
    rw [hinner, (copyResult_example _).1]
  · simp [exampleX0, exampleMesh, sqrt_one_example]

/-- C35 (divergence): two solvers that differ only in `inner_boundary_flags`
(`INVERT_SET` against no flag), on a process at the last X and not at the first X with
`INVERT_AC_GRAD` in `outer_boundary_flags`, assemble different outer values `tval`
(`3` against `0`) and different right-hand sides on the last interior column (`-3`
against `0`). -/
theorem LaplacePetscAmg.solve_outer_tval_depends_on_inner_flags :
    exampleLaplaceNoInnerFlag = { exampleLaplace with inner_boundary_flags := 0 }
      ∧ exampleMesh.lastX = true ∧ exampleMesh.firstX = false
      ∧ (exampleLaplace.assemble exampleFlags Rat.sqrt exampleMesh exampleRhs exampleX0
          0 (fun _ => 0) (fun _ _ => 0)).tval 0 = 3
      ∧ (exampleLaplaceNoInnerFlag.assemble exampleFlags Rat.sqrt exampleMesh exampleRhs
          exampleX0 0 (fun _ => 0) (fun _ _ => 0)).tval 0 = 0
      ∧ (exampleLaplace.assemble exampleFlags Rat.sqrt exampleMesh exampleRhs exampleX0
          0 (fun _ => 0) (fun _ _ => 0)).bs 2 = -3
      ∧ (exampleLaplaceNoInnerFlag.assemble exampleFlags Rat.sqrt exampleMesh exampleRhs
          exampleX0 0 (fun _ => 0) (fun _ _ => 0)).bs 2 = 0 := by
  refine ⟨rfl, rfl, rfl, ?_, ?_, ?_, ?_⟩
  · simp [LaplacePetscAmg.assemble, LaplacePetscAmg.load, LaplacePetscAmg.outerTval,
      LaplacePetscAmg.outerRhs, forLoop_two, exampleLaplace, exampleMesh, exampleFlags,
      exampleRhs, exampleX0, VecSetValues, arraySet, sqrt_one_example]
  · simp [LaplacePetscAmg.assemble, LaplacePetscAmg.load, LaplacePetscAmg.outerTval,
      LaplacePetscAmg.outerRhs, forLoop_two, exampleLaplace, exampleLaplaceNoInnerFlag,
      exampleMesh, exampleFlags, exampleRhs, exampleX0, VecSetValues, arraySet,
      sqrt_one_example]
  · simp [LaplacePetscAmg.assemble, LaplacePetscAmg.load, LaplacePetscAmg.outerTval,
      LaplacePetscAmg.outerRhs, forLoop_two, exampleLaplace, exampleMesh, exampleFlags,
      exampleRhs, exampleX0, VecSetValues, arraySet, sqrt_one_example]
  · simp [LaplacePetscAmg.assemble, LaplacePetscAmg.load, LaplacePetscAmg.outerTval,
      LaplacePetscAmg.outerRhs, forLoop_two, exampleLaplace, exampleLaplaceNoInnerFlag,
      exampleMesh, exampleFlags, exampleRhs, exampleX0, VecSetValues, arraySet,
      sqrt_one_example]

end BOUT
